import Mathlib

/-!
# XMT session engine: a shallow embedding of `c2/session.go`

The development models the outbound path of a `Session` (`queue`, `write`,
`Write`, `Send`), the job tracker (`newJobID`, `Task`, `accept`, `handle`), the
timing setters (`SetDuration`), the close path (`Close`, `shutdown`,
`Packets`), the loop of `listen` with `wait`, and the packet selection (`pick`,
`next`).  Channels are bounded FIFO buffers, the jobs map is an association
list, machine integers are naturals with explicit truncation where the source
converts (`uint16(m)`, `uint16(i)`, `uint8(j)`, `s.errors++`).  What the
outside world does during a pass of the loop (the branch `wait` takes, the
results of `Connect` and of the exchange) is an input of the model.

It also models one exchange (`session`), the duration computed by `wait`,
`SpawnProfile` and `MigrateProfile` with the bytes they put on the pipe, and,
outside `c2`, `util.Decode`, `xerr.Wrap`, the JSON map built by
`filter.Filter.MarshalJSON` and the line parser of `local.release`.
-/

namespace XMT

/-! ## Errors -/

/-- Error values the modelled functions return; one constructor per error
value built or named in `c2/session.go`. -/
inductive Err where
  /-- The value `io.ErrClosedPipe`. -/
  | ErrClosedPipe
  /-- The value `ErrFullBuffer` ("buffer is full"). -/
  | ErrFullBuffer
  /-- The value `ErrNoTask` ("no Job created for client Session"). -/
  | ErrNoTask
  /-- The value `data.ErrLimit`, a write stopped by a chunk limit. -/
  | ErrLimit
  /-- The error "empty or nil Job". -/
  | emptyJob
  /-- The error "cannot be a client session". -/
  | clientSession
  /-- The error "migration in progress". -/
  | migration
  /-- The error "cannot assign a Job ID". -/
  | noJobID
  /-- The error "job ID is in use". -/
  | jobInUse
  /-- Any other failure of a payload write. -/
  | other
  deriving DecidableEq, Repr

/-! ## Packets -/

/-- Modelled from the spec: `com.Flag` (package `com` is not part of the
sources).  The control bits and the three 16-bit fragment lanes `group`,
`len` and `position`, which round-trip through their setters. -/
structure Flag where
  channel : Bool := false
  channelEnd : Bool := false
  error : Bool := false
  multi : Bool := false
  group : Nat := 0
  len : Nat := 0
  position : Nat := 0
  deriving DecidableEq, Repr

/-- Modelled from the spec: `Flag.SetGroup`, stores the 16-bit group id. -/
def Flag.SetGroup (f : Flag) (g : Nat) : Flag := { f with group := g }

/-- Modelled from the spec: `Flag.SetLen`, stores the 16-bit part count. -/
def Flag.SetLen (f : Flag) (n : Nat) : Flag := { f with len := n }

/-- Modelled from the spec: `Flag.SetPosition`, stores the 16-bit part index. -/
def Flag.SetPosition (f : Flag) (n : Nat) : Flag := { f with position := n }

/-- Modelled from the spec: `Flag.Set(com.FlagError)`, raises the error bit. -/
def Flag.SetError (f : Flag) : Flag := { f with error := true }

/-- Modelled from the spec: `com.Packet` with its embedded `data.Chunk`
(neither is part of the sources): id, job, flags, device id (the empty list
is the empty id), tags, the unread payload bytes and the chunk limit
(0 means no limit). -/
structure Packet where
  ID : Nat := 0
  Job : Nat := 0
  Flags : Flag := {}
  Device : List Nat := []
  Tags : List Nat := []
  buf : List Nat := []
  Limit : Nat := 0
  deriving DecidableEq, Repr

/-- Modelled from the spec: `device.ID.Empty`. -/
def deviceEmpty (d : List Nat) : Bool := d.isEmpty

/-- Modelled from the spec: `Packet.Size`, "returns current payload length". -/
def Packet.Size (p : Packet) : Nat := p.buf.length

/-- Modelled from the spec: `Packet.Clear` / `Packet.Reset`, "frees payload". -/
def Packet.Clear (p : Packet) : Packet := { p with buf := [] }

/-- Number of bytes a chunk with the given limit can still take. -/
def chunkRoom (c : Packet) (want : Nat) : Nat :=
  if c.Limit = 0 then want else min want (c.Limit - c.buf.length)

/-- Modelled from the spec: `n.WriteTo(c)`.  Moves as many unread payload
bytes of `n` into `c` as the limit of `c` allows; returns the number of bytes
moved, `ErrLimit` when bytes are left over, the advanced source and the
filled destination. -/
def Packet.WriteTo (n c : Packet) : Nat × Option Err × Packet × Packet :=
  let v := chunkRoom c n.buf.length
  (v, if v < n.buf.length then some Err.ErrLimit else none,
    { n with buf := n.buf.drop v }, { c with buf := c.buf ++ n.buf.take v })

/-! ## Channels -/

/-- A buffered Go channel: the queued values (oldest first), `cap`, and
whether `close` has been called on it. -/
structure Chan (α : Type) where
  buf : List α := []
  cap : Nat := 0
  closed : Bool := false
  deriving DecidableEq, Repr

/-- The statement `select { case ch <- v: default: }`: enqueue when a slot is
free, otherwise drop the value. -/
def Chan.trySend {α : Type} (ch : Chan α) (v : α) : Chan α :=
  if ch.buf.length < ch.cap then { ch with buf := ch.buf ++ [v] } else ch

/-! ## Session -/

/-- Modelled from the spec: the session state word (its type is not part of
the sources), one boolean per named bit. -/
structure State where
  closing : Bool := false
  shutdown : Bool := false
  closed : Bool := false
  sendClose : Bool := false
  recvClose : Bool := false
  wakeClose : Bool := false
  canRecv : Bool := false
  channel : Bool := false
  channelValue : Bool := false
  channelUpdated : Bool := false
  moving : Bool := false
  last : Nat := 0
  deriving DecidableEq, Repr

/-- The fields of a `Job` the session code fills in (`Start`, `Complete`,
`Session` and the context are left out); `Typ` is the source field `Type`,
`Status` 0 is the zero value, `Update` tells whether the callback is non-nil
and `cancelled` whether `cancel` has been called. -/
structure Job where
  ID : Nat := 0
  Typ : Nat := 0
  Status : Nat := 0
  Frags : Nat := 0
  Current : Nat := 0
  Result : Option Packet := none
  Error : String := ""
  Update : Bool := false
  cancelled : Bool := false
  deriving DecidableEq, Repr

/-- Modelled from the spec: the Job status values, in the order the spec lists
them (`Waiting, Accepted, Receiving, Completed, Error`). -/
def StatusWaiting : Nat := 0

/-- Modelled from the spec: status `Accepted`. -/
def StatusAccepted : Nat := 1

/-- Modelled from the spec: status `Receiving`. -/
def StatusReceiving : Nat := 2

/-- Modelled from the spec: status `Completed`. -/
def StatusCompleted : Nat := 3

/-- Modelled from the spec: status `Error`. -/
def StatusError : Nat := 4

/-- The parent `Listener` of a server-side session: whether its server `s` is
set, its `WakeClosed` state bit, and the hashes (here the ids) sent on the
server's `delSession` channel. -/
structure Listener where
  name : String := ""
  server : Bool := false
  wakeClosed : Bool := false
  delSession : List (List Nat) := []
  deriving DecidableEq, Repr

/-- Modelled from the spec: the `Profile` capability set as the session loop
uses it.  `Next` is the host `Next()` returns (wrapper and transform are left
out), `Sleep` and `Jitter` the values of those calls, and `Switch` answers
`switchFailed` after a failed attempt and `switchOk` otherwise. -/
structure Profile where
  Next : String := ""
  Sleep : Int := 0
  Jitter : Int := 0
  switchOk : Bool := false
  switchFailed : Bool := false
  deriving DecidableEq, Repr

/-- Modelled from the spec: `Profile.Switch(prev_failed)`. -/
def Profile.Switch (p : Profile) (e : Bool) : Bool :=
  if e then p.switchFailed else p.switchOk

/-- A `Proxy` attached to a session: the tags it reports and whether `Close`
has been called on it. -/
structure Proxy where
  tags : List Nat := []
  closed : Bool := false
  deriving DecidableEq, Repr

/-- An entry of the event queue `s.m`: the session's `Shutdown` callback, or
the `Update` callback of the Job with the given id. -/
inductive Event where
  | shutdown
  | job (id : Nat)
  deriving DecidableEq, Repr

/-- The fields of `Session` the modelled functions read or write.  `jobs` is
`none` for a nil map; `DeviceID` is `s.Device.ID`; `p` is the profile of the
embedded connection; `Shutdown` tells whether the callback is non-nil; `tick`
is the ticker with whether it runs; `events` is the queue of the event
dispatcher `s.m` and `muxClosed` whether `s.m.close()` ran; `chCloses` counts
the executions of `close(s.ch)`. -/
structure Session where
  parent : Option Listener := none
  jobs : Option (List (Nat × Job)) := none
  send : Chan Packet := {}
  chn : Option (Chan Packet) := none
  wake : Option (Chan Unit) := none
  state : State := {}
  sleep : Int := 0
  jitter : Nat := 0
  ID : List Nat := []
  DeviceID : List Nat := []
  host : String := ""
  errors : Nat := 0
  p : Profile := {}
  swap : Option Profile := none
  peek : Option Packet := none
  recv : Option (Chan Packet) := none
  proxy : Option Proxy := none
  Shutdown : Bool := false
  tick : Option Bool := none
  events : List Event := []
  muxClosed : Bool := false
  chCloses : Nat := 0
  deriving DecidableEq, Repr

/-- Process-wide values the session code reads: `limits.Frag`, `local.UUID`,
the constant `task.MvTime`, the successive results `rand c` of
`util.FastRand()` seen by the sampling loop of `newJobID`, and the result
`frand` of the `util.FastRand()` call in `write`.  The packet ids `SvShutdown`,
`RvResult` and `RvMigrate` and the helpers `nextPacket`, `mergeTags` and
`ReadString` belong to files that are not part of the sources and are taken
as parameters: `nextPacket q n id t` gets the queued packets of `s.send`, the
candidate, the session id and the tags and returns the packet to emit, the
packet to keep in `peek` and what is left of the queue; `readString p` returns
the text `handle` stores in `Job.Error` and the packet as the read leaves it. -/
structure Env where
  Frag : Int := 0
  UUID : List Nat := [1]
  MvTime : Nat := 0
  rand : Nat → Nat := fun _ => 0
  frand : Nat := 0
  SvShutdown : Nat := 1
  RvResult : Nat := 20
  RvMigrate : Nat := 21
  nextPacket : List Packet → Packet → List Nat → List Nat →
    Packet × Option Packet × List Packet := fun q n _ _ => (n, none, q)
  mergeTags : List Nat → List Nat → List Nat := fun a b => a ++ b
  readString : Packet → String × Packet := fun p => ("", p)

/-- Source `Session.isMoving`. -/
def Session.isMoving (s : Session) : Bool := s.parent.isNone && s.state.moving

/-- Source `Session.Jitter`. -/
def Session.Jitter (s : Session) : Nat := s.jitter

/-- Source `Session.Time`. -/
def Session.Time (s : Session) : Int := s.sleep

/-- Source `Session.Wake`: a non-blocking send on the wake channel of a
client-side session. -/
def Session.Wake (s : Session) : Session :=
  match s.wake with
  | none => s
  | some wk =>
    if s.parent.isSome || s.state.wakeClose then s
    else { s with wake := some (wk.trySend ()) }

/-- Source `Session.queue`: fills an empty device id with `local.UUID` and
offers the packet to `chn` when it is set, else to `send`; a full channel
drops it.  Returns the session and the (possibly updated) packet. -/
def Session.queue (env : Env) (s : Session) (n : Packet) : Session × Packet :=
  if s.state.sendClose then (s, n)
  else
    let n1 := if deviceEmpty n.Device then { n with Device := env.UUID } else n
    match s.chn with
    | some ch => ({ s with chn := some (ch.trySend n1) }, n1)
    | none => ({ s with send := s.send.trySend n1 }, n1)

/-- The statement `if s.queue(c); s.state.Channel() { s.Wake() }`. -/
def Session.queueWake (env : Env) (s : Session) (n : Packet) : Session × Packet :=
  let r := s.queue env n
  (if r.1.state.channel then r.1.Wake else r.1, r.2)

/-- The fragment loop of `Session.write`,
`for i := 0; i <= m && t < x; i++ { ... }`.  The first argument counts the
values of `i` still allowed (`m + 1 - i`); `t` is the running byte total,
`n` the source packet, `err` the last `WriteTo` error. -/
def fragLoop (env : Env) (L m x g : Nat) (hdr : Packet) :
    Nat → Nat → Nat → Packet → Session → Option Err → Session × Packet × Option Err
  | 0, _, _, n, s, err => (s, n, err)
  | fuel + 1, i, t, n, s, err =>
    if t < x then
      let c : Packet := { ID := hdr.ID, Job := hdr.Job, Flags := hdr.Flags, Limit := L }
      let c := { c with Flags := c.Flags.SetGroup g }
      let c := { c with Flags := c.Flags.SetLen (m % 65536) }
      let c := { c with Flags := c.Flags.SetPosition (i % 65536) }
      let r := n.WriteTo c
      let v := r.1
      let e := r.2.1
      let c :=
        if e ≠ none ∧ e ≠ some Err.ErrLimit then
          let c1 := r.2.2.2
          let c1 := { c1 with Flags := c1.Flags.SetLen 0 }
          let c1 := { c1 with Flags := c1.Flags.SetPosition 0 }
          let c1 := { c1 with Flags := c1.Flags.SetError }
          c1.Clear
        else r.2.2.2
      fragLoop env L m x g hdr fuel (i + 1) (t + v) r.2.2.1 (s.queueWake env c).1 e
    else (s, n, err)

/-- Source `Session.write`.  Returns the session, the caller's packet as the
call leaves it, and the error. -/
def Session.write (env : Env) (s : Session) (w : Bool) (n : Packet) :
    Session × Packet × Option Err :=
  if s.state.closing || s.state.sendClose then (s, n, some Err.ErrClosedPipe)
  else if env.Frag ≤ 0 ∨ (n.Size : Int) ≤ env.Frag then
    if !w && ((match s.chn with
               | some ch => decide (ch.buf.length + 1 ≥ ch.cap)
               | none => false)
              || decide (s.send.buf.length + 1 ≥ s.send.cap)) then
      (s, n, some Err.ErrFullBuffer)
    else
      let r := s.queueWake env n
      (r.1, r.2, none)
  else
    let L := env.Frag.toNat
    let m := n.Size / L + 1
    if !w && decide (s.send.buf.length + m ≥ s.send.cap) then
      (s, n, some Err.ErrFullBuffer)
    else
      let x := n.Size
      let g := env.frand % 65536
      let r := fragLoop env L m x g n (m + 1) 0 0 n s none
      (r.1, r.2.1.Clear, r.2.2)

/-- Source `Session.Write`. -/
def Session.Write (env : Env) (s : Session) (p : Packet) : Session × Packet × Option Err :=
  s.write env false p

/-- Source `Session.Send`: the error of `write` is discarded. -/
def Session.Send (env : Env) (s : Session) (p : Packet) : Session × Packet :=
  let r := s.write env true p
  (r.1, r.2.1)

/-! ## Jobs -/

/-- Map read `s.jobs[i]` (a nil map reads as empty). -/
def jobsGet (jobs : Option (List (Nat × Job))) (i : Nat) : Option Job :=
  match jobs with
  | none => none
  | some m => m.lookup i

/-- Map write `s.jobs[k] = j`: replaces an entry with the same key. -/
def jobsSet (m : List (Nat × Job)) (k : Nat) (j : Job) : List (Nat × Job) :=
  (k, j) :: m.filter (fun e => e.1 != k)

/-- The sampling loop of `newJobID`, `for ; c < 512; c++ { ... }`; the first
argument counts the values of `c` still allowed (`512 - c`). -/
def newJobIDLoop (env : Env) (s : Session) : Nat → Nat → Nat
  | 0, _ => 0
  | fuel + 1, c =>
    let i := env.rand c % 65536
    if (jobsGet s.jobs i).isNone && decide (i > 1) then i
    else newJobIDLoop env s fuel (c + 1)

/-- Source `Session.newJobID`. -/
def Session.newJobID (env : Env) (s : Session) : Nat := newJobIDLoop env s 512 0

/-- Source `Session.Task`; `none` is the nil packet.  Returns the session, the
job handle and the error. -/
def Session.Task (env : Env) (s : Session) (n : Option Packet) :
    Session × Option Job × Option Err :=
  match n with
  | none => (s, none, some Err.emptyJob)
  | some n =>
    match s.parent, s.jobs with
    | none, _ => (s, none, some Err.clientSession)
    | some _, none => (s, none, some Err.clientSession)
    | some _, some jobs =>
      if s.isMoving then (s, none, some Err.migration)
      else
        let job := if n.Job = 0 then s.newJobID env else n.Job
        if job = 0 then (s, none, some Err.noJobID)
        else
          let n1 := { n with Job := job }
          let n2 := if deviceEmpty n1.Device then { n1 with Device := s.DeviceID } else n1
          if (jobs.lookup n2.Job).isSome then (s, none, some Err.jobInUse)
          else
            let r := s.write env false n2
            match r.2.2 with
            | some err => (r.1, none, some err)
            | none =>
              let j : Job := { ID := r.2.1.Job, Typ := r.2.1.ID }
              ({ r.1 with jobs := (r.1.jobs.map fun m => jobsSet m r.2.1.Job j) }, some j, none)

/-- Big-endian bytes of a 64-bit value, as `WriteUint64` appends them. -/
def be64 (v : Nat) : List Nat :=
  (List.range 8).map fun k => (v / 256 ^ (7 - k)) % 256

/-- Source `Session.SetDuration`; `t` is the duration in nanoseconds. -/
def Session.SetDuration (env : Env) (s : Session) (t : Int) (j : Int) :
    Session × Option Job × Option Err :=
  let s1 : Session :=
    if j < 0 then { s with jitter := 0 }
    else if j > 100 then { s with jitter := 100 }
    else { s with jitter := j.toNat % 256 }
  let s2 : Session := { s1 with sleep := t }
  if s2.parent.isNone then (s2, none, some Err.ErrNoTask)
  else
    let n : Packet := { ID := env.MvTime, Device := s2.DeviceID }
    let n := { n with buf := n.buf ++ [s2.jitter] }
    let n := { n with buf := n.buf ++ be64 (s2.sleep % 2 ^ 64).toNat }
    s2.Task env (some n)

/-- Source `Session.SetJitter`. -/
def Session.SetJitter (env : Env) (s : Session) (j : Int) : Session × Option Job × Option Err :=
  s.SetDuration env s.sleep j

/-! ## Shutdown and Close -/

/-- First statement of `shutdown`: queue the `Shutdown` callback when it is set
and the Moving bit is clear. -/
def Session.queueShutdown (s : Session) : Session :=
  if s.Shutdown && !s.state.moving then { s with events := s.events ++ [Event.shutdown] }
  else s

/-- The statement `if s.proxy != nil { s.proxy.Close() }`. -/
def Session.closeProxy (s : Session) : Session :=
  match s.proxy with
  | some px => { s with proxy := some { px with closed := true } }
  | none => s

/-- The statement `if !s.state.SendClosed() { ...; close(s.send) }`. -/
def Session.closeSend (s : Session) : Session :=
  if !s.state.sendClose then
    { s with state := { s.state with sendClose := true },
             send := { s.send with closed := true } }
  else s

/-- The statement `if s.wake != nil && !s.state.WakeClosed() { ...; close(s.wake) }`. -/
def Session.closeWake (s : Session) : Session :=
  match s.wake with
  | some wk =>
    if !s.state.wakeClose then
      { s with state := { s.state with wakeClose := true },
               wake := some { wk with closed := true } }
    else s
  | none => s

/-- The statement
`if s.recv != nil && !s.state.CanRecv() && !s.state.RecvClosed() { ...; close(s.recv) }`. -/
def Session.closeRecv (s : Session) : Session :=
  match s.recv with
  | some rc =>
    if !s.state.canRecv && !s.state.recvClose then
      { s with state := { s.state with recvClose := true },
               recv := some { rc with closed := true } }
    else s
  | none => s

/-- The statement `if s.tick != nil { s.tick.Stop() }`. -/
def Session.stopTick (s : Session) : Session :=
  match s.tick with
  | some _ => { s with tick := some false }
  | none => s

/-- The statement that sets `stateClosed` and tells the listener's server to
drop the session; the hash sent on `delSession` is represented by the session
id itself. -/
def Session.setClosed (s : Session) : Session :=
  let s : Session := { s with state := { s.state with closed := true } }
  match s.parent with
  | some l =>
    if l.server && !l.wakeClosed then
      { s with parent := some { l with delSession := l.delSession ++ [s.ID] } }
    else s
  | none => s

/-- Last statements of `shutdown`: close the event dispatcher, then
`close(s.ch)` unless the session is migrating (the lock release of that case
is left out). -/
def Session.closeDone (s : Session) : Session :=
  let s : Session := { s with muxClosed := true }
  if s.isMoving then s else { s with chCloses := s.chCloses + 1 }

/-- Source `Session.shutdown`: its statements in order. -/
def Session.shutdown (s : Session) : Session :=
  (((((((s.queueShutdown).closeProxy).closeSend).closeWake).closeRecv).stopTick).setClosed).closeDone

/-- Source `Session.Close`.  On a client-side session the caller then waits on
`s.ch`, which the loop of `listen` closes; that wait is not part of the
returned state. -/
def Session.Close (s : Session) : Session :=
  if s.state.closing then s
  else
    let s : Session := { s with state := { s.state with channelValue := false } }
    let s : Session := { s with state := { s.state with channelUpdated := false } }
    let s : Session := { s with state := { s.state with channel := false } }
    let s : Session := { s with state := { s.state with closing := true } }
    if s.parent.isSome then s.shutdown else s.Wake

/-- Source `Session.Packets`: returns the session and the receive channel. -/
def Session.Packets (s : Session) : Session × Option (Chan Packet) :=
  if s.recv.isSome && s.state.canRecv then (s, s.recv)
  else if s.isMoving then (s, none)
  else
    let rc : Chan Packet := { cap := 256 }
    ({ s with recv := some rc, state := { s.state with canRecv := true } }, some rc)

/-! ## The session loop -/

/-- Source constant `maxErrors`. -/
def maxErrors : Nat := 3

/-- The branch the `select` at the end of `wait` takes. -/
inductive WaitEvent where
  | wake
  | tick
  | done
  deriving DecidableEq, Repr

/-- Source `Session.wait`, given the branch its `select` takes.  The duration
programmed into the ticker is not part of the state: the ticker is only marked
as running. -/
def Session.wait (s : Session) (ev : WaitEvent) : Session :=
  if decide (s.sleep < 1) || s.state.closing then s
  else
    let s : Session := { s with tick := some true }
    match ev with
    | WaitEvent.wake =>
      { s with wake := s.wake.map fun wk => { wk with buf := wk.buf.tail } }
    | WaitEvent.tick => s
    | WaitEvent.done => { s with state := { s.state with closing := true } }

/-- The block `if s.swap != nil { ... }` of `listen`: the pending profile
becomes the profile `s.p`, and the results of its `Next`, `Sleep` and `Jitter`
are taken over when they pass the guards. -/
def Session.applySwap (s : Session) : Session :=
  match s.swap with
  | none => s
  | some pr =>
    let s : Session := { s with p := pr, swap := none }
    let s : Session := if pr.Next.length > 0 then { s with host := pr.Next } else s
    let s : Session := if pr.Sleep > 0 then { s with sleep := pr.Sleep } else s
    if pr.Jitter ≥ 0 ∧ pr.Jitter ≤ 100 then { s with jitter := pr.Jitter.toNat % 256 } else s

/-- What the outside world does during one pass of the loop of `listen`: the
branch `wait` takes, whether `Connect` succeeds and whether the exchange
`session(c)` returns true. -/
structure Cycle where
  ev : WaitEvent := WaitEvent.tick
  connectOk : Bool := true
  exchangeOk : Bool := true
  deriving DecidableEq, Repr

/-- The block of `listen` that a Closing (and not Moving) session runs: the
final Shutdown packet goes into `peek`, `Shutdown` is set and the channel bits
are cleared. -/
def Session.markShutdown (env : Env) (s : Session) : Session :=
  if s.state.closing then
    let s : Session := { s with peek := some { ID := env.SvShutdown, Device := s.ID } }
    let s : Session := { s with state := { s.state with shutdown := true } }
    let s : Session := { s with state := { s.state with channelValue := false } }
    let s : Session := { s with state := { s.state with channelUpdated := false } }
    { s with state := { s.state with channel := false } }
  else s

/-- The statement `if s.p.Switch(e) { s.host, s.w, s.t = s.p.Next() }`. -/
def Session.switchHost (s : Session) (e : Bool) : Session :=
  if s.p.Switch e then { s with host := s.p.Next } else s

/-- The part of the loop body from `Connect` on: the error budget.  Returns the
session, the flag `e` and whether the loop is left (`break`).  The exchange
`session(c)` enters through its result only. -/
def listenConnect (c : Cycle) (s : Session) : Session × Bool × Bool :=
  if !c.connectOk then
    if s.state.closing then (s, false, true)
    else if s.errors ≤ maxErrors then
      ({ s with errors := (s.errors + 1) % 256 }, true, false)
    else (s, true, true)
  else
    let e := !c.exchangeOk
    let s : Session :=
      if e then { s with errors := (s.errors + 1) % 256 } else { s with errors := 0 }
    if s.errors > maxErrors then (s, e, true)
    else if s.state.shutdown then (s, e, true)
    else (s, e, false)

/-- The body of the loop of `listen` after `wait`; `e` is the local flag of
the loop.  Returns the session, the flag and whether the loop is left
(`break`). -/
def listenBody (env : Env) (c : Cycle) (s : Session) (e : Bool) : Session × Bool × Bool :=
  if s.state.closing && s.state.moving then (s, e, true)
  else listenConnect c (((s.markShutdown env).applySwap).switchHost e)

/-- State of a run of `listen`: the session, the flag `e`, the number of
passes of the loop started, and whether the loop was left and `shutdown`
run. -/
structure Run where
  s : Session
  e : Bool := false
  passes : Nat := 0
  stopped : Bool := false
  deriving DecidableEq, Repr

/-- One pass of the loop of `listen`: `wait`, then the body; when the body
breaks, `shutdown` runs. -/
def listenPass (env : Env) (r : Run) (c : Cycle) : Run :=
  if r.stopped then r
  else
    let b := listenBody env c (r.s.wait c.ev) r.e
    if b.2.2 then { s := b.1.shutdown, e := b.2.1, passes := r.passes + 1, stopped := true }
    else { s := b.1, e := b.2.1, passes := r.passes + 1, stopped := false }

/-- Source `Session.listen`, run against the given passes: a server-side
session returns at once. -/
def Session.listen (env : Env) (s : Session) (cycles : List Cycle) : Run :=
  if s.parent.isSome then { s := s, stopped := true }
  else cycles.foldl (listenPass env) { s := s }

/-! ## Picking the next packet -/

/-- In-place change of the Job stored under key `i` (the map holds pointers). -/
def jobsUpdate (m : List (Nat × Job)) (i : Nat) (j : Job) : List (Nat × Job) :=
  m.map fun e => if e.1 = i then (e.1, j) else e

/-- Source `Session.accept`. -/
def Session.accept (s : Session) (i : Nat) : Session :=
  if decide (i < 2) || s.parent.isNone then s
  else
    match s.jobs with
    | none => s
    | some m =>
      if m.length = 0 then s
      else
        match m.lookup i with
        | none => s
        | some j =>
          let j1 : Job := { j with Status := StatusAccepted }
          let s : Session := { s with jobs := some (jobsUpdate m i j1) }
          if j1.Update then { s with events := s.events ++ [Event.job j1.ID] } else s

/-- Modelled from the spec: `verifyPacket`, "returns true when `device` is
empty or equals expected (engine substitutes the session's device when
empty)".  Returns the answer and the packet. -/
def verifyPacket (n : Packet) (id : List Nat) : Bool × Packet :=
  if deviceEmpty n.Device then (true, { n with Device := id })
  else (decide (n.Device = id), n)

/-- Source `Session.pick`.  `none` stands for a call that blocks on a channel
receive (Channel mode with nothing queued). -/
def Session.pick (s : Session) (i : Bool) : Option (Session × Option Packet) :=
  match s.peek with
  | some n => some ({ s with peek := none }, some n)
  | none =>
    match s.send.buf with
    | n :: rest => some ({ s with send := { s.send with buf := rest } }, some n)
    | [] =>
      if s.parent.isSome && s.state.channel then
        match s.wake with
        | some wk =>
          if wk.buf.length > 0 then
            some ({ s with wake := some { wk with buf := wk.buf.tail } }, none)
          else none
        | none => none
      else if !i && s.parent.isNone && s.state.channel then none
      else if i then some (s, none)
      else some (s, some { Device := s.ID })

/-- The loop `for n.Flags.Group() == l && len(s.send) > 0 { n = <-s.send }` of
`next`: returns the final `n` and what is left of the queue. -/
def skipGroup (l : Nat) : Packet → List Packet → Packet × List Packet
  | n, [] => (n, [])
  | n, q :: qs => if n.Flags.group = l then skipGroup l q qs else (n, q :: qs)

/-- The tail of `next`: `nextPacket`, the `peek` slot and `mergeTags`. -/
def Session.nextTail (env : Env) (s : Session) (n : Packet) (t : List Nat) :
    Session × Option Packet :=
  let r := env.nextPacket s.send.buf n s.ID t
  let s : Session := { s with send := { s.send with buf := r.2.2 }, peek := r.2.1 }
  (s, some { r.1 with Tags := env.mergeTags r.1.Tags t })

/-- Source `Session.next`; `none` stands for a call that blocks in `pick`. -/
def Session.next (env : Env) (s : Session) (i : Bool) : Option (Session × Option Packet) :=
  match s.pick i with
  | none => none
  | some (s, none) => some (s, none)
  | some (s, some n) =>
    let n : Packet :=
      match s.proxy with
      | some px => { n with Tags := px.tags }
      | none => n
    if s.send.buf.length = 0 && (verifyPacket n s.ID).1 then
      let n := (verifyPacket n s.ID).2
      let s : Session := s.accept n.Job
      some ({ s with state := { s.state with last := 0 } }, some n)
    else
      let t := n.Tags
      let l := s.state.last
      if l > 0 then
        let r := skipGroup l n s.send.buf
        let s : Session := { s with send := { s.send with buf := r.2 } }
        let s : Session := { s with state := { s.state with last := 0 } }
        if r.1.Flags.group = l then some (s, some { Device := s.ID, Tags := t })
        else some (s.nextTail env r.1 t)
      else some (s.nextTail env n t)

/-! ## Job results -/

/-- Source `Session.handle`; `none` is the nil packet.  Returns the session,
the answer and the Job as the call leaves it (the caller of `Task` holds the
same pointer).  The completion time is left out. -/
def Session.handle (env : Env) (s : Session) (p : Option Packet) :
    Session × Bool × Option Job :=
  match p with
  | none => (s, false, none)
  | some p =>
    if deviceEmpty p.Device || (p.ID != env.RvResult && p.ID != env.RvMigrate) ||
        decide (p.Job < 2) then (s, false, none)
    else
      match s.jobs with
      | none => (s, false, none)
      | some m =>
        if m.length = 0 then (s, false, none)
        else if s.state.moving then (s, true, none)
        else
          match m.lookup p.Job with
          | none => (s, false, none)
          | some j =>
            let j : Job := { j with Result := some p, Status := StatusCompleted }
            let j : Job :=
              if p.Flags.error then
                { j with Status := StatusError, Error := (env.readString p).1,
                         Result := some (env.readString p).2 }
              else j
            let s : Session := { s with jobs := some (m.filter fun e => e.1 != j.ID) }
            let j : Job := { j with cancelled := true }
            let s : Session :=
              if j.Update then { s with events := s.events ++ [Event.job j.ID] } else s
            (s, true, some j)

/-! ## Statement vocabulary -/

/-- The outbound queue that `queue` feeds: `chn` when set, else `send`. -/
def Session.outQueue (s : Session) : Chan Packet := s.chn.getD s.send

/-- Session whose `write` is not refused as closed. -/
def Session.isOpen (s : Session) : Prop :=
  s.state.closing = false ∧ s.state.sendClose = false

instance (s : Session) : Decidable s.isOpen := by
  unfold Session.isOpen; infer_instance

/-! ## Derived definitions used in statements -/

/-- Packet as `queue` stores it: an empty device id replaced by `local.UUID`. -/
def fillDevice (env : Env) (n : Packet) : Packet :=
  if deviceEmpty n.Device then { n with Device := env.UUID } else n

/-- Fragment number `i` as the loop of `write` builds it, before `queue`
fills in the device id. -/
def rawFrag (L m g : Nat) (hdr : Packet) (i : Nat) (bytes : List Nat) : Packet :=
  { ID := hdr.ID, Job := hdr.Job,
    Flags := ((hdr.Flags.SetGroup g).SetLen (m % 65536)).SetPosition (i % 65536),
    buf := bytes, Limit := L }

/-- The fragments the loop of `write` hands to `queue`, in order, for the
unread payload `bytes`, starting at index `i` with `fuel` rounds left. -/
def fragList (env : Env) (L m g : Nat) (hdr : Packet) : Nat → Nat → List Nat → List Packet
  | 0, _, _ => []
  | fuel + 1, i, bytes =>
    if bytes.length = 0 then []
    else fillDevice env (rawFrag L m g hdr i (bytes.take L)) ::
      fragList env L m g hdr fuel (i + 1) (bytes.drop L)

/-- The non-blocking refusal test of the unfragmented path of `write`. -/
def Session.nearFull (s : Session) : Bool :=
  (match s.chn with
   | some ch => decide (ch.buf.length + 1 ≥ ch.cap)
   | none => false) || decide (s.send.buf.length + 1 ≥ s.send.cap)

/-- Example configuration: fragment limit 16. -/
def exEnv : Env := { Frag := 16 }

/-- Example server-side session: empty jobs map, send queue of capacity 16. -/
def exSession : Session := { parent := some {}, jobs := some [], send := { cap := 16 } }

/-- Example packet: id 0x20 carrying the 48 bytes 0..47. -/
def exPacket : Packet := { ID := 32, buf := List.range 48 }

/-- Example configuration: fragment limit 1. -/
def wrapEnv : Env := { Frag := 1 }

/-- Example session with a send queue of capacity 70000. -/
def wrapSession : Session := { send := { cap := 70000 } }

/-- Example packet carrying 65535 zero bytes. -/
def wrapPacket : Packet := { buf := List.replicate 65535 0 }

/-- Example configuration with fragmentation disabled (`limits.Frag = 0`). -/
def plainEnv : Env := { Frag := 0 }

/-- Example small packet. -/
def smallPacket : Packet := { ID := 7, Device := [9] }

/-- Example open client session: send queue of capacity 4 holding 3 packets. -/
def nearFullSession : Session := { send := { buf := [{}, {}, {}], cap := 4 } }

/-- Example open client session whose send queue of capacity 2 is full. -/
def fullSession : Session := { send := { buf := [{}, {}], cap := 2 } }

/-- Example open session in which `chn` (capacity 2, one packet queued) is in
use while the send queue (capacity 16) is empty. -/
def chnSession : Session := { send := { cap := 16 }, chn := some { buf := [{}], cap := 2 } }

/-- Example open server-side session with an empty send queue of capacity 4. -/
def cap4Session : Session := { parent := some {}, jobs := some [], send := { cap := 4 } }

/-- Example open client session with an empty send queue of capacity 2. -/
def cap2Session : Session := { send := { cap := 2 } }

/-- Example client-side session with the Moving bit set. -/
def movingClient : Session :=
  { jobs := some [], send := { cap := 16 }, state := { moving := true } }

/-- The packet `Task` hands to `write`: job id assigned when zero, empty device
id replaced by the session's device id. -/
def taskPacket (env : Env) (s : Session) (p : Packet) : Packet :=
  let n1 := { p with Job := if p.Job = 0 then s.newJobID env else p.Job }
  if deviceEmpty n1.Device then { n1 with Device := s.DeviceID } else n1

/-- The tail of `Task` after `write` returned `r`: pass the error on, or
register the Job. -/
def taskFinish (r : Session × Packet × Option Err) : Session × Option Job × Option Err :=
  match r.2.2 with
  | some err => (r.1, none, some err)
  | none =>
    ({ r.1 with jobs := (r.1.jobs.map fun m =>
          jobsSet m r.2.1.Job { ID := r.2.1.Job, Typ := r.2.1.ID }) },
      some { ID := r.2.1.Job, Typ := r.2.1.ID }, none)

/-- Fields that no statement of `shutdown` writes, and state bits it leaves
alone. -/
def Session.sameCore (a b : Session) : Prop :=
  a.jitter = b.jitter ∧ a.errors = b.errors ∧ a.host = b.host ∧ a.sleep = b.sleep ∧
  a.state.closing = b.state.closing ∧ a.state.moving = b.state.moving ∧
  a.parent.isSome = b.parent.isSome ∧ a.Shutdown = b.Shutdown ∧ a.jobs = b.jobs

/-- Event queue and count of `close(s.ch)` unchanged. -/
def Session.sameLog (a b : Session) : Prop :=
  a.events = b.events ∧ a.chCloses = b.chCloses

/-- Channels and their state bits unchanged. -/
def Session.sameChans (a b : Session) : Prop :=
  a.send = b.send ∧ a.wake = b.wake ∧ a.recv = b.recv ∧
  a.state.sendClose = b.state.sendClose ∧ a.state.wakeClose = b.state.wakeClose ∧
  a.state.recvClose = b.state.recvClose ∧ a.state.canRecv = b.state.canRecv

/-- Example client-side session: sleep 10 ms, open wake channel of capacity 1,
host "h1". -/
def clientSession : Session :=
  { sleep := 10000000, send := { cap := 16 }, wake := some { cap := 1 }, host := "h1",
    ID := [5], Shutdown := true }

/-- Example server-side session with a `Shutdown` callback and a listener whose
server is set. -/
def serverSession : Session :=
  { parent := some { server := true }, jobs := some [], send := { cap := 16 },
    wake := some { cap := 1 }, ID := [5], Shutdown := true }

/-- Example client session with jitter 50 and a pending profile whose `Jitter`
is 200. -/
def swapHighSession : Session :=
  { sleep := 10000000, send := { cap := 16 }, jitter := 50, swap := some { Jitter := 200 } }

/-- Example client session with jitter 50 and a pending profile whose `Jitter`
is -5. -/
def swapLowSession : Session :=
  { sleep := 10000000, send := { cap := 16 }, jitter := 50, swap := some { Jitter := -5 } }

/-- Example client session with host "h1" whose profile switches on every pass
and whose `Next` returns the empty host. -/
def switchSession : Session :=
  { sleep := 10000000, send := { cap := 16 }, host := "h1",
    p := { switchOk := true, switchFailed := true, Next := "" } }

/-- A pass in which `Connect` fails. -/
def failedConnect : Cycle := { connectOk := false }

/-- Number of failed exchanges at the end of a list of exchange results
(`true` is a successful exchange). -/
def failRun (outs : List Bool) : Nat := (outs.reverse.takeWhile fun b => !b).length

/-- A pass in which the exchange fails. -/
def failedExchange : Cycle := { exchangeOk := false }

/-- Example packet A' of fragment group 7. -/
def packetA : Packet := { ID := 1, Device := [5], Flags := { group := 7 } }

/-- Example packet B of fragment group 9. -/
def packetB : Packet := { ID := 2, Device := [5], Flags := { group := 9 } }

/-- Example session with last group 7 and the send queue `[A', B]`. -/
def fairSession : Session :=
  { ID := [5], send := { buf := [packetA, packetB], cap := 16 }, state := { last := 7 } }

/-- Example server-side session tracking one Job under id 5. -/
def jobSession : Session :=
  { parent := some {}, jobs := some [(5, { ID := 5, Typ := 128 })], send := { cap := 16 } }

/-- Example result packet for Job 5. -/
def resultPacket : Packet := { ID := 20, Job := 5, Device := [5], buf := [1, 2, 3] }

/-! ## `util.Decode`, `xerr.Wrap`, `filter.Filter` -/

/-- A Go byte slice seen as a window of the memory it points into: the index
of its first byte and its length.  Two slices of one memory may overlap, as
the arguments of `Decode(b, b)` do. -/
structure Slice where
  off : Nat := 0
  len : Nat := 0
  deriving DecidableEq, Repr

/-- The bytes a slice holds in the memory `m`. -/
def Slice.bytes (s : Slice) (m : List Nat) : List Nat := (m.drop s.off).take s.len

/-- The loop of `util.Decode` from index `i` on, with `fuel` rounds left:
`d[i] = d[i] ^ k[i%len(k)]`, each round reading the memory as the rounds
before it left it. -/
def decodeLoop (k d : Slice) : Nat → Nat → List Nat → List Nat
  | 0, _, m => m
  | fuel + 1, i, m =>
    decodeLoop k d fuel (i + 1)
      (m.set (d.off + i) (m.getD (d.off + i) 0 ^^^ m.getD (k.off + i % k.len) 0))

/-- Source `util.Decode` on the slices `k` and `d` of the memory `m`: returns
the memory as the call leaves it and the bytes of the returned string. -/
def Decode (m : List Nat) (k d : Slice) : List Nat × List Nat :=
  if k.len = 0 ∨ d.len = 0 then (m, [])
  else (decodeLoop k d d.len 0 m, d.bytes (decodeLoop k d d.len 0 m))

/-- The whole of a three-byte array. -/
def wholeOf3 : Slice := { off := 0, len := 3 }

/-- A memory holding a two-byte key followed by three bytes of data. -/
def exMemory : List Nat := [7, 9, 1, 2, 3]

/-- The key of `exMemory`. -/
def exKey : Slice := { off := 0, len := 2 }

/-- The data of `exMemory`. -/
def exData : Slice := { off := 2, len := 3 }

/-- A Go `error` value: an error of another package with its message, or an
`xerr.Error` with its wrapped error `e` and text `s`. -/
inductive GoError where
  | plain (msg : String)
  | xerr (e : Option GoError) (s : String)
  deriving Repr

/-- The method `Error()` of an error (source `Error.Error` for `xerr.Error`). -/
def GoError.Error : GoError → String
  | GoError.plain msg => msg
  | GoError.xerr _ s => s

/-- Source `Error.Unwrap` (nil for an error without that method). -/
def GoError.Unwrap : GoError → Option GoError
  | GoError.plain _ => none
  | GoError.xerr e _ => e

/-- Source `xerr.Wrap`. -/
def Wrap (s : String) (e : Option GoError) : GoError :=
  match e with
  | some e => GoError.xerr (some e) (s ++ ": " ++ e.Error)
  | none => GoError.xerr none s

/-- A value stored in the map that `Filter.MarshalJSON` hands to
`json.Marshal`. -/
inductive JVal where
  | bool (b : Bool)
  | num (n : Nat)
  | boolean (b : Nat)
  | strings (l : List String)
  deriving DecidableEq, Repr

/-- The fields of `filter.Filter`; the type `boolean` is a small integer whose
zero value is `Empty`. -/
structure Filter where
  Exclude : List String := []
  Include : List String := []
  PID : Nat := 0
  Fallback : Bool := false
  Session : Nat := 0
  Elevated : Nat := 0
  deriving DecidableEq, Repr

/-- The zero value `Empty` of the type `boolean`. -/
def Empty : Nat := 0

/-- Map write `m[k] = v` on a string-keyed map. -/
def jsonSet (m : List (String × JVal)) (k : String) (v : JVal) : List (String × JVal) :=
  (k, v) :: m.filter fun e => e.1 != k

/-- Source `Filter.MarshalJSON` (crypt variant), up to the call of
`json.Marshal`: the map it builds.  The keys are the strings the comments
give for `crypt.Get(18..23)`. -/
def Filter.marshalMap (f : Filter) : List (String × JVal) :=
  let m : List (String × JVal) := [("fallback", JVal.bool f.Fallback)]
  let m := if f.PID ≠ 0 then jsonSet m "pid" (JVal.num f.PID) else m
  let m := if f.Session > Empty then jsonSet m "session" (JVal.boolean f.Session) else m
  let m := if f.Elevated > Empty then jsonSet m "elevated" (JVal.boolean f.Elevated) else m
  let m := if f.Exclude.length > 0 then jsonSet m "exclude" (JVal.boolean f.Elevated) else m
  let m := if f.Include.length > 0 then jsonSet m "include" (JVal.strings f.Include) else m
  m

/-- Example filter with one excluded name. -/
def exFilter : Filter := { Exclude := ["explorer.exe"], Elevated := 2 }

/-! ## Timing operations -/

/-- Source `Session.SetSleep`. -/
def Session.SetSleep (env : Env) (s : Session) (t : Int) : Session × Option Job × Option Err :=
  s.SetDuration env t (s.jitter : Int)

/-- A step that can change the timing of a session: one of the three setters,
or a pass of the loop of `listen` that finds the profile `pr` pending. -/
inductive TimingOp where
  | setDuration (t j : Int)
  | setJitter (j : Int)
  | setSleep (t : Int)
  | swapPass (pr : Profile) (c : Cycle) (e : Bool)

/-- The session after a timing step. -/
def applyTimingOp (env : Env) (s : Session) : TimingOp → Session
  | TimingOp.setDuration t j => (s.SetDuration env t j).1
  | TimingOp.setJitter j => (s.SetJitter env j).1
  | TimingOp.setSleep t => (s.SetSleep env t).1
  | TimingOp.swapPass pr c e =>
    (listenPass env { s := { s with swap := some pr }, e := e } c).s

/-! ## The duration computed by `wait` -/

/-- The constant `time.Millisecond`, in nanoseconds. -/
def Millisecond : Int := 1000000

/-- Two's-complement wrap of an `int64` result. -/
def wrap64 (x : Int) : Int :=
  (x + 9223372036854775808) % 18446744073709551616 - 9223372036854775808

/-- Results of the random calls of `wait`: `chance` is `util.FastRandN(100)`,
`raw` the value `util.Rand.Int63n(n)` reduces into `[0, n)`, `sign` is
`util.FastRandN(2)`. -/
structure Draws where
  chance : Nat := 0
  raw : Nat := 0
  sign : Nat := 0
  deriving DecidableEq, Repr

/-- What the duration computation of `wait` does: the duration `w` programmed
into the ticker, the argument passed to `Int63n` (when it is called), and
whether the `w < 0` and the `w == 0` branches are taken. -/
structure WaitCalc where
  w : Int
  arg : Option Int := none
  absTaken : Bool := false
  zeroTaken : Bool := false
  deriving DecidableEq, Repr

/-- The jittered part of `wait`, entered with `w > time.Millisecond`: draw `d`,
flip its sign, add it in milliseconds, then the two repair branches.  `none`
is the panic of `Int63n` on an argument that is not positive. -/
def jitterDuration (sleep : Int) (dr : Draws) : Option WaitCalc :=
  let n := sleep / Millisecond
  if n ≤ 0 then none
  else
    let d : Int := (dr.raw : Int) % n
    let d : Int := if dr.sign = 1 then wrap64 (d * -1) else d
    let w1 : Int := wrap64 (sleep + wrap64 (d * Millisecond))
    let w2 : Int := if w1 < 0 then wrap64 (w1 * -1) else w1
    let w3 : Int := if w2 = 0 then sleep else w2
    some { w := w3, arg := some n, absTaken := decide (w1 < 0), zeroTaken := decide (w2 = 0) }

/-- The duration computation of `Session.wait` (the statements between the
first test and the ticker), given the random draws. -/
def Session.waitDuration (s : Session) (dr : Draws) : Option WaitCalc :=
  if s.jitter > 0 ∧ s.jitter < 101 then
    if (s.jitter = 100 ∨ dr.chance % 256 < s.jitter) ∧ s.sleep > Millisecond then
      jitterDuration s.sleep dr
    else some { w := s.sleep }
  else some { w := s.sleep }

/-! ## Spawn and Migrate -/

/-- Errors that `SpawnProfile` and `MigrateProfile` return. -/
inductive PipeErr where
  /-- The error "must be a client session". -/
  | mustBeClient
  /-- The error "migration in progress". -/
  | migrating
  /-- The error "invalid name". -/
  | invalidName
  /-- The error "cannot marshal Profile". -/
  | cannotMarshal
  /-- The error "cannot marshal Proxy Profile". -/
  | cannotMarshalProxy
  /-- The error returned by `e.Start()`. -/
  | start
  /-- The value `ErrNoConn`. -/
  | ErrNoConn
  /-- The error of a failed `writeFull`. -/
  | write
  /-- The error of a failed `readFull`. -/
  | read
  /-- The error "unexpected value" / "unexpected OK value". -/
  | unexpected
  deriving DecidableEq, Repr

/-- What the outside world does during a spawn or a migration: the name `n`,
the profile bytes `b` passed in, the result of marshalling the session's own
profile and the proxy's profile (`none` when that fails), whether the
runnable starts and its pid, whether the pipe connects in time, which
`writeFull` (counted from 0) fails if any, and the two bytes read back (`none`
when the read fails). -/
structure PipeIO where
  name : String := "pipe"
  b : List Nat := []
  marshal : Option (List Nat) := some []
  proxyMarshal : Option (List Nat) := some []
  startOk : Bool := true
  pid : Nat := 0
  connOk : Bool := true
  writeFail : Option Nat := none
  reply : Option (Nat × Nat) := some (79, 75)
  deriving DecidableEq, Repr

/-- Outcome of a spawn or a migration: the session, the error (nil on
success), the pid returned, the bytes handed to the writer `w` before the
acknowledgement is read, and the bytes written after it. -/
structure PipeResult where
  s : Session
  err : Option PipeErr := none
  pid : Nat := 0
  sent : List Nat := []
  trailer : List Nat := []
  deriving DecidableEq, Repr

/-- A sequence of `writeFull` calls, the first numbered `i`: the bytes written
and whether every call succeeded; the calls after a failed one are not
made. -/
def pipeWrites (fail : Option Nat) : Nat → List (List Nat) → List Nat × Bool
  | _, [] => ([], true)
  | i, c :: cs =>
    if fail = some i then ([], false)
    else (c ++ (pipeWrites fail (i + 1) cs).1, (pipeWrites fail (i + 1) cs).2)

/-- The statement `s.state.Unset(stateMoving)`. -/
def Session.unsetMoving (s : Session) : Session :=
  { s with state := { s.state with moving := false } }

/-- The profile bytes a spawn or migration sends: `b`, or the marshalled
profile of the session when `b` is empty. -/
def PipeIO.profile (io : PipeIO) : Option (List Nat) :=
  if io.b.length = 0 then io.marshal else some io.b

/-- The proxy profile bytes `k` of a migration: empty without a proxy. -/
def Session.proxyBytes (s : Session) (io : PipeIO) : Option (List Nat) :=
  match s.proxy with
  | some _ => io.proxyMarshal
  | none => some []

/-- The `writeFull` calls of `SpawnProfile`, in order. -/
def spawnFrame (b : List Nat) : List (List Nat) :=
  [[0, 0, 15], be64 (b.length % 2 ^ 64), b]

/-- The `writeFull` calls of `MigrateProfile` and its `s.ID.Write(w)`, in
order; the proxy bytes are written only when there are any. -/
def Session.migrateFrame (s : Session) (job : Nat) (b k : List Nat) : List (List Nat) :=
  [[(job / 256) % 256, job % 256, 13], be64 (b.length % 2 ^ 64), b, s.ID,
    be64 (k.length % 2 ^ 64)] ++ (if k.length % 2 ^ 64 > 0 then [k] else [])

/-- The statements of `MigrateProfile` under its first lock: set Moving and
cancel the Jobs.  The wait for the event queue to drain is left out. -/
def Session.migrateBegin (s : Session) : Session :=
  let s : Session := { s with state := { s.state with moving := true } }
  { s with jobs := s.jobs.map fun m => m.map fun e => (e.1, { e.2 with cancelled := true }) }

/-- The statements of `MigrateProfile` after an accepted acknowledgement: set
Closing, close the proxy, `Wake`, and `close(s.ch)`.  The hand-over of the lock
with the loop of `listen` is left out. -/
def Session.migrateFinish (s : Session) : Session :=
  let s : Session := { s with state := { s.state with closing := true } }
  let s : Session := s.closeProxy
  let s : Session := s.Wake
  { s with chCloses := s.chCloses + 1 }

/-- Source `Session.SpawnProfile`. -/
def Session.SpawnProfile (s : Session) (io : PipeIO) : PipeResult :=
  if s.parent.isSome then { s := s, err := some PipeErr.mustBeClient }
  else if s.isMoving then { s := s, err := some PipeErr.migrating }
  else if io.name.length = 0 then { s := s, err := some PipeErr.invalidName }
  else
    match io.profile with
    | none => { s := s, err := some PipeErr.cannotMarshal }
    | some b =>
      if !io.startOk then { s := s, err := some PipeErr.start }
      else if !io.connOk then { s := s.unsetMoving, err := some PipeErr.ErrNoConn }
      else
        let wr := pipeWrites io.writeFail 0 (spawnFrame b)
        if !wr.2 then { s := s, err := some PipeErr.write, sent := wr.1 }
        else
          match io.reply with
          | none => { s := s, err := some PipeErr.read, sent := wr.1 }
          | some o =>
            if o.1 ≠ 79 ∧ o.2 ≠ 75 then
              { s := s, err := some PipeErr.unexpected, sent := wr.1 }
            else { s := s, pid := io.pid, sent := wr.1 }

/-- The part of `MigrateProfile` from `e.Start()` on, run on the session as
`migrateBegin` left it. -/
def Session.migratePipe (s : Session) (io : PipeIO) (job : Nat) (b k : List Nat) :
    PipeResult :=
  if !io.startOk then { s := s.unsetMoving, err := some PipeErr.start }
  else if !io.connOk then { s := s.unsetMoving, err := some PipeErr.ErrNoConn }
  else
    let wr := pipeWrites io.writeFail 0 (s.migrateFrame job b k)
    if !wr.2 then { s := s.unsetMoving, err := some PipeErr.write, sent := wr.1 }
    else
      match io.reply with
      | none => { s := s.unsetMoving, err := some PipeErr.read, sent := wr.1 }
      | some o =>
        if o.1 ≠ 79 ∧ o.2 ≠ 75 then
          { s := s.unsetMoving, err := some PipeErr.unexpected, sent := wr.1 }
        else { s := s.migrateFinish, pid := io.pid, sent := wr.1, trailer := [79, 75] }

/-- Source `Session.MigrateProfile`; `job` is the 16-bit job id. -/
def Session.MigrateProfile (s : Session) (io : PipeIO) (job : Nat) : PipeResult :=
  if s.parent.isSome then { s := s, err := some PipeErr.mustBeClient }
  else if s.isMoving then { s := s, err := some PipeErr.migrating }
  else if io.name.length = 0 then { s := s, err := some PipeErr.invalidName }
  else
    match io.profile with
    | none => { s := s, err := some PipeErr.cannotMarshal }
    | some b =>
      match s.proxyBytes io with
      | none => { s := s, err := some PipeErr.cannotMarshalProxy }
      | some k => s.migrateBegin.migratePipe io job b k

/-- A spawn or migration with profile bytes `[1, 2, 3]` in which everything
succeeds and the child answers `OK`. -/
def exPipe : PipeIO := { b := [1, 2, 3] }

/-- A spawn or migration whose pipe never connects. -/
def noConnPipe : PipeIO := { b := [1], connOk := false }

/-- A spawn whose child answers the two bytes `O X`. -/
def spawnOX : PipeIO := { b := [1], pid := 42, reply := some (79, 88) }

/-- A migration whose child answers the two bytes `X K`. -/
def migrateXK : PipeIO := { b := [1], pid := 42, reply := some (88, 75) }

/-- Big-endian value of a byte string. -/
def beValue (l : List Nat) : Nat := l.foldl (fun acc x => acc * 256 + x) 0

/-! ## The exchange -/

/-- What the outside world does during one `session(c)`: the answer of
`s.state.ChannelCanStart()` on the state word, whether `writePacket` succeeds,
the packet `readPacket` returns (`none` when it fails), the function `receive`
(it returns the session and whether it succeeded) and the Channel-mode phase
`channelRead`/`channelWrite`.  None of these is part of the sources; they are
taken as parameters. -/
structure Exchange where
  canStart : State → Bool := fun _ => false
  writeOk : Bool := true
  reply : Option Packet := some {}
  receive : Session → Packet → Session × Bool := fun s _ => (s, true)
  channel : Session → Session := fun s => s

/-- Outcome of one `session(c)`: the session, the value returned, the packet
handed to `writePacket`, the Channel bit at the moment the reply is handed to
`receive` (`none` when that point is not reached) and whether the Channel-mode
phase ran. -/
structure Exchanged where
  s : Session
  ok : Bool := false
  out : Option Packet := none
  atReceive : Option Bool := none
  ran : Bool := false
  deriving DecidableEq, Repr

/-- The statements `s.state.Set(stateChannel)` and `s.state.Unset(stateChannel)`. -/
def Session.setChannel (s : Session) (v : Bool) : Session :=
  { s with state := { s.state with channel := v } }

/-- The first statements of `session`: `n := s.next(false)`, the
`Unset(stateChannel)` and the two branches that set the bit.  `none` stands
for a `next` that blocks or returns the nil packet. -/
def Session.sessionPick (env : Env) (x : Exchange) (s : Session) :
    Option (Session × Packet) :=
  match s.next env false with
  | none => none
  | some (_, none) => none
  | some (s, some n) =>
    let s : Session := s.setChannel false
    if x.canStart s.state then
      some (s.setChannel true, { n with Flags := { n.Flags with channel := true } })
    else if n.Flags.channel then some (s.setChannel true, n)
    else some (s, n)

/-- The end of `session`: `receive`, then the Channel-mode phase when the bit
is set, after which the bit is cleared. -/
def Session.sessionEnd (x : Exchange) (s : Session) (n r : Packet) : Exchanged :=
  if !(x.receive s r).2 then
    { s := (x.receive s r).1, out := some n, atReceive := some s.state.channel }
  else if !(x.receive s r).1.state.channel then
    { s := (x.receive s r).1, ok := true, out := some n, atReceive := some s.state.channel }
  else
    { s := (x.channel (x.receive s r).1).setChannel false, ok := true, out := some n,
      atReceive := some s.state.channel, ran := true }

/-- The statement `if n.Flags&com.FlagChannel != 0 && !s.state.Channel()
{ s.state.Set(stateChannel) }`, which `session` runs after the write and after
the read. -/
def Session.latchChannel (s : Session) (n : Packet) : Session :=
  if n.Flags.channel && !s.state.channel then s.setChannel true else s

/-- The middle of `session`: `writePacket`, `readPacket` and the two
statements that latch the Channel bit from the packets' flags. -/
def Session.sessionRead (x : Exchange) (s : Session) (n : Packet) : Exchanged :=
  if !x.writeOk then { s := s, out := some n }
  else
    match x.reply with
    | none => { s := s.latchChannel n, out := some n }
    | some r => ((s.latchChannel n).latchChannel r).sessionEnd x n r

/-- Source `Session.session`. -/
def Session.session (env : Env) (x : Exchange) (s : Session) : Option Exchanged :=
  (s.sessionPick env x).map fun r => r.1.sessionRead x r.2

/-- A packet that carries `FlagChannel`. -/
def flagPacket : Packet := { ID := 9, Device := [5], Flags := { channel := true } }

/-- An exchange in which `ChannelCanStart` is false and the peer answers
with a plain packet. -/
def noStart : Exchange := {}

/-- An exchange in which `ChannelCanStart` is false and the peer answers
with a packet that carries `FlagChannel`. -/
def peerFlag : Exchange := { reply := some flagPacket }

/-- A client session whose queue holds one packet that carries `FlagChannel`. -/
def flagSession : Session := { ID := [5], send := { buf := [flagPacket], cap := 16 } }

/-- A client session with an empty queue. -/
def idleSession : Session := { ID := [5], send := { cap := 16 } }

/-! ## The line parser of `release` -/

/-- Go's `strings.IndexByte` on a byte string, counted from `i`: the index of
the first byte equal to `c`, or -1. -/
def indexByteFrom (c : Nat) : List Nat → Nat → Int
  | [], _ => -1
  | b :: bs, i => if b = c then (i : Int) else indexByteFrom c bs (i + 1)

/-- Go's `strings.IndexByte`. -/
def IndexByte (v : List Nat) (c : Nat) : Int := indexByteFrom c v 0

/-- The loop `for ; c > x && v[c] == '"'; c-- {}` of `release`, started at `c`:
the final `c`, or `none` when `v[c]` is out of range.  At `c = 0` the test
`c > x` fails. -/
def scanBack (v : List Nat) (x : Nat) : Nat → Option Nat
  | 0 => some 0
  | c + 1 =>
    if c + 1 > x then
      match v[c + 1]? with
      | none => none
      | some b => if b = 34 then scanBack v x c else some (c + 1)
    else some (c + 1)

/-- The loop `for ; s < c && v[s] == '"'; s++ {}` of `release`, started at `s`
with a bound on the number of tests: the final `s`, or `none` when `v[s]` is
out of range or the bound is used up. -/
def scanFwd (v : List Nat) (c : Nat) : Nat → Nat → Option Nat
  | 0, _ => none
  | fuel + 1, s =>
    if s < c then
      match v[s]? with
      | none => none
      | some b => if b = 34 then scanFwd v c fuel (s + 1) else some s
    else some s

/-- The body of the loop over the lines in `release` for the line `v`: `none`
when an index or a slice is out of range, `some none` when the line is skipped,
and `some (some (k, val))` when `m[k] = val` is recorded.  `ToUpper` is Go's
`strings.ToUpper`, taken as a parameter. -/
def releaseLine (ToUpper : List Nat → List Nat) (v : List Nat) :
    Option (Option (List Nat × List Nat)) :=
  let x := IndexByte v 61
  if x < 1 ∨ (v.length : Int) - x < 2 then some none
  else
    match scanBack v x.toNat (v.length - 1) with
    | none => none
    | some c =>
      match scanFwd v c (v.length + 1) (x.toNat + 1) with
      | none => none
      | some s =>
        if s ≤ c + 1 ∧ c + 1 ≤ v.length then
          some (some (ToUpper (v.take x.toNat), (v.drop s).take (c + 1 - s)))
        else none

/-- The bytes of a text. -/
def bytesOf (t : String) : List Nat := t.toList.map Char.toNat

/-! # Theorems -/

/-! ## Frame facts for `Wake`, `queue` and `queueWake` -/

theorem Wake_frame (s : Session) :
    s.Wake.send = s.send ∧ s.Wake.chn = s.chn ∧ s.Wake.state = s.state ∧
    s.Wake.parent = s.parent ∧ s.Wake.jobs = s.jobs ∧ s.Wake.sleep = s.sleep ∧
    s.Wake.jitter = s.jitter ∧ s.Wake.DeviceID = s.DeviceID := by
  unfold Session.Wake
  cases s.wake with
  | none => simp
  | some wk => by_cases h : (s.parent.isSome || s.state.wakeClose) = true <;> simp [h]

theorem queue_frame (env : Env) (s : Session) (n : Packet) :
    (s.queue env n).1.state = s.state ∧ (s.queue env n).1.parent = s.parent ∧
    (s.queue env n).1.jobs = s.jobs ∧ (s.queue env n).1.sleep = s.sleep ∧
    (s.queue env n).1.jitter = s.jitter ∧ (s.queue env n).1.DeviceID = s.DeviceID ∧
    (s.queue env n).1.wake = s.wake ∧
    (s.queue env n).1.chn.isSome = s.chn.isSome := by
  unfold Session.queue
  by_cases h : s.state.sendClose = true
  · simp [h]
  · cases hc : s.chn <;> simp [h]

theorem queueWake_frame (env : Env) (s : Session) (n : Packet) :
    (s.queueWake env n).1.state = s.state ∧ (s.queueWake env n).1.parent = s.parent ∧
    (s.queueWake env n).1.jobs = s.jobs ∧ (s.queueWake env n).1.sleep = s.sleep ∧
    (s.queueWake env n).1.jitter = s.jitter ∧
    (s.queueWake env n).1.DeviceID = s.DeviceID ∧
    (s.queueWake env n).1.chn.isSome = s.chn.isSome := by
  have hq := queue_frame env s n
  unfold Session.queueWake
  by_cases h : (s.queue env n).1.state.channel = true
  · have hw := Wake_frame (s.queue env n).1
    simp only [h, if_true]
    refine ⟨?_, ?_, ?_, ?_, ?_, ?_, ?_⟩
    · rw [hw.2.2.1]; exact hq.1
    · rw [hw.2.2.2.1]; exact hq.2.1
    · rw [hw.2.2.2.2.1]; exact hq.2.2.1
    · rw [hw.2.2.2.2.2.1]; exact hq.2.2.2.1
    · rw [hw.2.2.2.2.2.2.1]; exact hq.2.2.2.2.1
    · rw [hw.2.2.2.2.2.2.2]; exact hq.2.2.2.2.2.1
    · rw [hw.2.1]; exact hq.2.2.2.2.2.2.2
  · simp only [h]
    exact ⟨hq.1, hq.2.1, hq.2.2.1, hq.2.2.2.1, hq.2.2.2.2.1, hq.2.2.2.2.2.1, hq.2.2.2.2.2.2.2⟩

theorem queue_out (env : Env) (s : Session) (n : Packet) (hs : s.state.sendClose = false) :
    (s.queue env n).1.outQueue = s.outQueue.trySend (fillDevice env n) ∧
    (s.queue env n).2 = fillDevice env n ∧
    (s.chn = none → (s.queue env n).1.send = s.send.trySend (fillDevice env n)) ∧
    (s.chn ≠ none → (s.queue env n).1.send = s.send) := by
  unfold Session.queue Session.outQueue fillDevice
  cases hc : s.chn <;> simp [hs]

theorem queueWake_out (env : Env) (s : Session) (n : Packet)
    (hs : s.state.sendClose = false) :
    (s.queueWake env n).1.outQueue = s.outQueue.trySend (fillDevice env n) ∧
    (s.queueWake env n).2 = fillDevice env n ∧
    (s.chn = none → (s.queueWake env n).1.send = s.send.trySend (fillDevice env n)) ∧
    (s.chn ≠ none → (s.queueWake env n).1.send = s.send) := by
  have hq := queue_out env s n hs
  unfold Session.queueWake
  by_cases h : (s.queue env n).1.state.channel = true
  · have hw := Wake_frame (s.queue env n).1
    simp only [h, if_true]
    refine ⟨?_, hq.2.1, ?_, ?_⟩
    · rw [← hq.1]; unfold Session.outQueue; rw [hw.1, hw.2.1]
    · intro hc; rw [hw.1]; exact hq.2.2.1 hc
    · intro hc; rw [hw.1]; exact hq.2.2.2 hc
  · simp only [h]
    exact ⟨hq.1, hq.2.1, hq.2.2.1, hq.2.2.2⟩

theorem trySend_room {α : Type} (ch : Chan α) (v : α) (h : ch.buf.length < ch.cap) :
    (ch.trySend v).buf = ch.buf ++ [v] ∧ (ch.trySend v).cap = ch.cap := by
  unfold Chan.trySend; simp [h]

theorem trySend_full {α : Type} (ch : Chan α) (v : α) (h : ch.cap ≤ ch.buf.length) :
    ch.trySend v = ch := by
  unfold Chan.trySend; simp [Nat.not_lt.mpr h]

theorem trySend_cap {α : Type} (ch : Chan α) (v : α) : (ch.trySend v).cap = ch.cap := by
  unfold Chan.trySend; split <;> rfl

theorem trySend_take {α : Type} (ch : Chan α) (v : α) :
    (ch.trySend v).buf = ch.buf ++ [v].take (ch.cap - ch.buf.length) ∧
      (ch.trySend v).cap = ch.cap := by
  by_cases h : ch.buf.length < ch.cap
  · have h1 : ch.cap - ch.buf.length = (ch.cap - ch.buf.length - 1) + 1 := by omega
    rw [(trySend_room ch v h).1, (trySend_room ch v h).2, h1, List.take_succ_cons]
    simp
  · have h1 : ch.cap - ch.buf.length = 0 := by omega
    rw [trySend_full ch v (by omega), h1]
    simp

/-! ## The fragment loop -/

theorem take_min_length (L : Nat) (l : List Nat) :
    l.take (min l.length L) = l.take L ∧ l.drop (min l.length L) = l.drop L := by
  rcases Nat.le_total l.length L with h | h
  · rw [Nat.min_eq_left h]
    simp [List.take_of_length_le h, List.drop_of_length_le h]
  · rw [Nat.min_eq_right h]
    exact ⟨rfl, rfl⟩

theorem fragLoop_zero (env : Env) (L m x g : Nat) (hdr : Packet) (i t : Nat) (n : Packet)
    (s : Session) (err : Option Err) :
    fragLoop env L m x g hdr 0 i t n s err = (s, n, err) := rfl

theorem fragLoop_done (env : Env) (L m x g : Nat) (hdr : Packet) (fuel i t : Nat)
    (n : Packet) (s : Session) (err : Option Err) (h : ¬ t < x) :
    fragLoop env L m x g hdr fuel i t n s err = (s, n, err) := by
  cases fuel with
  | zero => rfl
  | succ k => simp [fragLoop, h]

theorem fragLoop_step (env : Env) (L m x g : Nat) (hdr : Packet) (fuel i t : Nat)
    (n : Packet) (s : Session) (err : Option Err) (hL : 0 < L) (h : t < x) :
    fragLoop env L m x g hdr (fuel + 1) i t n s err =
      fragLoop env L m x g hdr fuel (i + 1) (t + min n.buf.length L)
        { n with buf := n.buf.drop L }
        (s.queueWake env (rawFrag L m g hdr i (n.buf.take L))).1
        (if L < n.buf.length then some Err.ErrLimit else none) := by
  have hne : L ≠ 0 := Nat.pos_iff_ne_zero.mp hL
  have hmin := take_min_length L n.buf
  have hlt : (min n.buf.length L < n.buf.length) ↔ L < n.buf.length := by
    constructor
    · intro h1; omega
    · intro h1; omega
  rw [fragLoop]
  simp only [h, if_true, Packet.WriteTo, chunkRoom, hne, if_false, List.length_nil,
    Nat.sub_zero, hmin.1, hmin.2, hlt, List.nil_append]
  by_cases hl : L < n.buf.length
  · simp [hl, rawFrag]
  · simp [hl, rawFrag]

theorem fragLoop_queue (env : Env) (L m x g : Nat) (hdr : Packet) (hL : 0 < L) :
    ∀ (fuel i t : Nat) (n : Packet) (s : Session) (err : Option Err),
      s.state.sendClose = false → t + n.buf.length = x →
      s.outQueue.buf.length + (fragList env L m g hdr fuel i n.buf).length ≤ s.outQueue.cap →
      (fragLoop env L m x g hdr fuel i t n s err).1.outQueue.buf =
          s.outQueue.buf ++ fragList env L m g hdr fuel i n.buf ∧
        (fragLoop env L m x g hdr fuel i t n s err).1.outQueue.cap = s.outQueue.cap := by
  intro fuel
  induction fuel with
  | zero =>
    intro i t n s err _ _ _
    simp [fragLoop, fragList]
  | succ k ih =>
    intro i t n s err hs ht hroom
    by_cases hb : n.buf.length = 0
    · have hx : ¬ t < x := by omega
      rw [fragLoop_done env L m x g hdr (k + 1) i t n s err hx]
      simp [fragList, hb]
    · have hx : t < x := by omega
      rw [fragLoop_step env L m x g hdr k i t n s err hL hx]
      simp only [fragList, hb, if_false] at hroom ⊢
      simp only [List.length_cons] at hroom
      have hq := queueWake_out env s (rawFrag L m g hdr i (n.buf.take L)) hs
      have hf := queueWake_frame env s (rawFrag L m g hdr i (n.buf.take L))
      have hlt : s.outQueue.buf.length < s.outQueue.cap := by omega
      have hts := trySend_room s.outQueue (fillDevice env (rawFrag L m g hdr i (n.buf.take L))) hlt
      have hbuf : (s.queueWake env (rawFrag L m g hdr i (n.buf.take L))).1.outQueue.buf =
          s.outQueue.buf ++ [fillDevice env (rawFrag L m g hdr i (n.buf.take L))] := by
        rw [hq.1]; exact hts.1
      have hcap : (s.queueWake env (rawFrag L m g hdr i (n.buf.take L))).1.outQueue.cap =
          s.outQueue.cap := by
        rw [hq.1]; exact hts.2
      have hrec := ih (i + 1) (t + min n.buf.length L) { n with buf := n.buf.drop L }
        (s.queueWake env (rawFrag L m g hdr i (n.buf.take L))).1
        (if L < n.buf.length then some Err.ErrLimit else none)
        (by rw [hf.1]; exact hs)
        (by simp only [List.length_drop]; omega)
        (by rw [hbuf, hcap]; simp only [List.length_append, List.length_singleton]; omega)
      rw [hrec.1, hrec.2, hbuf, hcap]
      simp

theorem fragLoop_queue_take (env : Env) (L m x g : Nat) (hdr : Packet) (hL : 0 < L) :
    ∀ (fuel i t : Nat) (n : Packet) (s : Session) (err : Option Err),
      s.state.sendClose = false → t + n.buf.length = x →
      (fragLoop env L m x g hdr fuel i t n s err).1.outQueue.buf =
          s.outQueue.buf ++ (fragList env L m g hdr fuel i n.buf).take
            (s.outQueue.cap - s.outQueue.buf.length) ∧
        (fragLoop env L m x g hdr fuel i t n s err).1.outQueue.cap = s.outQueue.cap := by
  intro fuel
  induction fuel with
  | zero =>
    intro i t n s err _ _
    simp [fragLoop, fragList]
  | succ k ih =>
    intro i t n s err hs ht
    by_cases hb : n.buf.length = 0
    · have hx : ¬ t < x := by omega
      rw [fragLoop_done env L m x g hdr (k + 1) i t n s err hx]
      simp [fragList, hb]
    · have hx : t < x := by omega
      rw [fragLoop_step env L m x g hdr k i t n s err hL hx]
      simp only [fragList, hb, if_false]
      have hq := queueWake_out env s (rawFrag L m g hdr i (n.buf.take L)) hs
      have hf := queueWake_frame env s (rawFrag L m g hdr i (n.buf.take L))
      have hrec := ih (i + 1) (t + min n.buf.length L) { n with buf := n.buf.drop L }
        (s.queueWake env (rawFrag L m g hdr i (n.buf.take L))).1
        (if L < n.buf.length then some Err.ErrLimit else none)
        (by rw [hf.1]; exact hs)
        (by simp only [List.length_drop]; omega)
      rw [hrec.1, hrec.2, hq.1]
      by_cases hlt : s.outQueue.buf.length < s.outQueue.cap
      · have hts := trySend_room s.outQueue
          (fillDevice env (rawFrag L m g hdr i (n.buf.take L))) hlt
        have h1 : s.outQueue.cap - s.outQueue.buf.length =
            (s.outQueue.cap - (s.outQueue.buf.length + 1)) + 1 := by omega
        rw [hts.1, hts.2, h1, List.take_succ_cons]
        simp
      · have hts := trySend_full s.outQueue
          (fillDevice env (rawFrag L m g hdr i (n.buf.take L))) (by omega)
        have h1 : s.outQueue.cap - s.outQueue.buf.length = 0 := by omega
        rw [hts, h1]
        simp

theorem fragLoop_frame (env : Env) (L m x g : Nat) (hdr : Packet) :
    ∀ (fuel i t : Nat) (n : Packet) (s : Session) (err : Option Err),
      (fragLoop env L m x g hdr fuel i t n s err).1.state = s.state ∧
      (fragLoop env L m x g hdr fuel i t n s err).1.parent = s.parent ∧
      (fragLoop env L m x g hdr fuel i t n s err).1.jobs = s.jobs ∧
      (fragLoop env L m x g hdr fuel i t n s err).1.sleep = s.sleep ∧
      (fragLoop env L m x g hdr fuel i t n s err).1.jitter = s.jitter ∧
      (fragLoop env L m x g hdr fuel i t n s err).1.DeviceID = s.DeviceID ∧
      (fragLoop env L m x g hdr fuel i t n s err).2.1.ID = n.ID ∧
      (fragLoop env L m x g hdr fuel i t n s err).2.1.Job = n.Job := by
  intro fuel
  induction fuel with
  | zero => intro i t n s err; simp [fragLoop]
  | succ k ih =>
    intro i t n s err
    rw [fragLoop]
    by_cases hx : t < x
    · simp only [hx, if_true]
      refine ⟨?_, ?_, ?_, ?_, ?_, ?_, ?_, ?_⟩
      · rw [(ih _ _ _ _ _).1]; exact (queueWake_frame env s _).1
      · rw [(ih _ _ _ _ _).2.1]; exact (queueWake_frame env s _).2.1
      · rw [(ih _ _ _ _ _).2.2.1]; exact (queueWake_frame env s _).2.2.1
      · rw [(ih _ _ _ _ _).2.2.2.1]; exact (queueWake_frame env s _).2.2.2.1
      · rw [(ih _ _ _ _ _).2.2.2.2.1]; exact (queueWake_frame env s _).2.2.2.2.1
      · rw [(ih _ _ _ _ _).2.2.2.2.2.1]; exact (queueWake_frame env s _).2.2.2.2.2.1
      · rw [(ih _ _ _ _ _).2.2.2.2.2.2.1]; simp [Packet.WriteTo]
      · rw [(ih _ _ _ _ _).2.2.2.2.2.2.2]; simp [Packet.WriteTo]
    · simp [hx]

theorem fragLoop_err (env : Env) (L m x g : Nat) (hdr : Packet) (hL : 0 < L) :
    ∀ (fuel i t : Nat) (n : Packet) (s : Session) (err : Option Err),
      t + n.buf.length = x → n.buf.length ≤ fuel * L →
      (err = none ∨ 0 < n.buf.length) →
      (fragLoop env L m x g hdr fuel i t n s err).2.2 = none := by
  intro fuel
  induction fuel with
  | zero =>
    intro i t n s err _ hfu herr
    have h0 : n.buf.length = 0 := by omega
    rcases herr with h | h
    · simp [fragLoop, h]
    · omega
  | succ k ih =>
    intro i t n s err ht hfu herr
    by_cases hb : n.buf.length = 0
    · have hx : ¬ t < x := by omega
      rw [fragLoop_done env L m x g hdr (k + 1) i t n s err hx]
      rcases herr with h | h
      · exact h
      · omega
    · have hx : t < x := by omega
      rw [fragLoop_step env L m x g hdr k i t n s err hL hx]
      have hmul : (k + 1) * L = k * L + L := Nat.succ_mul k L
      apply ih
      · simp only [List.length_drop]; omega
      · simp only [List.length_drop]; omega
      · by_cases hl : L < n.buf.length
        · right; simp only [List.length_drop]; omega
        · left; simp [hl]

theorem ceil_step (L len : Nat) (hL : 0 < L) (hlen : 0 < len) :
    (len - L + L - 1) / L + 1 = (len + L - 1) / L := by
  have h1 : (len + L - 1) = (len - 1) + L := by omega
  rw [h1, Nat.add_div_right _ hL]
  rcases Nat.lt_or_ge L len with h | h
  · have h2 : len - L + L - 1 = len - 1 := by omega
    rw [h2]
  · have h2 : len - L + L - 1 = L - 1 := by omega
    rw [h2, Nat.div_eq_of_lt (by omega), Nat.div_eq_of_lt (by omega)]

theorem fragList_length (env : Env) (L m g : Nat) (hdr : Packet) (hL : 0 < L) :
    ∀ (fuel i : Nat) (bytes : List Nat), bytes.length ≤ fuel * L →
      (fragList env L m g hdr fuel i bytes).length = (bytes.length + L - 1) / L := by
  intro fuel
  induction fuel with
  | zero =>
    intro i bytes h
    have h0 : bytes.length = 0 := by omega
    simp only [fragList, List.length_nil, h0]
    exact (Nat.div_eq_of_lt (by omega)).symm
  | succ k ih =>
    intro i bytes h
    by_cases hb : bytes.length = 0
    · simp only [fragList, hb, if_true, List.length_nil]
      exact (Nat.div_eq_of_lt (by omega)).symm
    · have hmul : (k + 1) * L = k * L + L := Nat.succ_mul k L
      simp only [fragList, hb, if_false, List.length_cons]
      rw [ih (i + 1) (bytes.drop L) (by simp only [List.length_drop]; omega)]
      simp only [List.length_drop]
      have := ceil_step L bytes.length hL (by omega)
      omega

theorem fragList_get (env : Env) (L m g : Nat) (hdr : Packet) :
    ∀ (fuel i : Nat) (bytes : List Nat) (j : Nat) (e : Packet),
      (fragList env L m g hdr fuel i bytes)[j]? = some e →
      e.Flags.group = g ∧ e.Flags.len = m % 65536 ∧
      e.Flags.position = (i + j) % 65536 ∧ e.ID = hdr.ID ∧ e.Job = hdr.Job ∧
      e.buf = (bytes.drop (j * L)).take L := by
  intro fuel
  induction fuel with
  | zero => intro i bytes j e h; simp [fragList] at h
  | succ k ih =>
    intro i bytes j e h
    by_cases hb : bytes.length = 0
    · simp [fragList, hb] at h
    · simp only [fragList, hb, if_false] at h
      cases j with
      | zero =>
        simp only [List.getElem?_cons_zero, Option.some.injEq] at h
        subst h
        simp [fillDevice, deviceEmpty, rawFrag, Flag.SetGroup, Flag.SetLen, Flag.SetPosition]
      | succ j =>
        simp only [List.getElem?_cons_succ] at h
        have hr := ih (i + 1) (bytes.drop L) j e h
        refine ⟨hr.1, hr.2.1, ?_, hr.2.2.2.1, hr.2.2.2.2.1, ?_⟩
        · rw [hr.2.2.1]; congr 1; omega
        · rw [hr.2.2.2.2.2, List.drop_drop]
          congr 2
          rw [Nat.succ_mul]; omega

/-! ## The two paths of `write` -/

theorem write_small (env : Env) (s : Session) (w : Bool) (p : Packet) (hopen : s.isOpen)
    (hsmall : env.Frag ≤ 0 ∨ (p.Size : Int) ≤ env.Frag) :
    s.write env w p =
      if (!w && s.nearFull) = true then (s, p, some Err.ErrFullBuffer)
      else ((s.queueWake env p).1, (s.queueWake env p).2, none) := by
  unfold Session.write Session.nearFull
  simp [hopen.1, hopen.2, hsmall]

theorem write_large (env : Env) (s : Session) (w : Bool) (p : Packet) (L : Nat)
    (hL : 0 < L) (hF : env.Frag = (L : Int)) (hopen : s.isOpen) (hbig : L < p.Size) :
    s.write env w p =
      if (!w && decide (s.send.buf.length + (p.Size / L + 1) ≥ s.send.cap)) = true then
        (s, p, some Err.ErrFullBuffer)
      else
        ((fragLoop env L (p.Size / L + 1) p.Size (env.frand % 65536) p
            (p.Size / L + 1 + 1) 0 0 p s none).1,
          (fragLoop env L (p.Size / L + 1) p.Size (env.frand % 65536) p
            (p.Size / L + 1 + 1) 0 0 p s none).2.1.Clear,
          (fragLoop env L (p.Size / L + 1) p.Size (env.frand % 65536) p
            (p.Size / L + 1 + 1) 0 0 p s none).2.2) := by
  have h1 : ¬ ((L : Int) ≤ 0 ∨ (p.Size : Int) ≤ (L : Int)) := by omega
  unfold Session.write
  simp only [hopen.1, hopen.2, Bool.or_self, Bool.false_eq_true, if_false, hF,
    Int.toNat_ofNat]
  rw [if_neg h1]

theorem size_le_fuel (L size : Nat) (hL : 0 < L) : size ≤ (size / L + 1 + 1) * L := by
  have h := Nat.div_add_mod size L
  have hm := Nat.mod_lt size hL
  have h2 : (size / L + 1 + 1) * L = L * (size / L) + L + L := by ring
  omega

/-- The fragmenting path of `write`, when the capacity guard lets it through
and the outbound queue has a slot for every fragment: the queue gains
`fragList`, the error is nil. -/
theorem write_large_ok (env : Env) (s : Session) (w : Bool) (p : Packet) (L : Nat)
    (hL : 0 < L) (hF : env.Frag = (L : Int)) (hopen : s.isOpen) (hbig : L < p.Size)
    (hc : ¬ (!w && decide (s.send.buf.length + (p.Size / L + 1) ≥ s.send.cap)) = true)
    (hroom : s.outQueue.buf.length + (p.Size + L - 1) / L ≤ s.outQueue.cap) :
    (s.write env w p).1.outQueue.buf =
        s.outQueue.buf ++ fragList env L (p.Size / L + 1) (env.frand % 65536) p
          (p.Size / L + 1 + 1) 0 p.buf ∧
      (s.write env w p).2.2 = none := by
  have hw := write_large env s w p L hL hF hopen hbig
  have hfu : p.buf.length ≤ (p.Size / L + 1 + 1) * L := size_le_fuel L p.Size hL
  rw [hw, if_neg hc]
  have hlen := fragList_length env L (p.Size / L + 1) (env.frand % 65536) p hL
    (p.Size / L + 1 + 1) 0 p.buf hfu
  have hq := fragLoop_queue env L (p.Size / L + 1) p.Size (env.frand % 65536) p hL
    (p.Size / L + 1 + 1) 0 0 p s none hopen.2 (by simp [Packet.Size])
    (by rw [hlen]; exact hroom)
  have he := fragLoop_err env L (p.Size / L + 1) p.Size (env.frand % 65536) p hL
    (p.Size / L + 1 + 1) 0 0 p s none (by simp [Packet.Size]) hfu (Or.inl rfl)
  exact ⟨hq.1, he⟩

/-- The fragmenting path of `write` when the capacity guard lets it through:
the outbound queue gains the first fragments of `fragList` that fit, the error
is nil. -/
theorem write_large_take (env : Env) (s : Session) (w : Bool) (p : Packet) (L : Nat)
    (hL : 0 < L) (hF : env.Frag = (L : Int)) (hopen : s.isOpen) (hbig : L < p.Size)
    (hc : ¬ (!w && decide (s.send.buf.length + (p.Size / L + 1) ≥ s.send.cap)) = true) :
    (s.write env w p).1.outQueue.buf =
        s.outQueue.buf ++ (fragList env L (p.Size / L + 1) (env.frand % 65536) p
          (p.Size / L + 1 + 1) 0 p.buf).take (s.outQueue.cap - s.outQueue.buf.length) ∧
      (s.write env w p).2.2 = none := by
  have hw := write_large env s w p L hL hF hopen hbig
  have hfu : p.buf.length ≤ (p.Size / L + 1 + 1) * L := size_le_fuel L p.Size hL
  rw [hw, if_neg hc]
  have hq := fragLoop_queue_take env L (p.Size / L + 1) p.Size (env.frand % 65536) p hL
    (p.Size / L + 1 + 1) 0 0 p s none hopen.2 (by simp [Packet.Size])
  have he := fragLoop_err env L (p.Size / L + 1) p.Size (env.frand % 65536) p hL
    (p.Size / L + 1 + 1) 0 0 p s none (by simp [Packet.Size]) hfu (Or.inl rfl)
  exact ⟨hq.1, he⟩

theorem write_large_guard (env : Env) (s : Session) (w : Bool) (p : Packet) (L : Nat)
    (hL : 0 < L) (hF : env.Frag = (L : Int)) (hopen : s.isOpen) (hbig : L < p.Size)
    (hacc : (s.write env w p).2.2 ≠ some Err.ErrFullBuffer) :
    ¬ (!w && decide (s.send.buf.length + (p.Size / L + 1) ≥ s.send.cap)) = true := by
  intro hc
  rw [write_large env s w p L hL hF hopen hbig, if_pos hc] at hacc
  exact hacc rfl

theorem write_small_guard (env : Env) (s : Session) (w : Bool) (p : Packet)
    (hopen : s.isOpen) (hsmall : env.Frag ≤ 0 ∨ (p.Size : Int) ≤ env.Frag)
    (hacc : (s.write env w p).2.2 ≠ some Err.ErrFullBuffer) :
    ¬ (!w && s.nearFull) = true := by
  intro hc
  rw [write_small env s w p hopen hsmall, if_pos hc] at hacc
  exact hacc rfl

theorem ceil_le_succ (L size : Nat) (hL : 0 < L) : (size + L - 1) / L ≤ size / L + 1 := by
  have h1 : (size + L - 1) / L ≤ (size + L) / L := Nat.div_le_div_right (by omega)
  rw [Nat.add_div_right _ hL] at h1
  exact h1

/-- Counterexample to C1 as stated: an open session whose empty send queue of
capacity 4 has room for the three fragments of a 48-byte packet refuses the
non-blocking write and queues nothing; with `chn` in use and one free slot in
it, the write returns nil and one fragment of three is queued. -/
theorem write_count_fails_with_room :
    cap4Session.isOpen ∧
      cap4Session.send.buf.length + (exPacket.Size + 16 - 1) / 16 ≤ cap4Session.send.cap ∧
      (cap4Session.write exEnv false exPacket).2.2 = some Err.ErrFullBuffer ∧
      (cap4Session.write exEnv false exPacket).1.outQueue.buf.length = 0 ∧
      chnSession.isOpen ∧
      chnSession.send.buf.length + (exPacket.Size + 16 - 1) / 16 ≤ chnSession.send.cap ∧
      (chnSession.write exEnv false exPacket).2.2 = none ∧
      (chnSession.write exEnv false exPacket).1.outQueue.buf.length =
        chnSession.outQueue.buf.length + 1 ∧
      (chnSession.write exEnv false exPacket).1.send.buf.length = 0 := by
  decide

/-- C1 (amended): on an open session with fragment limit `L > 0`, a
non-blocking `write` whose capacity guard fires (for `p.Size ≤ L`:
`len(send) + 1 ≥ cap(send)`, or `chn` in use and `len(chn) + 1 ≥ cap(chn)`; for
`p.Size > L`: `len(send) + p.Size / L + 1 ≥ cap(send)`) returns `ErrFullBuffer`
and leaves the session as it was.  Every other `write` returns nil and offers
one packet when `p.Size ≤ L` and `ceil (p.Size / L)` packets when `p.Size > L`
to the outbound queue (`chn` when in use, else `send`), which keeps as many of
them as it has free slots: exactly one, or exactly `ceil (p.Size / L)`, when
that many slots are free. -/
theorem write_enqueue_count (env : Env) (s : Session) (w : Bool) (p : Packet) (L : Nat)
    (hL : 0 < L) (hF : env.Frag = (L : Int)) (hopen : s.isOpen) :
    (p.Size ≤ L →
      (w = false → s.nearFull = true → s.write env w p = (s, p, some Err.ErrFullBuffer)) ∧
      (w = true ∨ s.nearFull = false →
        (s.write env w p).2.2 = none ∧
        (s.write env w p).1.outQueue.buf.length =
          s.outQueue.buf.length + min 1 (s.outQueue.cap - s.outQueue.buf.length))) ∧
    (L < p.Size →
      (w = false → s.send.buf.length + (p.Size / L + 1) ≥ s.send.cap →
        s.write env w p = (s, p, some Err.ErrFullBuffer)) ∧
      (w = true ∨ s.send.buf.length + (p.Size / L + 1) < s.send.cap →
        (s.write env w p).2.2 = none ∧
        (s.write env w p).1.outQueue.buf.length =
          s.outQueue.buf.length +
            min ((p.Size + L - 1) / L) (s.outQueue.cap - s.outQueue.buf.length))) := by
  constructor
  · intro hle
    have hsmall : env.Frag ≤ 0 ∨ (p.Size : Int) ≤ env.Frag := by
      right; rw [hF]; exact_mod_cast hle
    rw [write_small env s w p hopen hsmall]
    constructor
    · intro hw hn
      rw [if_pos (by simp [hw, hn])]
    · intro h
      have hc : ¬ (!w && s.nearFull) = true := by
        rcases h with h | h <;> simp [h]
      rw [if_neg hc]
      refine ⟨rfl, ?_⟩
      show (s.queueWake env p).1.outQueue.buf.length = _
      rw [(queueWake_out env s p hopen.2).1, (trySend_take s.outQueue (fillDevice env p)).1,
        List.length_append, List.length_take]
      simp [Nat.min_comm]
  · intro hbig
    constructor
    · intro hw hg
      rw [write_large env s w p L hL hF hopen hbig, if_pos (by simp [hw, hg])]
    · intro h
      have hc : ¬ (!w && decide (s.send.buf.length + (p.Size / L + 1) ≥ s.send.cap)) = true := by
        rcases h with h | h
        · simp [h]
        · simp; intro _; omega
      have hok := write_large_take env s w p L hL hF hopen hbig hc
      refine ⟨hok.2, ?_⟩
      rw [hok.1, List.length_append, List.length_take,
        fragList_length env L _ _ p hL _ 0 p.buf (size_le_fuel L p.Size hL)]
      rw [Nat.min_comm]
      rfl

/-- Witness for C1 (amended): the 48-byte example packet with limit 16 on the
example session. -/
theorem write_enqueue_count_witness :
    (exSession.write exEnv false exPacket).2.2 = none ∧
      (exSession.write exEnv false exPacket).1.outQueue.buf.length =
        exSession.outQueue.buf.length +
          min ((exPacket.Size + 16 - 1) / 16)
            (exSession.outQueue.cap - exSession.outQueue.buf.length) :=
  ((write_enqueue_count exEnv exSession false exPacket 16 (by decide) rfl (by decide)).2
    (by decide)).2 (Or.inr (by decide))

/-- C2 (code at the failing input): a 48-byte payload with limit 16 is queued as
three fragments of 16 bytes, and each carries `len = 4` (`48 / 16 + 1`), not the
number of fragments queued. -/
theorem write_len_lane_48_16 :
    ((exSession.write exEnv false exPacket).1.send.buf.map fun e =>
      (e.Flags.len, e.Flags.position, e.buf.length)) = [(4, 0, 16), (4, 1, 16), (4, 2, 16)] := by
  decide

/-- Counterexample to C3 as stated: a 65535-byte payload with limit 1 gives
`m = 65536`, whose 16-bit lane value is 0; fragments are queued and none has
its position below its len lane. -/
theorem write_lanes_wrap :
    (wrapSession.write wrapEnv true wrapPacket).1.outQueue.buf ≠ [] ∧
    ∀ e ∈ (wrapSession.write wrapEnv true wrapPacket).1.outQueue.buf,
      ¬ e.Flags.position < e.Flags.len := by
  have hsz : wrapPacket.Size = 65535 := List.length_replicate 65535 0
  have hsz2 : wrapPacket.buf.length = 65535 := hsz
  have hroom : wrapSession.outQueue.buf.length + (wrapPacket.Size + 1 - 1) / 1 ≤
      wrapSession.outQueue.cap := by
    have hq : wrapSession.outQueue = { cap := 70000 } := rfl
    rw [hq, hsz]; decide
  have hok := write_large_ok wrapEnv wrapSession true wrapPacket 1 (by decide) rfl
    ⟨rfl, rfl⟩ (by rw [hsz]; decide) (by simp) hroom
  have hbuf : (wrapSession.write wrapEnv true wrapPacket).1.outQueue.buf =
      fragList wrapEnv 1 (wrapPacket.Size / 1 + 1) (wrapEnv.frand % 65536) wrapPacket
        (wrapPacket.Size / 1 + 1 + 1) 0 wrapPacket.buf := by
    rw [hok.1]
    exact List.nil_append _
  have hlen := fragList_length wrapEnv 1 (wrapPacket.Size / 1 + 1) (wrapEnv.frand % 65536)
    wrapPacket (by decide) (wrapPacket.Size / 1 + 1 + 1) 0 wrapPacket.buf
    (size_le_fuel 1 wrapPacket.Size (by decide))
  rw [hsz2] at hlen
  rw [hbuf]
  constructor
  · intro h
    rw [h] at hlen
    exact absurd hlen (by decide)
  · intro e he
    obtain ⟨j, hj⟩ := List.mem_iff_getElem?.mp he
    have hg := fragList_get wrapEnv 1 _ _ wrapPacket _ 0 wrapPacket.buf j e hj
    rw [hg.2.1, hsz]
    simp

/-- C3 (amended): on an open session with fragment limit `L > 0`, when `write`
is given a packet larger than `L` whose part count fits the 16-bit lanes
(`p.Size / L + 1 < 65536`), the fragments it queues (none when a non-blocking
write is refused, else the first `ceil (p.Size / L)` that find a free slot in
the outbound queue) all carry the same group id, the `j`-th queued fragment
has position `j`, and every position is strictly below the len lane. -/
theorem write_fragment_lanes (env : Env) (s : Session) (w : Bool) (p : Packet) (L : Nat)
    (hL : 0 < L) (hF : env.Frag = (L : Int)) (hopen : s.isOpen) (hbig : L < p.Size)
    (hlane : p.Size / L + 1 < 65536) :
    ∃ fs : List Packet,
      (s.write env w p).1.outQueue.buf = s.outQueue.buf ++ fs ∧
      (w = false → s.send.buf.length + (p.Size / L + 1) ≥ s.send.cap → fs = []) ∧
      (w = true ∨ s.send.buf.length + (p.Size / L + 1) < s.send.cap →
        fs.length = min ((p.Size + L - 1) / L) (s.outQueue.cap - s.outQueue.buf.length)) ∧
      ∀ (j : Nat) (e : Packet), fs[j]? = some e →
        e.Flags.group = env.frand % 65536 ∧ e.Flags.position = j ∧
        e.Flags.position < e.Flags.len := by
  have hlen := fragList_length env L (p.Size / L + 1) (env.frand % 65536) p hL
    (p.Size / L + 1 + 1) 0 p.buf (size_le_fuel L p.Size hL)
  have hlanes : ∀ (k j : Nat) (e : Packet),
      ((fragList env L (p.Size / L + 1) (env.frand % 65536) p
        (p.Size / L + 1 + 1) 0 p.buf).take k)[j]? = some e →
      e.Flags.group = env.frand % 65536 ∧ e.Flags.position = j ∧
        e.Flags.position < e.Flags.len := by
    intro k j e hj
    rw [List.getElem?_take] at hj
    by_cases hjk : j < k
    · rw [if_pos hjk] at hj
      have hg := fragList_get env L _ _ p _ 0 p.buf j e hj
      have hjl : j < (p.Size + L - 1) / L := by
        have h1 := (List.getElem?_eq_some.mp hj).1
        rw [hlen] at h1
        exact h1
      have hceil := ceil_le_succ L p.Size hL
      have hpos : e.Flags.position = j := by
        rw [hg.2.2.1, Nat.zero_add]
        exact Nat.mod_eq_of_lt (by omega)
      refine ⟨hg.1, hpos, ?_⟩
      rw [hpos, hg.2.1, Nat.mod_eq_of_lt hlane]
      omega
    · rw [if_neg hjk] at hj
      exact absurd hj (by simp)
  by_cases hc : (!w && decide (s.send.buf.length + (p.Size / L + 1) ≥ s.send.cap)) = true
  · refine ⟨[], ?_, fun _ _ => rfl, ?_, fun j e hj => absurd hj (by simp)⟩
    · rw [write_large env s w p L hL hF hopen hbig, if_pos hc]
      simp
    · intro h
      exfalso
      rcases h with h | h
      · simp [h] at hc
      · simp at hc; omega
  · have hok := write_large_take env s w p L hL hF hopen hbig hc
    refine ⟨_, hok.1, ?_, ?_, hlanes _⟩
    · intro hw hg
      exact absurd (by simp [hw]; omega) hc
    · intro _
      rw [List.length_take, hlen, Nat.min_comm]
      rfl

/-- Witness for C3 (amended): the 48-byte example packet with limit 16, sent
with the blocking `write` into a queue of capacity 2. -/
theorem write_fragment_lanes_witness :
    ∃ fs : List Packet,
      (cap2Session.write exEnv true exPacket).1.outQueue.buf =
        cap2Session.outQueue.buf ++ fs ∧
      (true = false → cap2Session.send.buf.length + (exPacket.Size / 16 + 1) ≥
        cap2Session.send.cap → fs = []) ∧
      (true = true ∨ cap2Session.send.buf.length + (exPacket.Size / 16 + 1) <
          cap2Session.send.cap →
        fs.length = min ((exPacket.Size + 16 - 1) / 16)
          (cap2Session.outQueue.cap - cap2Session.outQueue.buf.length)) ∧
      ∀ (j : Nat) (e : Packet), fs[j]? = some e →
        e.Flags.group = exEnv.frand % 65536 ∧ e.Flags.position = j ∧
        e.Flags.position < e.Flags.len :=
  write_fragment_lanes exEnv cap2Session true exPacket 16 (by decide) rfl (by decide)
    (by decide) (by decide)

/-! ## Frame facts for `write` and `Task` -/

theorem queue_packet (env : Env) (s : Session) (n : Packet) :
    (s.queue env n).2.ID = n.ID ∧ (s.queue env n).2.Job = n.Job := by
  unfold Session.queue
  by_cases h : s.state.sendClose = true
  · simp [h]
  · by_cases hd : deviceEmpty n.Device = true <;> cases hc : s.chn <;> simp [h, hd]

theorem write_frame (env : Env) (s : Session) (w : Bool) (n : Packet) :
    (s.write env w n).1.jobs = s.jobs ∧ (s.write env w n).1.parent = s.parent ∧
    (s.write env w n).1.state = s.state ∧ (s.write env w n).1.sleep = s.sleep ∧
    (s.write env w n).1.jitter = s.jitter ∧ (s.write env w n).1.DeviceID = s.DeviceID ∧
    (s.write env w n).2.1.ID = n.ID ∧ (s.write env w n).2.1.Job = n.Job := by
  have hq := queueWake_frame env s n
  have hp := queue_packet env s n
  unfold Session.write
  split
  · simp
  · split
    · split
      · simp
      · exact ⟨hq.2.2.1, hq.2.1, hq.1, hq.2.2.2.1, hq.2.2.2.2.1, hq.2.2.2.2.2.1, hp.1, hp.2⟩
    · dsimp only
      split
      · simp
      · have hf := fragLoop_frame env env.Frag.toNat (n.Size / env.Frag.toNat + 1) n.Size
          (env.frand % 65536) n (n.Size / env.Frag.toNat + 1 + 1) 0 0 n s none
        exact ⟨hf.2.2.1, hf.2.1, hf.1, hf.2.2.2.1, hf.2.2.2.2.1, hf.2.2.2.2.2.1,
          hf.2.2.2.2.2.2.1, hf.2.2.2.2.2.2.2⟩

theorem lookup_none_filter (k : Nat) (m : List (Nat × Job)) (h : m.lookup k = none) :
    m.filter (fun e => e.1 != k) = m := by
  induction m with
  | nil => rfl
  | cons a t ih =>
    obtain ⟨a1, a2⟩ := a
    by_cases hk : k = a1
    · subst hk; simp [List.lookup] at h
    · have hk2 : (k == a1) = false := by simpa using hk
      rw [List.lookup, hk2] at h
      have hk3 : (a1 != k) = true := by simpa using fun e : a1 = k => hk e.symm
      have h2 : List.lookup k t = none := h
      rw [List.filter_cons_of_pos (by simpa using hk3), ih h2]

theorem nearFull_iff (s : Session) :
    s.nearFull = true ↔
      ((∃ ch, s.chn = some ch ∧ ch.cap ≤ ch.buf.length + 1) ∨
        s.send.cap ≤ s.send.buf.length + 1) := by
  unfold Session.nearFull
  cases hc : s.chn with
  | none => simp
  | some ch => simp

/-- Counterexample to C4 as stated: an open session whose send queue holds 3
of 4 slots (not full) still answers `ErrFullBuffer` to an unfragmented
`Write`. -/
theorem Write_refuses_before_full :
    nearFullSession.isOpen ∧ nearFullSession.chn = none ∧
    nearFullSession.send.buf.length < nearFullSession.send.cap ∧
    (nearFullSession.Write plainEnv smallPacket).2.2 = some Err.ErrFullBuffer := by
  decide

/-- C4 (amended): on an open session, for a packet that needs no fragmentation,
`Write` returns `ErrFullBuffer` exactly when fewer than two slots are free in
the send queue (`len + 1 ≥ cap`) or, while `chn` is in use, in `chn`; the
session is then unchanged.  Otherwise the packet (device id filled in) is
appended to the outbound queue and nil is returned. -/
theorem Write_full_buffer_iff (env : Env) (s : Session) (p : Packet) (hopen : s.isOpen)
    (hsmall : env.Frag ≤ 0 ∨ (p.Size : Int) ≤ env.Frag) :
    ((s.Write env p).2.2 = some Err.ErrFullBuffer ↔
      ((∃ ch, s.chn = some ch ∧ ch.cap ≤ ch.buf.length + 1) ∨
        s.send.cap ≤ s.send.buf.length + 1)) ∧
    ((s.Write env p).2.2 = some Err.ErrFullBuffer → (s.Write env p).1 = s) ∧
    ((s.Write env p).2.2 ≠ some Err.ErrFullBuffer →
      (s.Write env p).2.2 = none ∧
      (s.Write env p).1.outQueue.buf = s.outQueue.buf ++ [fillDevice env p]) := by
  have hw := write_small env s false p hopen hsmall
  have hn := nearFull_iff s
  unfold Session.Write
  by_cases hc : s.nearFull = true
  · have hc2 : (!false && s.nearFull) = true := by simp [hc]
    rw [hw, if_pos hc2]
    exact ⟨⟨fun _ => hn.mp hc, fun _ => rfl⟩, fun _ => rfl, fun h => absurd rfl h⟩
  · have hc2 : ¬ (!false && s.nearFull) = true := by simp [hc]
    rw [hw, if_neg hc2]
    refine ⟨⟨fun h => by simp at h, fun h => absurd (hn.mpr h) hc⟩,
      fun h => by simp at h, fun _ => ⟨rfl, ?_⟩⟩
    have hfree : s.outQueue.buf.length < s.outQueue.cap := by
      have hnot := fun h => hc (hn.mpr h)
      unfold Session.outQueue
      cases hch : s.chn with
      | none =>
        have h1 : ¬ s.send.cap ≤ s.send.buf.length + 1 := fun h => hnot (Or.inr h)
        simp only [Option.getD_none]; omega
      | some ch =>
        have h1 : ¬ ch.cap ≤ ch.buf.length + 1 := fun h => hnot (Or.inl ⟨ch, hch, h⟩)
        simp only [Option.getD_some]; omega
    rw [(queueWake_out env s p hopen.2).1]
    exact (trySend_room s.outQueue (fillDevice env p) hfree).1

/-- Witness for C4 (amended): the small example packet on the example
session, with fragmentation disabled. -/
theorem Write_full_buffer_iff_witness :
    ((exSession.Write plainEnv smallPacket).2.2 = some Err.ErrFullBuffer ↔
      ((∃ ch, exSession.chn = some ch ∧ ch.cap ≤ ch.buf.length + 1) ∨
        exSession.send.cap ≤ exSession.send.buf.length + 1)) ∧
    ((exSession.Write plainEnv smallPacket).2.2 = some Err.ErrFullBuffer →
      (exSession.Write plainEnv smallPacket).1 = exSession) ∧
    ((exSession.Write plainEnv smallPacket).2.2 ≠ some Err.ErrFullBuffer →
      (exSession.Write plainEnv smallPacket).2.2 = none ∧
      (exSession.Write plainEnv smallPacket).1.outQueue.buf =
        exSession.outQueue.buf ++ [fillDevice plainEnv smallPacket]) :=
  Write_full_buffer_iff plainEnv exSession smallPacket (by decide) (by decide)

/-- C5 (code at the failing input): `Send` on an open session whose send queue
is full returns with the session unchanged; the packet is in no queue. -/
theorem Send_drops_when_full :
    fullSession.isOpen ∧
    fullSession.send.buf.length = fullSession.send.cap ∧
    (fullSession.Send plainEnv smallPacket).1 = fullSession ∧
    smallPacket ∉ (fullSession.Send plainEnv smallPacket).1.send.buf := by
  decide

/-- C6 (code at the failing input): with `chn` in use and one free slot in it,
a non-blocking `Write` of the 48-byte packet (three fragments, limit 16)
returns nil although only the first fragment is queued; the other two are
dropped. -/
theorem Write_partial_on_chn :
    chnSession.isOpen ∧
    (chnSession.Write exEnv exPacket).2.2 = none ∧
    ((chnSession.Write exEnv exPacket).1.outQueue.buf.map fun e => e.buf.length) = [0, 16] ∧
    (chnSession.Write exEnv exPacket).1.send.buf = [] := by
  decide

/-- C7 (code at the failing input): `Task` registers a Job under the reserved
id 1 when the caller supplies it in the packet. -/
theorem Task_registers_reserved_id :
    (exSession.Task exEnv (some { ID := 128, Job := 1 })).2.2 = none ∧
    (exSession.Task exEnv (some { ID := 128, Job := 1 })).1.jobs =
      some [(1, { ID := 1, Typ := 128 })] := by
  decide

theorem Task_client (env : Env) (s : Session) (p : Packet) (hp : s.parent = none) :
    s.Task env (some p) = (s, none, some Err.clientSession) := by
  unfold Session.Task
  simp [hp]

theorem Task_server (env : Env) (s : Session) (p : Packet) (l : Listener)
    (m : List (Nat × Job)) (hp : s.parent = some l) (hj : s.jobs = some m) :
    s.Task env (some p) =
      if (taskPacket env s p).Job = 0 then (s, none, some Err.noJobID)
      else if (m.lookup (taskPacket env s p).Job).isSome = true then
        (s, none, some Err.jobInUse)
      else taskFinish (s.write env false (taskPacket env s p)) := by
  have hk : (taskPacket env s p).Job = if p.Job = 0 then s.newJobID env else p.Job := by
    unfold taskPacket
    by_cases hd : deviceEmpty p.Device = true <;> simp [hd]
  have hn2 : (if deviceEmpty p.Device = true then
        ({ p with Job := if p.Job = 0 then s.newJobID env else p.Job,
                  Device := s.DeviceID } : Packet)
      else { p with Job := if p.Job = 0 then s.newJobID env else p.Job }) =
      taskPacket env s p := by
    unfold taskPacket
    by_cases hd : deviceEmpty p.Device = true <;> simp [hd]
  unfold Session.Task
  simp only [hp, hj, Session.isMoving, Option.isNone_some, Bool.false_and,
    Bool.false_eq_true, if_false]
  rw [hk]
  by_cases h0 : (if p.Job = 0 then s.newJobID env else p.Job) = 0
  · simp only [h0, if_true]
  · simp only [h0, if_false]
    rw [hn2, hk]
    by_cases h1 : (m.lookup (if p.Job = 0 then s.newJobID env else p.Job)).isSome = true
    · simp only [h1, if_true]
    · simp only [h1, if_false]
      unfold taskFinish
      rfl

theorem Task_nil_jobs (env : Env) (s : Session) (p : Packet) (hj : s.jobs = none) :
    s.Task env (some p) = (s, none, some Err.clientSession) := by
  unfold Session.Task
  cases hp : s.parent <;> simp [hj]

theorem taskPacket_fields (env : Env) (s : Session) (p : Packet) :
    (taskPacket env s p).Job = (if p.Job = 0 then s.newJobID env else p.Job) ∧
    (taskPacket env s p).ID = p.ID := by
  unfold taskPacket
  by_cases hd : deviceEmpty p.Device = true <;> simp [hd]

theorem taskFinish_cases (s : Session) (r : Session × Packet × Option Err)
    (hjobs : r.1.jobs = s.jobs) :
    ((taskFinish r).2.2 ≠ none → (taskFinish r).1.jobs = s.jobs) ∧
    ((taskFinish r).2.2 = none →
      (taskFinish r).1.jobs = s.jobs.map (fun m =>
        jobsSet m r.2.1.Job { ID := r.2.1.Job, Typ := r.2.1.ID }) ∧
      (taskFinish r).2.1 = some { ID := r.2.1.Job, Typ := r.2.1.ID }) ∧
    (taskFinish r).1.sleep = r.1.sleep ∧ (taskFinish r).1.jitter = r.1.jitter ∧
    (taskFinish r).1.parent = r.1.parent := by
  unfold taskFinish
  cases he : r.2.2 with
  | none => simp [hjobs]
  | some err => simp [hjobs]

/-- C8: `Task` leaves the jobs map as it was on every error return, and on
success adds exactly one entry under a key that was free: the packet's job id
(the allocated one when the packet carried 0), with `ID` that job id and
`Type` the packet's id. -/
theorem Task_jobs_changed_iff_ok (env : Env) (s : Session) (n : Option Packet) :
    ((s.Task env n).2.2 ≠ none → (s.Task env n).1.jobs = s.jobs) ∧
    ((s.Task env n).2.2 = none →
      ∃ (p : Packet) (m : List (Nat × Job)) (k : Nat),
        n = some p ∧ s.jobs = some m ∧
        k = (if p.Job = 0 then s.newJobID env else p.Job) ∧
        m.lookup k = none ∧
        (s.Task env n).1.jobs = some ((k, { ID := k, Typ := p.ID }) :: m) ∧
        (s.Task env n).2.1 = some { ID := k, Typ := p.ID }) := by
  cases n with
  | none => simp [Session.Task]
  | some p =>
    cases hp : s.parent with
    | none => rw [Task_client env s p hp]; simp
    | some l =>
      cases hj : s.jobs with
      | none => rw [Task_nil_jobs env s p hj]; simp [hj]
      | some m =>
        have hk := taskPacket_fields env s p
        have hwf := write_frame env s false (taskPacket env s p)
        have hfin := taskFinish_cases s (s.write env false (taskPacket env s p)) hwf.1
        rw [Task_server env s p l m hp hj]
        by_cases h0 : (taskPacket env s p).Job = 0
        · simp [h0, hj]
        · by_cases h1 : (m.lookup (taskPacket env s p).Job).isSome = true
          · simp [h0, h1, hj]
          · rw [if_neg h0, if_neg h1]
            refine ⟨fun h => by rw [hfin.1 h, hj], fun h => ?_⟩
            have hnone : m.lookup (taskPacket env s p).Job = none := by
              cases hl : m.lookup (taskPacket env s p).Job with
              | none => rfl
              | some j => rw [hl] at h1; simp at h1
            refine ⟨p, m, (taskPacket env s p).Job, rfl, rfl, hk.1, hnone, ?_, ?_⟩
            · rw [(hfin.2.1 h).1, hj, hwf.2.2.2.2.2.2.2, hwf.2.2.2.2.2.2.1, hk.2]
              simp only [Option.map_some', jobsSet]
              rw [lookup_none_filter _ m hnone]
            · rw [(hfin.2.1 h).2, hwf.2.2.2.2.2.2.2, hwf.2.2.2.2.2.2.1, hk.2]

theorem Task_moving_client (env : Env) (s : Session) (p : Packet)
    (hm : s.isMoving = true) :
    s.Task env (some p) = (s, none, some Err.clientSession) := by
  have hp : s.parent = none := by
    unfold Session.isMoving at hm
    cases h : s.parent with
    | none => rfl
    | some l => rw [h] at hm; simp at hm
  exact Task_client env s p hp

/-- C9 (code at the failing input): on a client-side session with the Moving
bit set, for which `isMoving` holds, `Task` with a non-nil packet returns the
error "cannot be a client session" and not "migration in progress"; the
session is left as it was and no Job is returned. -/
theorem Task_moving_client_error :
    movingClient.state.moving = true ∧ movingClient.isMoving = true ∧
      (movingClient.Task exEnv (some { ID := 128, Job := 5 })).2.2 =
        some Err.clientSession ∧
      (movingClient.Task exEnv (some { ID := 128, Job := 5 })).2.2 ≠
        some Err.migration ∧
      (movingClient.Task exEnv (some { ID := 128, Job := 5 })).2.1 = none ∧
      (movingClient.Task exEnv (some { ID := 128, Job := 5 })).1 = movingClient := by
  decide

theorem Task_frame (env : Env) (s : Session) (n : Option Packet) :
    (s.Task env n).1.sleep = s.sleep ∧ (s.Task env n).1.jitter = s.jitter := by
  cases n with
  | none => simp [Session.Task]
  | some p =>
    cases hp : s.parent with
    | none => rw [Task_client env s p hp]; simp
    | some l =>
      cases hj : s.jobs with
      | none => rw [Task_nil_jobs env s p hj]; simp
      | some m =>
        have hwf := write_frame env s false (taskPacket env s p)
        have hfin := taskFinish_cases s (s.write env false (taskPacket env s p)) hwf.1
        rw [Task_server env s p l m hp hj]
        by_cases h0 : (taskPacket env s p).Job = 0
        · simp [h0]
        · by_cases h1 : (m.lookup (taskPacket env s p).Job).isSome = true
          · simp [h0, h1]
          · rw [if_neg h0, if_neg h1]
            rw [hfin.2.2.1, hfin.2.2.2.1]
            exact ⟨hwf.2.2.2.1, hwf.2.2.2.2.1⟩

/-- The two exits of `SetDuration`: with the clamped jitter `c` and the new
sleep stored, a client-side session returns `ErrNoTask`, a server-side one
returns what `Task` returns on the updated session. -/
theorem SetDuration_cases (env : Env) (s : Session) (t j : Int) :
    ∃ c : Nat, (c : Int) = (if j < 0 then 0 else if j > 100 then 100 else j) ∧
      ((s.parent = none ∧
          s.SetDuration env t j =
            ({ s with jitter := c, sleep := t }, none, some Err.ErrNoTask)) ∨
        (s.parent ≠ none ∧
          ∃ n : Packet, s.SetDuration env t j =
            Session.Task env { s with jitter := c, sleep := t } (some n))) := by
  have hstep : ∀ c : Nat,
      (if j < 0 then { s with jitter := 0 }
        else if j > 100 then { s with jitter := 100 }
        else { s with jitter := j.toNat % 256 } : Session) = { s with jitter := c } →
      ((s.parent = none ∧
          s.SetDuration env t j =
            ({ s with jitter := c, sleep := t }, none, some Err.ErrNoTask)) ∨
        (s.parent ≠ none ∧
          ∃ n : Packet, s.SetDuration env t j =
            Session.Task env { s with jitter := c, sleep := t } (some n))) := by
    intro c hc
    unfold Session.SetDuration
    rw [hc]
    cases hp : s.parent with
    | none => left; simp [hp]
    | some l => right; simp only [hp]; exact ⟨by simp, _, rfl⟩
  by_cases hneg : j < 0
  · exact ⟨0, by simp [hneg], hstep 0 (by simp [hneg])⟩
  · by_cases hbig : j > 100
    · exact ⟨100, by simp [hneg, hbig], hstep 100 (by simp [hneg, hbig])⟩
    · refine ⟨j.toNat % 256, ?_, hstep _ (by simp [hneg, hbig])⟩
      have h2 : j.toNat % 256 = j.toNat := Nat.mod_eq_of_lt (by omega)
      rw [h2]
      simp only [hneg, hbig, if_false]
      omega

/-- C10: after `SetDuration t j`, `Time` is `t` and `Jitter` is 0 for `j < 0`,
100 for `j > 100` and `j` otherwise; on a client-side session the call returns
no Job and `ErrNoTask` with that effect applied and both outbound queues
untouched. -/
theorem SetDuration_effect (env : Env) (s : Session) (t j : Int) :
    (s.SetDuration env t j).1.Time = t ∧
    ((s.SetDuration env t j).1.Jitter : Int) =
      (if j < 0 then 0 else if j > 100 then 100 else j) ∧
    (s.parent = none →
      (s.SetDuration env t j).2.1 = none ∧
      (s.SetDuration env t j).2.2 = some Err.ErrNoTask ∧
      (s.SetDuration env t j).1.send = s.send ∧
      (s.SetDuration env t j).1.chn = s.chn) := by
  obtain ⟨c, hc, hcase⟩ := SetDuration_cases env s t j
  unfold Session.Time Session.Jitter
  rcases hcase with ⟨_, heq⟩ | ⟨hp, n, heq⟩
  · rw [heq]
    exact ⟨rfl, hc, fun _ => ⟨rfl, rfl, rfl, rfl⟩⟩
  · rw [heq, (Task_frame env _ _).1, (Task_frame env _ _).2]
    exact ⟨rfl, hc, fun h0 => absurd h0 hp⟩

/-! ## Shutdown, Close, the session loop, `next` and `handle` -/

/-! ## Frame facts for `shutdown`, `wait` and the swap block -/

theorem sameCore_refl (a : Session) : a.sameCore a :=
  ⟨rfl, rfl, rfl, rfl, rfl, rfl, rfl, rfl, rfl⟩

theorem sameCore_trans {a b c : Session} (h1 : a.sameCore b) (h2 : b.sameCore c) :
    a.sameCore c := by
  obtain ⟨a1, a2, a3, a4, a5, a6, a7, a8, a9⟩ := h1
  obtain ⟨b1, b2, b3, b4, b5, b6, b7, b8, b9⟩ := h2
  exact ⟨a1.trans b1, a2.trans b2, a3.trans b3, a4.trans b4, a5.trans b5, a6.trans b6,
    a7.trans b7, a8.trans b8, a9.trans b9⟩

theorem queueShutdown_core (s : Session) : s.queueShutdown.sameCore s := by
  unfold Session.queueShutdown Session.sameCore
  split <;> simp

theorem closeProxy_core (s : Session) : s.closeProxy.sameCore s := by
  unfold Session.closeProxy Session.sameCore
  split <;> simp

theorem closeSend_core (s : Session) : s.closeSend.sameCore s := by
  unfold Session.closeSend Session.sameCore
  split <;> simp

theorem closeWake_core (s : Session) : s.closeWake.sameCore s := by
  unfold Session.closeWake Session.sameCore
  split
  · split <;> simp
  · simp

theorem closeRecv_core (s : Session) : s.closeRecv.sameCore s := by
  unfold Session.closeRecv Session.sameCore
  split
  · split <;> simp
  · simp

theorem stopTick_core (s : Session) : s.stopTick.sameCore s := by
  unfold Session.stopTick Session.sameCore
  split <;> simp

theorem setClosed_core (s : Session) : s.setClosed.sameCore s := by
  unfold Session.setClosed Session.sameCore
  dsimp only
  split
  · rename_i l hl
    split <;> simp [hl]
  · simp

theorem closeDone_core (s : Session) : s.closeDone.sameCore s := by
  unfold Session.closeDone Session.sameCore
  dsimp only
  split <;> simp

theorem shutdown_core (s : Session) : s.shutdown.sameCore s := by
  unfold Session.shutdown
  exact sameCore_trans (closeDone_core _) (sameCore_trans (setClosed_core _)
    (sameCore_trans (stopTick_core _) (sameCore_trans (closeRecv_core _)
    (sameCore_trans (closeWake_core _) (sameCore_trans (closeSend_core _)
    (sameCore_trans (closeProxy_core _) (queueShutdown_core _)))))))

theorem sameLog_trans {a b c : Session} (h1 : a.sameLog b) (h2 : b.sameLog c) :
    a.sameLog c := ⟨h1.1.trans h2.1, h1.2.trans h2.2⟩

theorem closeProxy_log (s : Session) : s.closeProxy.sameLog s := by
  unfold Session.closeProxy Session.sameLog
  split <;> simp

theorem closeSend_log (s : Session) : s.closeSend.sameLog s := by
  unfold Session.closeSend Session.sameLog
  split <;> simp

theorem closeWake_log (s : Session) : s.closeWake.sameLog s := by
  unfold Session.closeWake Session.sameLog
  split
  · split <;> simp
  · simp

theorem closeRecv_log (s : Session) : s.closeRecv.sameLog s := by
  unfold Session.closeRecv Session.sameLog
  split
  · split <;> simp
  · simp

theorem stopTick_log (s : Session) : s.stopTick.sameLog s := by
  unfold Session.stopTick Session.sameLog
  split <;> simp

theorem setClosed_log (s : Session) :
    s.setClosed.sameLog s ∧ s.setClosed.state.closed = true := by
  unfold Session.setClosed Session.sameLog
  dsimp only
  split
  · split <;> simp
  · simp

theorem closeDone_facts (s : Session) :
    s.closeDone.events = s.events ∧ s.closeDone.state = s.state ∧
    (s.isMoving = false → s.closeDone.chCloses = s.chCloses + 1) ∧
    (s.isMoving = true → s.closeDone.chCloses = s.chCloses) := by
  unfold Session.closeDone
  dsimp only
  have hm : Session.isMoving { s with muxClosed := true } = s.isMoving := rfl
  rw [hm]
  cases h : s.isMoving <;> simp

theorem queueShutdown_facts (s : Session) :
    s.queueShutdown.chCloses = s.chCloses ∧
    (s.Shutdown = true → s.state.moving = false →
      s.queueShutdown.events = s.events ++ [Event.shutdown]) ∧
    (s.Shutdown = false ∨ s.state.moving = true → s.queueShutdown.events = s.events) := by
  unfold Session.queueShutdown
  refine ⟨by split <;> rfl, fun h1 h2 => by simp [h1, h2], fun h => ?_⟩
  rcases h with h | h <;> simp [h]

/-- What the statements of `shutdown` between the first and the last leave
alone: the event queue and the count of `close(s.ch)`; they set `Closed`. -/
theorem shutdown_middle (s : Session) :
    (((((s.closeProxy).closeSend).closeWake).closeRecv).stopTick).setClosed.sameLog s ∧
    (((((s.closeProxy).closeSend).closeWake).closeRecv).stopTick).setClosed.state.closed = true ∧
    (((((s.closeProxy).closeSend).closeWake).closeRecv).stopTick).setClosed.sameCore s :=
  ⟨sameLog_trans (setClosed_log _).1 (sameLog_trans (stopTick_log _)
      (sameLog_trans (closeRecv_log _) (sameLog_trans (closeWake_log _)
      (sameLog_trans (closeSend_log _) (closeProxy_log _))))),
    (setClosed_log _).2,
    sameCore_trans (setClosed_core _) (sameCore_trans (stopTick_core _)
      (sameCore_trans (closeRecv_core _) (sameCore_trans (closeWake_core _)
      (sameCore_trans (closeSend_core _) (closeProxy_core _)))))⟩

theorem shutdown_facts (s : Session) :
    s.shutdown.state.closed = true ∧
    s.shutdown.events = s.queueShutdown.events ∧
    (s.parent.isSome = true → s.shutdown.chCloses = s.chCloses + 1) := by
  have hm := shutdown_middle s.queueShutdown
  have hd := closeDone_facts
    ((((((s.queueShutdown).closeProxy).closeSend).closeWake).closeRecv).stopTick).setClosed
  have hq := queueShutdown_facts s
  have hqc := queueShutdown_core s
  unfold Session.shutdown
  refine ⟨?_, ?_, ?_⟩
  · rw [hd.2.1]; exact hm.2.1
  · rw [hd.1]; exact hm.1.1
  · intro hp
    have hpar : (((((((s.queueShutdown).closeProxy).closeSend).closeWake).closeRecv).stopTick).setClosed).parent.isSome = true := by
      rw [hm.2.2.2.2.2.2.2.2.1, hqc.2.2.2.2.2.2.1]; exact hp
    have hnm : (((((((s.queueShutdown).closeProxy).closeSend).closeWake).closeRecv).stopTick).setClosed).isMoving = false := by
      unfold Session.isMoving
      cases hx : (((((((s.queueShutdown).closeProxy).closeSend).closeWake).closeRecv).stopTick).setClosed).parent with
      | none => rw [hx] at hpar; simp at hpar
      | some l => simp
    rw [hd.2.2.1 hnm, hm.1.2, hq.1]

theorem queueShutdown_chans (s : Session) : s.queueShutdown.sameChans s := by
  unfold Session.queueShutdown Session.sameChans
  split <;> simp

theorem closeProxy_chans (s : Session) : s.closeProxy.sameChans s := by
  unfold Session.closeProxy Session.sameChans
  split <;> simp

theorem stopTick_chans (s : Session) : s.stopTick.sameChans s := by
  unfold Session.stopTick Session.sameChans
  split <;> simp

theorem setClosed_chans (s : Session) : s.setClosed.sameChans s := by
  unfold Session.setClosed Session.sameChans
  dsimp only
  split
  · split <;> simp
  · simp

theorem closeDone_chans (s : Session) : s.closeDone.sameChans s := by
  unfold Session.closeDone Session.sameChans
  dsimp only
  split <;> simp

theorem closeSend_chans (s : Session) :
    s.closeSend.state.sendClose = true ∧
    (s.state.sendClose = false → s.closeSend.send = { s.send with closed := true }) ∧
    s.closeSend.wake = s.wake ∧ s.closeSend.recv = s.recv ∧
    s.closeSend.state.wakeClose = s.state.wakeClose ∧
    s.closeSend.state.recvClose = s.state.recvClose ∧
    s.closeSend.state.canRecv = s.state.canRecv := by
  unfold Session.closeSend
  cases h : s.state.sendClose <;> simp [h]

theorem closeWake_chans (s : Session) :
    s.closeWake.state.sendClose = s.state.sendClose ∧ s.closeWake.send = s.send ∧
    s.closeWake.recv = s.recv ∧ s.closeWake.state.recvClose = s.state.recvClose ∧
    s.closeWake.state.canRecv = s.state.canRecv ∧
    (∀ wk, s.wake = some wk → s.closeWake.state.wakeClose = true ∧
      (s.state.wakeClose = false → s.closeWake.wake = some { wk with closed := true })) := by
  unfold Session.closeWake
  cases hw : s.wake with
  | none => simp
  | some wk => cases h : s.state.wakeClose <;> simp [h]

theorem closeRecv_chans (s : Session) :
    s.closeRecv.state.sendClose = s.state.sendClose ∧ s.closeRecv.send = s.send ∧
    s.closeRecv.wake = s.wake ∧ s.closeRecv.state.wakeClose = s.state.wakeClose ∧
    (∀ rc, s.recv = some rc → s.state.canRecv = true →
      s.closeRecv.recv = some rc ∧ s.closeRecv.state.recvClose = s.state.recvClose) ∧
    (∀ rc, s.recv = some rc → s.state.canRecv = false → s.state.recvClose = false →
      s.closeRecv.recv = some { rc with closed := true } ∧
      s.closeRecv.state.recvClose = true) := by
  unfold Session.closeRecv
  cases hr : s.recv with
  | none => simp
  | some rc =>
    cases h1 : s.state.canRecv <;> cases h2 : s.state.recvClose <;> simp [h1, h2, hr]

theorem sameChans_trans {a b c : Session} (h1 : a.sameChans b) (h2 : b.sameChans c) :
    a.sameChans c := by
  obtain ⟨a1, a2, a3, a4, a5, a6, a7⟩ := h1
  obtain ⟨b1, b2, b3, b4, b5, b6, b7⟩ := h2
  exact ⟨a1.trans b1, a2.trans b2, a3.trans b3, a4.trans b4, a5.trans b5, a6.trans b6,
    a7.trans b7⟩

/-- C18 (amended): once `shutdown` has run, Closed and SendClose are set and the
send channel is closed, the wake channel (if present) is closed with WakeClose
set, and the receive channel is closed (RecvClose set) only when it exists
with CanRecv and RecvClose clear; a receive channel with CanRecv set, as
`Packets()` leaves it, stays as it was. -/
theorem shutdown_closes_channels (s : Session) :
    s.shutdown.state.closed = true ∧ s.shutdown.state.sendClose = true ∧
    (s.state.sendClose = false → s.shutdown.send = { s.send with closed := true }) ∧
    (∀ wk, s.wake = some wk → s.shutdown.state.wakeClose = true ∧
      (s.state.wakeClose = false → s.shutdown.wake = some { wk with closed := true })) ∧
    (∀ rc, s.recv = some rc → s.state.canRecv = true →
      s.shutdown.recv = some rc ∧ s.shutdown.state.recvClose = s.state.recvClose) ∧
    (∀ rc, s.recv = some rc → s.state.canRecv = false → s.state.recvClose = false →
      s.shutdown.recv = some { rc with closed := true } ∧
      s.shutdown.state.recvClose = true) := by
  have h01 : ((s.queueShutdown).closeProxy).sameChans s :=
    sameChans_trans (closeProxy_chans _) (queueShutdown_chans s)
  have h2 := closeSend_chans ((s.queueShutdown).closeProxy)
  have h3 := closeWake_chans (((s.queueShutdown).closeProxy).closeSend)
  have h4 := closeRecv_chans ((((s.queueShutdown).closeProxy).closeSend).closeWake)
  have h57 : s.shutdown.sameChans
      (((((s.queueShutdown).closeProxy).closeSend).closeWake).closeRecv) := by
    unfold Session.shutdown
    exact sameChans_trans (closeDone_chans _)
      (sameChans_trans (setClosed_chans _) (stopTick_chans _))
  obtain ⟨a1, a2, a3, a4, a5, a6, a7⟩ := h01
  obtain ⟨b1, b2, b3, b4, b5, b6, b7⟩ := h2
  obtain ⟨c1, c2, c3, c4, c5, c6⟩ := h3
  obtain ⟨d1, d2, d3, d4, d5, d6⟩ := h4
  obtain ⟨e1, e2, e3, e4, e5, e6, e7⟩ := h57
  refine ⟨(shutdown_facts s).1, ?_, ?_, ?_, ?_, ?_⟩
  · rw [e4, d1, c1]; exact b1
  · intro hs
    rw [e1, d2, c2, b2 (by rw [a4]; exact hs), a1]
  · intro wk hw
    have hc := c6 wk (by rw [b3, a2]; exact hw)
    refine ⟨by rw [e5, d4]; exact hc.1, fun hwc => ?_⟩
    rw [e2, d3]
    exact hc.2 (by rw [b5, a5]; exact hwc)
  · intro rc hr hcan
    have hd := d5 rc (by rw [c3, b4, a3]; exact hr) (by rw [c5, b7, a7]; exact hcan)
    exact ⟨by rw [e3]; exact hd.1, by rw [e6, hd.2, c4, b6, a6]⟩
  · intro rc hr hcan hrc
    have hd := d6 rc (by rw [c3, b4, a3]; exact hr) (by rw [c5, b7, a7]; exact hcan)
      (by rw [c4, b6, a6]; exact hrc)
    exact ⟨by rw [e3]; exact hd.1, by rw [e6]; exact hd.2⟩

theorem iterate_fixed {α : Type} (f : α → α) (a : α) (h : f (f a) = f a) :
    ∀ n : Nat, 1 ≤ n → Nat.iterate f n a = f a := by
  intro n
  induction n with
  | zero => intro h0; omega
  | succ k ih =>
    intro _
    rw [Function.iterate_succ_apply']
    rcases Nat.eq_zero_or_pos k with hk | hk
    · subst hk; rfl
    · rw [ih hk, h]

/-- C13: on a client session with an open wake channel of capacity 1 (holding
at most one signal), any number `n ≥ 1` of consecutive `Wake` calls leaves the
session as a single `Wake` does, with exactly one signal pending; `Wake`
changes nothing on a server-side session or once the wake channel is
closed. -/
theorem Wake_idempotent (s : Session) (n : Nat) :
    (∀ wk : Chan Unit, s.parent = none → s.state.wakeClose = false → s.wake = some wk →
      wk.cap = 1 → wk.buf.length ≤ 1 → 1 ≤ n →
      Nat.iterate Session.Wake n s = s.Wake ∧
      ∃ wk1 : Chan Unit, s.Wake.wake = some wk1 ∧ wk1.buf.length = 1) ∧
    (s.parent ≠ none ∨ s.state.wakeClose = true → s.Wake = s) := by
  constructor
  · intro wk hp hc hw hcap hlen hn
    have hW : ∀ (t : Session) (w : Chan Unit), t.parent = none → t.state.wakeClose = false →
        t.wake = some w → t.Wake = { t with wake := some (w.trySend ()) } := by
      intro t w h1 h2 h3
      unfold Session.Wake
      simp [h1, h2, h3]
    have h1 := hW s wk hp hc hw
    have hfull : ((wk.trySend ()).trySend ()) = wk.trySend () := by
      by_cases hb : wk.buf.length < wk.cap
      · have hr := trySend_room wk () hb
        apply trySend_full
        rw [hr.1, hr.2, List.length_append, List.length_singleton]
        omega
      · have hr := trySend_full wk () (Nat.le_of_not_lt hb)
        rw [hr, hr]
    have h2 : s.Wake.Wake = s.Wake := by
      rw [h1, hW { s with wake := some (wk.trySend ()) } (wk.trySend ()) hp hc rfl, hfull]
    refine ⟨iterate_fixed Session.Wake s h2 n hn, wk.trySend (), by rw [h1], ?_⟩
    unfold Chan.trySend
    by_cases hb : wk.buf.length < wk.cap
    · simp only [hb, if_true, List.length_append, List.length_singleton]; omega
    · simp only [hb, if_false]; omega
  · intro h
    unfold Session.Wake
    cases hw : s.wake with
    | none => rfl
    | some wk =>
      rcases h with h | h
      · cases hp : s.parent with
        | none => exact absurd hp h
        | some l => simp
      · simp [h]

/-- Witness for C13: three `Wake` calls on the example client session. -/
theorem Wake_idempotent_witness :
    Nat.iterate Session.Wake 3 clientSession = clientSession.Wake ∧
    ∃ wk1 : Chan Unit, clientSession.Wake.wake = some wk1 ∧ wk1.buf.length = 1 :=
  (Wake_idempotent clientSession 3).1 { cap := 1 } rfl rfl rfl rfl (by decide) (by decide)

/-- C16: on a server-side session that is not Closing, the first `Close` sets
Closing, runs `shutdown` (Closed set, `close(s.ch)` executed once); any
number `n ≥ 1` of `Close` calls leaves the session as the first one does. -/
theorem Close_idempotent (s : Session) (l : Listener) (n : Nat)
    (hp : s.parent = some l) (hc : s.state.closing = false) (hn : 1 ≤ n) :
    Nat.iterate Session.Close n s = s.Close ∧
    s.Close.Close = s.Close ∧
    s.Close.state.closing = true ∧ s.Close.state.closed = true ∧
    s.Close.chCloses = s.chCloses + 1 := by
  have hclose : ∀ t : Session, t.state.closing = true → t.Close = t := by
    intro t ht
    unfold Session.Close
    simp [ht]
  have h1 : s.Close = Session.shutdown
      { s with state := { s.state with channelValue := false, channelUpdated := false,
                                       channel := false, closing := true } } := by
    unfold Session.Close
    simp [hc, hp]
  have hcore := shutdown_core
      { s with state := { s.state with channelValue := false, channelUpdated := false,
                                       channel := false, closing := true } }
  have hf := shutdown_facts
      { s with state := { s.state with channelValue := false, channelUpdated := false,
                                       channel := false, closing := true } }
  have hclosing : s.Close.state.closing = true := by
    rw [h1, hcore.2.2.2.2.1]
  have h2 : s.Close.Close = s.Close := hclose _ hclosing
  refine ⟨iterate_fixed Session.Close s h2 n hn, h2, hclosing, ?_, ?_⟩
  · rw [h1]; exact hf.1
  · rw [h1, hf.2.2 (by simp [hp])]

/-- Witness for C16: four `Close` calls on the example server-side session. -/
theorem Close_idempotent_witness :
    Nat.iterate Session.Close 4 serverSession = serverSession.Close ∧
    serverSession.Close.Close = serverSession.Close ∧
    serverSession.Close.state.closing = true ∧ serverSession.Close.state.closed = true ∧
    serverSession.Close.chCloses = serverSession.chCloses + 1 :=
  Close_idempotent serverSession { server := true } 4 rfl rfl (by decide)

/-- C17: `shutdown` of a session with a non-nil `Shutdown` callback queues the
callback exactly once when the Moving bit is clear and leaves the event queue
as it was when the Moving bit is set. -/
theorem shutdown_queues_callback (s : Session) (h : s.Shutdown = true) :
    (s.state.moving = false → s.shutdown.events = s.events ++ [Event.shutdown]) ∧
    (s.state.moving = true → s.shutdown.events = s.events) := by
  have hf := shutdown_facts s
  have hq := queueShutdown_facts s
  exact ⟨fun hm => by rw [hf.2.1, hq.2.1 h hm], fun hm => by rw [hf.2.1, hq.2.2 (Or.inr hm)]⟩

/-- Witness for C17: the example server-side session. -/
theorem shutdown_queues_callback_witness :
    (serverSession.state.moving = false →
      serverSession.shutdown.events = serverSession.events ++ [Event.shutdown]) ∧
    (serverSession.state.moving = true →
      serverSession.shutdown.events = serverSession.events) :=
  shutdown_queues_callback serverSession rfl

/-- Counterexample to C18 as stated: after `Packets()` enabled the receive
channel, `shutdown` sets Closed and closes the send and wake channels, but the
receive channel stays open and RecvClose stays clear. -/
theorem shutdown_leaves_recv_open :
    (serverSession.Packets.1).state.moving = false ∧
    (serverSession.Packets.1).recv = some { cap := 256 } ∧
    (serverSession.Packets.1).shutdown.state.closed = true ∧
    (serverSession.Packets.1).shutdown.send.closed = true ∧
    (serverSession.Packets.1).shutdown.wake = some { cap := 1, closed := true } ∧
    (serverSession.Packets.1).shutdown.recv = some { cap := 256, closed := false } ∧
    (serverSession.Packets.1).shutdown.state.recvClose = false := by
  decide

theorem wait_frame (s : Session) (ev : WaitEvent) :
    (s.wait ev).swap = s.swap ∧ (s.wait ev).jitter = s.jitter ∧
    (s.wait ev).state.moving = s.state.moving ∧ (s.wait ev).errors = s.errors ∧
    (s.wait ev).parent = s.parent ∧ (s.wait ev).state.shutdown = s.state.shutdown ∧
    (s.wait ev).host = s.host ∧ (s.wait ev).p = s.p ∧
    (ev ≠ WaitEvent.done → (s.wait ev).state.closing = s.state.closing) := by
  unfold Session.wait
  split
  · simp
  · cases ev <;> simp

theorem applySwap_frame (s : Session) :
    s.applySwap.errors = s.errors ∧ s.applySwap.state = s.state ∧
    s.applySwap.parent = s.parent := by
  unfold Session.applySwap
  cases hs : s.swap with
  | none => simp
  | some pr =>
    dsimp only
    by_cases h1 : pr.Next.length > 0 <;> by_cases h2 : pr.Sleep > 0 <;>
      by_cases h3 : pr.Jitter ≥ 0 ∧ pr.Jitter ≤ 100 <;> simp [h1, h2, h3]

theorem applySwap_jitter (s : Session) (pr : Profile) (hs : s.swap = some pr) :
    s.applySwap.jitter =
      if 0 ≤ pr.Jitter ∧ pr.Jitter ≤ 100 then pr.Jitter.toNat else s.jitter := by
  unfold Session.applySwap
  rw [hs]
  dsimp only
  by_cases hj : 0 ≤ pr.Jitter ∧ pr.Jitter ≤ 100
  · have hj2 : pr.Jitter ≥ 0 ∧ pr.Jitter ≤ 100 := hj
    have hm : pr.Jitter.toNat % 256 = pr.Jitter.toNat := Nat.mod_eq_of_lt (by omega)
    rw [if_pos hj2, if_pos hj]
    simp only [hm]
  · have hj2 : ¬ (pr.Jitter ≥ 0 ∧ pr.Jitter ≤ 100) := hj
    rw [if_neg hj2, if_neg hj]
    by_cases h1 : pr.Next.length > 0 <;> by_cases h2 : pr.Sleep > 0 <;> simp [h1, h2]

theorem markShutdown_frame (env : Env) (s : Session) :
    (s.markShutdown env).swap = s.swap ∧ (s.markShutdown env).jitter = s.jitter ∧
    (s.markShutdown env).errors = s.errors ∧ (s.markShutdown env).parent = s.parent ∧
    (s.markShutdown env).host = s.host ∧ (s.markShutdown env).p = s.p ∧
    (s.markShutdown env).state.closing = s.state.closing ∧
    (s.state.closing = false → (s.markShutdown env).state = s.state) := by
  unfold Session.markShutdown
  cases h : s.state.closing <;> simp [h]

theorem switchHost_frame (s : Session) (e : Bool) :
    (s.switchHost e).jitter = s.jitter ∧ (s.switchHost e).errors = s.errors ∧
    (s.switchHost e).state = s.state ∧ (s.switchHost e).parent = s.parent := by
  unfold Session.switchHost
  split <;> simp

theorem listenConnect_frame (c : Cycle) (s : Session) :
    (listenConnect c s).1.jitter = s.jitter ∧ (listenConnect c s).1.state = s.state ∧
    (listenConnect c s).1.parent = s.parent := by
  unfold listenConnect
  dsimp only
  split_ifs <;> simp

theorem listenPass_jitter (env : Env) (r : Run) (c : Cycle) (hrun : r.stopped = false)
    (hnm : r.s.state.moving = false) :
    (listenPass env r c).s.jitter = (((r.s.wait c.ev).markShutdown env).applySwap).jitter := by
  have hw := wait_frame r.s c.ev
  have hb : (listenBody env c (r.s.wait c.ev) r.e).1.jitter =
      (((r.s.wait c.ev).markShutdown env).applySwap).jitter := by
    unfold listenBody
    have hm2 : (r.s.wait c.ev).state.moving = false := by rw [hw.2.2.1]; exact hnm
    simp only [hm2, Bool.and_false, Bool.false_eq_true, if_false]
    rw [(listenConnect_frame c _).1, (switchHost_frame _ _).1]
  unfold listenPass
  simp only [hrun, Bool.false_eq_true, if_false]
  split
  · show (Session.shutdown _).jitter = _
    rw [(shutdown_core _).1, hb]
  · exact hb

/-- Counterexample to C11 as stated: pending profiles with `Jitter()` 200 and
-5 are applied by a pass of the loop, and the session's jitter stays 50 where
the claim expects 100 and 0. -/
theorem swap_jitter_not_clamped :
    (swapHighSession.listen {} [{}]).s.swap = none ∧
    (swapHighSession.listen {} [{}]).s.p = { Jitter := 200 } ∧
    (swapHighSession.listen {} [{}]).s.jitter = 50 ∧
    (swapLowSession.listen {} [{}]).s.swap = none ∧
    (swapLowSession.listen {} [{}]).s.p = { Jitter := -5 } ∧
    (swapLowSession.listen {} [{}]).s.jitter = 50 := by
  decide

/-- C11 (amended): when a pass of the session loop applies a pending profile
swap (the loop is running and the session is not migrating), a `Jitter()`
value of the new profile inside 0..=100 becomes the session's jitter and a
value outside that range is ignored: the jitter keeps its previous value. -/
theorem swap_jitter_guard (env : Env) (r : Run) (c : Cycle) (pr : Profile)
    (hrun : r.stopped = false) (hnm : r.s.state.moving = false)
    (hswap : r.s.swap = some pr) :
    (listenPass env r c).s.jitter =
      if 0 ≤ pr.Jitter ∧ pr.Jitter ≤ 100 then pr.Jitter.toNat else r.s.jitter := by
  have hw := wait_frame r.s c.ev
  have hms := markShutdown_frame env (r.s.wait c.ev)
  rw [listenPass_jitter env r c hrun hnm,
    applySwap_jitter _ pr (by rw [hms.1, hw.1]; exact hswap), hms.2.1, hw.2.1]

/-- Witness for C11 (amended): the example session whose pending profile has
`Jitter()` 200. -/
theorem swap_jitter_guard_witness :
    (listenPass {} { s := swapHighSession } {}).s.jitter =
      if 0 ≤ (200 : Int) ∧ (200 : Int) ≤ 100 then (200 : Int).toNat
      else swapHighSession.jitter :=
  swap_jitter_guard {} { s := swapHighSession } {} { Jitter := 200 } rfl rfl rfl

/-- C12 (code at the failing input): the profile's `Switch` answers true and its
`Next` returns the empty host; after one pass of the loop the session's host is
empty, the previous value "h1" is gone. -/
theorem switch_overwrites_host :
    switchSession.host = "h1" ∧ switchSession.p.Next = "" ∧
    (switchSession.listen {} [{}]).s.host = "" := by
  decide

/-- C14 (code at the failing input): with `Connect` failing on every attempt,
after 4 passes the loop is still running (errors = 4, not Closed); it is left,
and `shutdown` run, only in the 5th pass. -/
theorem listen_connect_failures :
    clientSession.errors = 0 ∧ clientSession.state.closing = false ∧
    clientSession.swap = none ∧
    (clientSession.listen {} (List.replicate 4 failedConnect)).stopped = false ∧
    (clientSession.listen {} (List.replicate 4 failedConnect)).s.errors = 4 ∧
    (clientSession.listen {} (List.replicate 4 failedConnect)).s.state.closed = false ∧
    (clientSession.listen {} (List.replicate 5 failedConnect)).stopped = true ∧
    (clientSession.listen {} (List.replicate 5 failedConnect)).passes = 5 ∧
    (clientSession.listen {} (List.replicate 5 failedConnect)).s.state.closed = true := by
  decide

theorem failRun_append (l : List Bool) (b : Bool) :
    failRun (l ++ [b]) = if b then 0 else failRun l + 1 := by
  unfold failRun
  rw [List.reverse_append]
  cases b <;> simp [List.takeWhile]

theorem listenConnect_ok (c : Cycle) (s : Session) (hc : c.connectOk = true)
    (hsd : s.state.shutdown = false) :
    (listenConnect c s).1.errors = (if c.exchangeOk then 0 else (s.errors + 1) % 256) ∧
    (listenConnect c s).2.2 =
      decide ((if c.exchangeOk then 0 else (s.errors + 1) % 256) > maxErrors) ∧
    (listenConnect c s).1.state = s.state := by
  unfold listenConnect
  cases hx : c.exchangeOk
  · by_cases hb : (s.errors + 1) % 256 > maxErrors <;> simp [hc, hb, hsd]
  · simp [hc, hsd, maxErrors]

theorem listenPass_ok (env : Env) (r : Run) (c : Cycle) (hrun : r.stopped = false)
    (hcl : r.s.state.closing = false) (hsd : r.s.state.shutdown = false)
    (hc : c.connectOk = true) (hev : c.ev ≠ WaitEvent.done) :
    (listenPass env r c).s.errors = (if c.exchangeOk then 0 else (r.s.errors + 1) % 256) ∧
    (listenPass env r c).stopped =
      decide ((if c.exchangeOk then 0 else (r.s.errors + 1) % 256) > maxErrors) ∧
    (listenPass env r c).s.state.closing = false ∧
    ((listenPass env r c).stopped = false → (listenPass env r c).s.state.shutdown = false) ∧
    ((listenPass env r c).stopped = true → (listenPass env r c).s.state.closed = true) := by
  have hw := wait_frame r.s c.ev
  have hwc : (r.s.wait c.ev).state.closing = false := by rw [hw.2.2.2.2.2.2.2.2 hev]; exact hcl
  have hms := markShutdown_frame env (r.s.wait c.ev)
  have has := applySwap_frame ((r.s.wait c.ev).markShutdown env)
  have hsh := switchHost_frame (((r.s.wait c.ev).markShutdown env).applySwap) r.e
  have hst : ((((r.s.wait c.ev).markShutdown env).applySwap).switchHost r.e).state =
      (r.s.wait c.ev).state := by
    rw [hsh.2.2.1, has.2.1, hms.2.2.2.2.2.2.2 hwc]
  have her : ((((r.s.wait c.ev).markShutdown env).applySwap).switchHost r.e).errors =
      r.s.errors := by
    rw [hsh.2.1, has.1, hms.2.2.1, hw.2.2.2.1]
  have hlc := listenConnect_ok c
    ((((r.s.wait c.ev).markShutdown env).applySwap).switchHost r.e) hc
    (by rw [hst, hw.2.2.2.2.2.1]; exact hsd)
  rw [her] at hlc
  have hbody : listenBody env c (r.s.wait c.ev) r.e =
      listenConnect c ((((r.s.wait c.ev).markShutdown env).applySwap).switchHost r.e) := by
    unfold listenBody
    simp [hwc]
  have hbst : (listenBody env c (r.s.wait c.ev) r.e).1.state = (r.s.wait c.ev).state := by
    rw [hbody, hlc.2.2, hst]
  have hpass : listenPass env r c =
      if (listenBody env c (r.s.wait c.ev) r.e).2.2 = true then
        { s := (listenBody env c (r.s.wait c.ev) r.e).1.shutdown,
          e := (listenBody env c (r.s.wait c.ev) r.e).2.1,
          passes := r.passes + 1, stopped := true }
      else
        { s := (listenBody env c (r.s.wait c.ev) r.e).1,
          e := (listenBody env c (r.s.wait c.ev) r.e).2.1,
          passes := r.passes + 1, stopped := false } := by
    unfold listenPass
    simp [hrun]
  by_cases hb : (listenBody env c (r.s.wait c.ev) r.e).2.2 = true
  · rw [hpass, if_pos hb]
    have hcore := shutdown_core (listenBody env c (r.s.wait c.ev) r.e).1
    have hfacts := shutdown_facts (listenBody env c (r.s.wait c.ev) r.e).1
    refine ⟨?_, ?_, ?_, fun h => by simp at h, fun _ => hfacts.1⟩
    · show (Session.shutdown _).errors = _
      rw [hcore.2.1, hbody]; exact hlc.1
    · show true = _
      rw [← hlc.2.1, ← hbody]; exact hb.symm
    · show (Session.shutdown _).state.closing = false
      rw [hcore.2.2.2.2.1, hbst]; exact hwc
  · rw [hpass, if_neg hb]
    have hb2 : (listenBody env c (r.s.wait c.ev) r.e).2.2 = false := by
      cases h : (listenBody env c (r.s.wait c.ev) r.e).2.2 with
      | false => rfl
      | true => exact absurd h hb
    refine ⟨?_, ?_, ?_, fun _ => ?_, fun h => by simp at h⟩
    · show (listenBody env c (r.s.wait c.ev) r.e).1.errors = _
      rw [hbody]; exact hlc.1
    · show false = _
      rw [← hlc.2.1, ← hbody]; exact hb2.symm
    · show (listenBody env c (r.s.wait c.ev) r.e).1.state.closing = false
      rw [hbst]; exact hwc
    · show (listenBody env c (r.s.wait c.ev) r.e).1.state.shutdown = false
      rw [hbst, hw.2.2.2.2.2.1]; exact hsd

theorem listenPass_stopped (env : Env) (r : Run) (c : Cycle) (h : r.stopped = true) :
    listenPass env r c = r := by
  unfold listenPass
  simp [h]

theorem listen_client (env : Env) (s : Session) (cycles : List Cycle) (hp : s.parent = none) :
    s.listen env cycles = cycles.foldl (listenPass env) { s := s } := by
  unfold Session.listen
  simp [hp]

/-- Loop invariant of `listen` while every `Connect` succeeds and the context
is not cancelled: as long as the loop runs, `errors` is the number of failed
exchanges since the last successful one, and it is at most `maxErrors`. -/
theorem listen_run_invariant (env : Env) (s : Session) (herr : s.errors = 0)
    (hcl : s.state.closing = false) (hsd : s.state.shutdown = false) :
    ∀ cycles : List Cycle,
      (∀ x ∈ cycles, x.connectOk = true ∧ x.ev ≠ WaitEvent.done) →
      (cycles.foldl (listenPass env) { s := s }).stopped = false →
      (cycles.foldl (listenPass env) { s := s }).s.errors =
          failRun (cycles.map fun x => x.exchangeOk) ∧
        (cycles.foldl (listenPass env) { s := s }).s.errors ≤ maxErrors ∧
        (cycles.foldl (listenPass env) { s := s }).s.state.closing = false ∧
        (cycles.foldl (listenPass env) { s := s }).s.state.shutdown = false := by
  intro cycles
  induction cycles using List.reverseRecOn with
  | nil =>
    intro _ _
    simp [failRun, herr, hcl, hsd]
  | append_singleton xs c ih =>
    intro hok hrun
    rw [List.foldl_append] at hrun ⊢
    simp only [List.foldl_cons, List.foldl_nil] at hrun ⊢
    have hprev : (xs.foldl (listenPass env) { s := s }).stopped = false := by
      cases h : (xs.foldl (listenPass env) { s := s }).stopped with
      | false => rfl
      | true => rw [listenPass_stopped env _ c h, h] at hrun; exact absurd hrun (by simp)
    have hi := ih (fun x hx => hok x (List.mem_append_left _ hx)) hprev
    have hc := hok c (List.mem_append_right _ (List.mem_singleton_self c))
    have hp := listenPass_ok env (xs.foldl (listenPass env) { s := s }) c hprev hi.2.2.1
      hi.2.2.2 hc.1 hc.2
    have hle : (if c.exchangeOk then 0
        else ((xs.foldl (listenPass env) { s := s }).s.errors + 1) % 256) ≤ maxErrors := by
      have h2 := hp.2.1
      rw [hrun] at h2
      have h3 := of_decide_eq_false h2.symm
      omega
    have hmod : ((xs.foldl (listenPass env) { s := s }).s.errors + 1) % 256 =
        (xs.foldl (listenPass env) { s := s }).s.errors + 1 := by
      have := hi.2.1
      unfold maxErrors at this
      exact Nat.mod_eq_of_lt (by omega)
    refine ⟨?_, ?_, hp.2.2.1, hp.2.2.2.1 hrun⟩
    · rw [hp.1, List.map_append, List.map_cons, List.map_nil, failRun_append, hmod, hi.1]
    · rw [hp.1]; exact hle

/-- C15: for a client session that starts with `errors = 0`, not Closing and
Shutdown clear, whose connects all succeed (context not cancelled): while the
loop runs, `errors` is the number of exchanges failed in a row; the loop is
left in a pass exactly when that pass completes a run of `maxErrors + 1 = 4`
failed exchanges, and the session is then Closed; a pass with a successful
exchange resets `errors` to 0 and never leaves the loop. -/
theorem listen_error_budget (env : Env) (s : Session) (cycles : List Cycle) (c : Cycle)
    (hp : s.parent = none) (herr : s.errors = 0) (hcl : s.state.closing = false)
    (hsd : s.state.shutdown = false)
    (hok : ∀ x ∈ cycles ++ [c], x.connectOk = true ∧ x.ev ≠ WaitEvent.done)
    (hrun : (s.listen env cycles).stopped = false) :
    (s.listen env cycles).s.errors = failRun (cycles.map fun x => x.exchangeOk) ∧
    ((s.listen env (cycles ++ [c])).stopped = true ↔
      failRun ((cycles ++ [c]).map fun x => x.exchangeOk) = 4) ∧
    ((s.listen env (cycles ++ [c])).stopped = true →
      (s.listen env (cycles ++ [c])).s.state.closed = true) ∧
    (c.exchangeOk = true →
      (s.listen env (cycles ++ [c])).s.errors = 0 ∧
      (s.listen env (cycles ++ [c])).stopped = false) := by
  rw [listen_client env s _ hp] at hrun ⊢
  rw [listen_client env s _ hp, List.foldl_append]
  simp only [List.foldl_cons, List.foldl_nil]
  have hi := listen_run_invariant env s herr hcl hsd cycles
    (fun x hx => hok x (List.mem_append_left _ hx)) hrun
  have hc := hok c (List.mem_append_right _ (List.mem_singleton_self c))
  have hpass := listenPass_ok env (cycles.foldl (listenPass env) { s := s }) c hrun
    hi.2.2.1 hi.2.2.2 hc.1 hc.2
  have hle : (cycles.foldl (listenPass env) { s := s }).s.errors ≤ 3 := hi.2.1
  have hmod : ((cycles.foldl (listenPass env) { s := s }).s.errors + 1) % 256 =
      (cycles.foldl (listenPass env) { s := s }).s.errors + 1 :=
    Nat.mod_eq_of_lt (by omega)
  refine ⟨hi.1, ?_, hpass.2.2.2.2, ?_⟩
  · rw [hpass.2.1, List.map_append, List.map_cons, List.map_nil, failRun_append, hmod,
      ← hi.1]
    unfold maxErrors
    cases c.exchangeOk
    · simp only [Bool.false_eq_true, if_false, decide_eq_true_eq]
      omega
    · simp
  · intro hx
    rw [hpass.1, hpass.2.1, hx]
    simp [maxErrors]

/-- Witness for C15: after three failed exchanges the loop still runs with
`errors = 3`, and the fourth failed exchange leaves it. -/
theorem listen_error_budget_witness :
    (clientSession.listen {} (List.replicate 3 failedExchange)).s.errors =
      failRun ((List.replicate 3 failedExchange).map fun x => x.exchangeOk) ∧
    ((clientSession.listen {} (List.replicate 3 failedExchange ++ [failedExchange])).stopped
        = true ↔
      failRun ((List.replicate 3 failedExchange ++ [failedExchange]).map
        fun x => x.exchangeOk) = 4) ∧
    ((clientSession.listen {} (List.replicate 3 failedExchange ++ [failedExchange])).stopped
        = true →
      (clientSession.listen {}
        (List.replicate 3 failedExchange ++ [failedExchange])).s.state.closed = true) ∧
    (failedExchange.exchangeOk = true →
      (clientSession.listen {}
        (List.replicate 3 failedExchange ++ [failedExchange])).s.errors = 0 ∧
      (clientSession.listen {}
        (List.replicate 3 failedExchange ++ [failedExchange])).stopped = false) :=
  listen_error_budget {} clientSession (List.replicate 3 failedExchange) failedExchange
    rfl rfl rfl rfl (by decide) (by decide)

theorem skipGroup_spec (l : Nat) :
    ∀ (q : List Packet) (n : Packet),
      ∃ pre : List Packet,
        n :: q = pre ++ (skipGroup l n q).1 :: (skipGroup l n q).2 ∧
        (∀ y ∈ pre, y.Flags.group = l) ∧
        ((skipGroup l n q).1.Flags.group ≠ l ∨ (skipGroup l n q).2 = []) := by
  intro q
  induction q with
  | nil => intro n; exact ⟨[], rfl, by simp, Or.inr rfl⟩
  | cons x xs ih =>
    intro n
    by_cases hg : n.Flags.group = l
    · obtain ⟨pre, h1, h2, h3⟩ := ih x
      refine ⟨n :: pre, ?_, ?_, ?_⟩
      · simp only [skipGroup, hg, if_true, List.cons_append]
        rw [← h1]
      · intro y hy
        rcases List.mem_cons.mp hy with h | h
        · rw [h]; exact hg
        · exact h2 y h
      · simp only [skipGroup, hg, if_true]
        exact h3
    · refine ⟨[], ?_, by simp, ?_⟩
      · simp [skipGroup, hg]
      · left
        simp [skipGroup, hg]

/-- Counterexample to C19 as stated: with last group 7 and the queue
`[A'(7), B(9)]`, `next(false)` returns B, and A' is dropped: afterwards the send
queue is empty and the peek slot is nil. -/
theorem next_drops_deferred_packet :
    fairSession.state.last = 7 ∧ fairSession.send.buf = [packetA, packetB] ∧
    (fairSession.next {} false).map (fun r => (r.2, r.1.send.buf, r.1.peek)) =
      some (some packetB, [], none) := by
  decide

/-- C19 (amended): with last group id `l > 0`, an empty peek slot, no proxy and
at least two queued packets, `next(false)` takes the packets `pre` of group `l`
off the head of the send queue and discards them: the session keeps only the
queue `q` behind the first packet `x` of another group, which goes on to
`nextPacket`; when the queue runs out on a packet of group `l`, that packet is
discarded too and an empty packet is returned. -/
theorem next_discards_last_group (env : Env) (s : Session) (n : Packet)
    (rest : List Packet) (hpeek : s.peek = none) (hprox : s.proxy = none)
    (hq : s.send.buf = n :: rest) (hrest : rest ≠ []) (hl : 0 < s.state.last) :
    ∃ (pre : List Packet) (x : Packet) (q : List Packet),
      n :: rest = pre ++ x :: q ∧
      (∀ y ∈ pre, y.Flags.group = s.state.last) ∧
      (x.Flags.group ≠ s.state.last ∨ q = []) ∧
      s.next env false =
        some (if x.Flags.group = s.state.last then
            ({ s with send := { s.send with buf := q },
                      state := { s.state with last := 0 } },
              some { Device := s.ID, Tags := n.Tags })
          else
            Session.nextTail env
              { s with send := { s.send with buf := q },
                       state := { s.state with last := 0 } } x n.Tags) := by
  obtain ⟨pre, h1, h2, h3⟩ := skipGroup_spec s.state.last rest n
  refine ⟨pre, (skipGroup s.state.last n rest).1, (skipGroup s.state.last n rest).2,
    h1, h2, h3, ?_⟩
  have hlen : ¬ rest.length = 0 := fun h => hrest (List.length_eq_zero.mp h)
  unfold Session.next Session.pick
  simp only [hpeek, hq, hprox, hlen, decide_False, Bool.false_and, Bool.false_eq_true,
    if_false, hl, if_true]
  split <;> rfl

/-- Witness for C19 (amended): the example session with last group 7 and the
queue `[A'(7), B(9)]`. -/
theorem next_discards_last_group_witness :
    ∃ (pre : List Packet) (x : Packet) (q : List Packet),
      packetA :: [packetB] = pre ++ x :: q ∧
      (∀ y ∈ pre, y.Flags.group = fairSession.state.last) ∧
      (x.Flags.group ≠ fairSession.state.last ∨ q = []) ∧
      fairSession.next {} false =
        some (if x.Flags.group = fairSession.state.last then
            ({ fairSession with send := { fairSession.send with buf := q },
                                state := { fairSession.state with last := 0 } },
              some { Device := fairSession.ID, Tags := packetA.Tags })
          else
            Session.nextTail {}
              { fairSession with send := { fairSession.send with buf := q },
                                 state := { fairSession.state with last := 0 } }
              x packetA.Tags) :=
  next_discards_last_group {} fairSession packetA [packetB] rfl rfl rfl (by decide)
    (by decide)

/-- C20: when the session is not Moving and its jobs map holds a Job with id
`p.Job ≥ 2` under that key, `handle(p)` for a packet with a non-empty device and
id `RvResult` or `RvMigrate` returns true, removes the entries under that key
from the jobs map and no other, and leaves the Job with `p` as its result (as
`ReadString` left it when `FlagError` is set) and with status Error when
`FlagError` is set and Completed otherwise. -/
theorem handle_completes_job (env : Env) (s : Session) (p : Packet)
    (m : List (Nat × Job)) (j : Job)
    (hjobs : s.jobs = some m) (hnm : s.state.moving = false)
    (hdev : deviceEmpty p.Device = false)
    (hid : p.ID = env.RvResult ∨ p.ID = env.RvMigrate) (hjob : 2 ≤ p.Job)
    (hl : m.lookup p.Job = some j) (hjid : j.ID = p.Job) :
    (s.handle env (some p)).2.1 = true ∧
    (s.handle env (some p)).1.jobs = some (m.filter fun e => e.1 != p.Job) ∧
    ∃ j1 : Job, (s.handle env (some p)).2.2 = some j1 ∧ j1.ID = p.Job ∧
      j1.Result = some (if p.Flags.error then (env.readString p).2 else p) ∧
      j1.Status = (if p.Flags.error then StatusError else StatusCompleted) := by
  have hidb : (p.ID != env.RvResult && p.ID != env.RvMigrate) = false := by
    rcases hid with h | h <;> simp [h]
  have hjb : decide (p.Job < 2) = false := by simp; omega
  have hne : ¬ m.length = 0 := by
    intro h0
    have : m = [] := List.length_eq_zero.mp h0
    rw [this] at hl
    simp at hl
  unfold Session.handle
  simp only [hdev, hidb, hjb, Bool.or_self, Bool.false_eq_true, if_false, hjobs, hne, hnm, hl]
  cases he : p.Flags.error
  · by_cases hu : j.Update = true <;> simp [hu, hjid]
  · by_cases hu : j.Update = true <;> simp [hu, hjid]

/-- Witness for C20: the example result packet for the tracked Job 5. -/
theorem handle_completes_job_witness :
    (jobSession.handle {} (some resultPacket)).2.1 = true ∧
    (jobSession.handle {} (some resultPacket)).1.jobs =
      some ([(5, ({ ID := 5, Typ := 128 } : Job))].filter fun e => e.1 != resultPacket.Job) ∧
    ∃ j1 : Job, (jobSession.handle {} (some resultPacket)).2.2 = some j1 ∧
      j1.ID = resultPacket.Job ∧
      j1.Result = some (if resultPacket.Flags.error then
        (({} : Env).readString resultPacket).2 else resultPacket) ∧
      j1.Status = (if resultPacket.Flags.error then StatusError else StatusCompleted) :=
  handle_completes_job {} jobSession resultPacket [(5, { ID := 5, Typ := 128 })]
    { ID := 5, Typ := 128 } rfl rfl rfl (Or.inl rfl) (by decide) rfl rfl

/-! ## `util.Decode`, `xerr.Wrap`, `filter.Filter` -/

theorem decodeLoop_spec (k d : Slice) (hk0 : 0 < k.len)
    (hdis : k.off + k.len ≤ d.off ∨ d.off + d.len ≤ k.off) :
    ∀ (fuel i : Nat) (m : List Nat), i + fuel ≤ d.len → d.off + d.len ≤ m.length →
      (decodeLoop k d fuel i m).length = m.length ∧
      ∀ p, (decodeLoop k d fuel i m).getD p 0 =
        if d.off + i ≤ p ∧ p < d.off + i + fuel then
          m.getD p 0 ^^^ m.getD (k.off + (p - d.off) % k.len) 0
        else m.getD p 0 := by
  intro fuel
  induction fuel with
  | zero =>
    intro i m _ _
    refine ⟨rfl, fun p => ?_⟩
    have : ¬ (d.off + i ≤ p ∧ p < d.off + i + 0) := by omega
    rw [if_neg this]; rfl
  | succ n ih =>
    intro i m hi hm
    have hstep := ih (i + 1)
      (m.set (d.off + i) (m.getD (d.off + i) 0 ^^^ m.getD (k.off + i % k.len) 0))
      (by omega) (by rw [List.length_set]; exact hm)
    rw [List.length_set] at hstep
    refine ⟨hstep.1, fun p => ?_⟩
    show (decodeLoop k d n (i + 1) _).getD p 0 = _
    rw [hstep.2 p]
    have hmod : ∀ q, q % k.len < k.len := fun q => Nat.mod_lt q hk0
    have hkidx : ∀ q, k.off + q % k.len ≠ d.off + i := by
      intro q
      have := hmod q
      omega
    have hget : ∀ q, q ≠ d.off + i →
        (m.set (d.off + i) (m.getD (d.off + i) 0 ^^^ m.getD (k.off + i % k.len) 0)).getD q 0 =
          m.getD q 0 := by
      intro q hq
      simp only [List.getD_eq_getElem?_getD]
      rw [List.getElem?_set_ne (Ne.symm hq)]
    by_cases h1 : d.off + (i + 1) ≤ p ∧ p < d.off + (i + 1) + n
    · rw [if_pos h1, if_pos (by omega), hget p (by omega), hget _ (hkidx _)]
    · rw [if_neg h1]
      by_cases h2 : p = d.off + i
      · rw [if_pos (by omega), h2]
        have hsub : d.off + i - d.off = i := by omega
        rw [hsub]
        simp only [List.getD_eq_getElem?_getD]
        rw [List.getElem?_set_self (by omega)]
        simp
      · rw [if_neg (by omega), hget p h2]

theorem ext_getD (a b : List Nat) (hl : a.length = b.length)
    (h : ∀ p, a.getD p 0 = b.getD p 0) : a = b := by
  apply List.ext_getElem hl
  intro n h1 h2
  have := h n
  simp only [List.getD_eq_getElem?_getD, List.getElem?_eq_getElem h1,
    List.getElem?_eq_getElem h2, Option.getD_some] at this
  exact this

theorem Decode_mem (m : List Nat) (k d : Slice) (hk0 : k.len ≠ 0)
    (hd : d.off + d.len ≤ m.length) (hdis : k.off + k.len ≤ d.off ∨ d.off + d.len ≤ k.off) :
    (Decode m k d).1.length = m.length ∧
      ∀ p, (Decode m k d).1.getD p 0 =
        if d.off ≤ p ∧ p < d.off + d.len then
          m.getD p 0 ^^^ m.getD (k.off + (p - d.off) % k.len) 0
        else m.getD p 0 := by
  unfold Decode
  by_cases h : k.len = 0 ∨ d.len = 0
  · rw [if_pos h]
    have hd0 : d.len = 0 := by omega
    refine ⟨rfl, fun p => ?_⟩
    rw [if_neg (by omega)]
  · rw [if_neg h]
    have hs := decodeLoop_spec k d (by omega) hdis d.len 0 m (by omega) hd
    refine ⟨hs.1, fun p => ?_⟩
    show (decodeLoop k d d.len 0 m).getD p 0 = _
    rw [hs.2 p]
    simp only [Nat.add_zero]

/-- Counterexample to C25 as stated: `Decode(b, b)` on the array `{1, 2, 3}`
zeroes the array, which is also the key, and a second `Decode(b, b)` leaves
the zeroes in place. -/
theorem Decode_aliased_not_involution :
    wholeOf3.len ≠ 0 ∧
      (Decode [1, 2, 3] wholeOf3 wholeOf3).1 = [0, 0, 0] ∧
      (Decode (Decode [1, 2, 3] wholeOf3 wholeOf3).1 wholeOf3 wholeOf3).1 = [0, 0, 0] ∧
      (Decode (Decode [1, 2, 3] wholeOf3 wholeOf3).1 wholeOf3 wholeOf3).1 ≠ [1, 2, 3] := by
  decide

/-- C25 (amended): for a data slice `d` that lies in memory and shares no byte
with the key slice `k`: with a non-empty key two applications of `Decode`
restore the memory; one application with non-empty key and data replaces each
`d[j]` by `d[j] XOR k[j mod len(k)]`, leaves every other byte (the key
included) as it was and returns the bytes of `d` as the string; when `k` or
`d` is empty `Decode` returns the empty string and leaves the memory
unchanged. -/
theorem Decode_involution (m : List Nat) (k d : Slice)
    (hd : d.off + d.len ≤ m.length) (hdis : k.off + k.len ≤ d.off ∨ d.off + d.len ≤ k.off) :
    (k.len ≠ 0 → (Decode (Decode m k d).1 k d).1 = m) ∧
      (k.len ≠ 0 → d.len ≠ 0 →
        (Decode m k d).2 = d.bytes (Decode m k d).1 ∧
        (Decode m k d).1.length = m.length ∧
        (∀ j, j < d.len → (Decode m k d).1.getD (d.off + j) 0 =
          m.getD (d.off + j) 0 ^^^ m.getD (k.off + j % k.len) 0) ∧
        (∀ p, ¬ (d.off ≤ p ∧ p < d.off + d.len) →
          (Decode m k d).1.getD p 0 = m.getD p 0)) ∧
      (k.len = 0 ∨ d.len = 0 → Decode m k d = (m, [])) := by
  refine ⟨fun hk0 => ?_, fun hk0 hd0 => ?_, fun h => ?_⟩
  · have h1 := Decode_mem m k d hk0 hd hdis
    have hd2 : d.off + d.len ≤ (Decode m k d).1.length := by
      rw [h1.1]; exact hd
    have h2 := Decode_mem (Decode m k d).1 k d hk0 hd2 hdis
    apply ext_getD _ _ (by rw [h2.1, h1.1])
    intro p
    rw [h2.2 p]
    by_cases hp : d.off ≤ p ∧ p < d.off + d.len
    · have hkidx : ¬ (d.off ≤ k.off + (p - d.off) % k.len ∧
          k.off + (p - d.off) % k.len < d.off + d.len) := by
        have hlt : (p - d.off) % k.len < k.len :=
          Nat.mod_lt (p - d.off) (Nat.pos_of_ne_zero hk0)
        omega
      rw [if_pos hp, h1.2 p, if_pos hp, h1.2 (k.off + (p - d.off) % k.len), if_neg hkidx,
        Nat.xor_cancel_right]
    · rw [if_neg hp, h1.2 p, if_neg hp]
  · have h1 := Decode_mem m k d hk0 hd hdis
    refine ⟨?_, h1.1, fun j hj => ?_, fun p hp => ?_⟩
    · unfold Decode
      rw [if_neg (by omega)]
    · rw [h1.2 (d.off + j), if_pos (by omega)]
      have hsub : d.off + j - d.off = j := by omega
      rw [hsub]
    · rw [h1.2 p, if_neg hp]
  · unfold Decode
    rw [if_pos h]

/-- Witness for C25 (amended): a two-byte key followed by three bytes of data
in one memory. -/
theorem Decode_involution_witness :
    (exKey.len ≠ 0 → (Decode (Decode exMemory exKey exData).1 exKey exData).1 = exMemory) ∧
      (exKey.len ≠ 0 → exData.len ≠ 0 →
        (Decode exMemory exKey exData).2 = exData.bytes (Decode exMemory exKey exData).1 ∧
        (Decode exMemory exKey exData).1.length = exMemory.length ∧
        (∀ j, j < exData.len → (Decode exMemory exKey exData).1.getD (exData.off + j) 0 =
          exMemory.getD (exData.off + j) 0 ^^^ exMemory.getD (exKey.off + j % exKey.len) 0) ∧
        (∀ p, ¬ (exData.off ≤ p ∧ p < exData.off + exData.len) →
          (Decode exMemory exKey exData).1.getD p 0 = exMemory.getD p 0)) ∧
      (exKey.len = 0 ∨ exData.len = 0 → Decode exMemory exKey exData = (exMemory, [])) :=
  Decode_involution exMemory exKey exData (by decide) (by decide)

/-- C26: `Wrap(s, e).Error()` is `s + ": " + e.Error()` and `Unwrap` returns `e`
when `e` is not nil; `Wrap(s, nil).Error()` is `s` and `Unwrap` returns nil. -/
theorem Wrap_error_unwrap (s : String) :
    (∀ e : GoError, (Wrap s (some e)).Error = s ++ ": " ++ e.Error ∧
      (Wrap s (some e)).Unwrap = some e) ∧
    (Wrap s none).Error = s ∧ (Wrap s none).Unwrap = none :=
  ⟨fun _ => ⟨rfl, rfl⟩, rfl, rfl⟩

/-- C27 (code at the failing input): for a filter with a non-empty `Exclude` list
the map of `MarshalJSON` holds the value of `f.Elevated` under the key
"exclude", not the list. -/
theorem marshal_exclude_holds_elevated :
    exFilter.Exclude = ["explorer.exe"] ∧
    exFilter.marshalMap.lookup "exclude" = some (JVal.boolean exFilter.Elevated) ∧
    exFilter.marshalMap.lookup "exclude" ≠ some (JVal.strings exFilter.Exclude) := by
  decide

/-! ## Timing operations -/

theorem SetDuration_timing (env : Env) (s : Session) (t j : Int) :
    ((s.SetDuration env t j).1.jitter : Int) =
      (if j < 0 then 0 else if j > 100 then 100 else j) ∧
    (s.SetDuration env t j).1.sleep = t := by
  obtain ⟨c, hc, hcase⟩ := SetDuration_cases env s t j
  rcases hcase with ⟨_, heq⟩ | ⟨_, n, heq⟩
  · rw [heq]; exact ⟨hc, rfl⟩
  · rw [heq, (Task_frame env _ _).1, (Task_frame env _ _).2]; exact ⟨hc, rfl⟩

theorem applySwap_jitter_le (s : Session) (h : s.jitter ≤ 100) : s.applySwap.jitter ≤ 100 := by
  cases hs : s.swap with
  | none =>
    unfold Session.applySwap
    rw [hs]
    exact h
  | some pr =>
    rw [applySwap_jitter s pr hs]
    split
    · omega
    · exact h

theorem listenBody_jitter_le (env : Env) (c : Cycle) (s : Session) (e : Bool)
    (h : s.jitter ≤ 100) : (listenBody env c s e).1.jitter ≤ 100 := by
  unfold listenBody
  split
  · exact h
  · rw [(listenConnect_frame c _).1, (switchHost_frame _ _).1]
    exact applySwap_jitter_le _ (by rw [(markShutdown_frame env s).2.1]; exact h)

theorem listenPass_jitter_le (env : Env) (r : Run) (c : Cycle) (h : r.s.jitter ≤ 100) :
    (listenPass env r c).s.jitter ≤ 100 := by
  have hb := listenBody_jitter_le env c (r.s.wait c.ev) r.e
    (by rw [(wait_frame r.s c.ev).2.1]; exact h)
  unfold listenPass
  split
  · exact h
  · dsimp only
    split
    · show (Session.shutdown _).jitter ≤ 100
      rw [(shutdown_core _).1]; exact hb
    · exact hb

theorem applyTimingOp_jitter_le (env : Env) (s : Session) (op : TimingOp)
    (h : s.jitter ≤ 100) : (applyTimingOp env s op).jitter ≤ 100 := by
  cases op with
  | setDuration t j =>
    have := (SetDuration_timing env s t j).1
    show (s.SetDuration env t j).1.jitter ≤ 100
    split_ifs at this <;> omega
  | setJitter j =>
    have := (SetDuration_timing env s s.sleep j).1
    show (s.SetDuration env s.sleep j).1.jitter ≤ 100
    split_ifs at this <;> omega
  | setSleep t =>
    have := (SetDuration_timing env s t (s.jitter : Int)).1
    show (s.SetDuration env t (s.jitter : Int)).1.jitter ≤ 100
    split_ifs at this <;> omega
  | swapPass pr c e =>
    exact listenPass_jitter_le env _ c h

/-- C29: a jitter of at most 100 is still at most 100 after any sequence of
`SetDuration`, `SetJitter`, `SetSleep` calls and passes of the session loop
that apply a pending profile; `SetSleep` leaves such a jitter unchanged and
`SetJitter` leaves the sleep unchanged. -/
theorem jitter_bound_invariant (env : Env) (s : Session) (ops : List TimingOp)
    (h : s.jitter ≤ 100) :
    (ops.foldl (applyTimingOp env) s).jitter ≤ 100 ∧
    (∀ t : Int, (s.SetSleep env t).1.jitter = s.jitter) ∧
    (∀ j : Int, (s.SetJitter env j).1.sleep = s.sleep) := by
  refine ⟨?_, fun t => ?_, fun j => (SetDuration_timing env s s.sleep j).2⟩
  · induction ops generalizing s with
    | nil => exact h
    | cons op rest ih =>
      rw [List.foldl_cons]
      exact ih _ (applyTimingOp_jitter_le env s op h)
  · have := (SetDuration_timing env s t (s.jitter : Int)).1
    show (s.SetDuration env t (s.jitter : Int)).1.jitter = s.jitter
    split_ifs at this <;> omega

/-- Witness for C29: the example client session under a call of each setter
with out-of-range arguments and a pass that applies a profile with `Jitter()`
200. -/
theorem jitter_bound_invariant_witness :
    ([TimingOp.setDuration 5 300, TimingOp.setJitter (-7), TimingOp.setSleep 9,
        TimingOp.swapPass { Jitter := 200 } {} false].foldl
      (applyTimingOp {}) clientSession).jitter ≤ 100 ∧
    (∀ t : Int, (clientSession.SetSleep {} t).1.jitter = clientSession.jitter) ∧
    (∀ j : Int, (clientSession.SetJitter {} j).1.sleep = clientSession.sleep) :=
  jitter_bound_invariant {} clientSession _ (by decide)

/-! ## The duration computed by `wait` -/

theorem jitterDuration_eq (sleep : Int) (dr : Draws) (h1 : Millisecond < sleep)
    (h2 : sleep < 4611686018427387904) :
    ∃ d : Int, -sleep < d * Millisecond ∧ d * Millisecond < sleep ∧
      0 < sleep / Millisecond ∧
      jitterDuration sleep dr =
        some { w := sleep + d * Millisecond, arg := some (sleep / Millisecond),
               absTaken := false, zeroTaken := false } := by
  unfold Millisecond at h1
  have hn : 0 < sleep / 1000000 := by omega
  have hd0 := Int.emod_nonneg (dr.raw : Int) (ne_of_gt hn)
  have hd1 := Int.emod_lt_of_pos (dr.raw : Int) hn
  generalize hdv : (dr.raw : Int) % (sleep / 1000000) = d0 at hd0 hd1
  have hnot : ¬ sleep / 1000000 ≤ 0 := by omega
  by_cases hs : dr.sign = 1
  · have hneg : wrap64 (d0 * -1) = -d0 := by unfold wrap64; omega
    have hmul : wrap64 (-d0 * 1000000) = -d0 * 1000000 := by unfold wrap64; omega
    have hw1 : wrap64 (sleep + -d0 * 1000000) = sleep + -d0 * 1000000 := by
      unfold wrap64; omega
    have hp : ¬ sleep + -d0 * 1000000 < 0 := by omega
    have hz : ¬ sleep + -d0 * 1000000 = 0 := by omega
    refine ⟨-d0, by unfold Millisecond; omega, by unfold Millisecond; omega,
      by unfold Millisecond; exact hn, ?_⟩
    unfold jitterDuration Millisecond
    simp only [hnot, if_false, hdv, hs, if_true, hneg, hmul, hw1, hp, hz, decide_False]
  · have hmul : wrap64 (d0 * 1000000) = d0 * 1000000 := by unfold wrap64; omega
    have hw1 : wrap64 (sleep + d0 * 1000000) = sleep + d0 * 1000000 := by
      unfold wrap64; omega
    have hp : ¬ sleep + d0 * 1000000 < 0 := by omega
    have hz : ¬ sleep + d0 * 1000000 = 0 := by omega
    refine ⟨d0, by unfold Millisecond; omega, by unfold Millisecond; omega,
      by unfold Millisecond; exact hn, ?_⟩
    unfold jitterDuration Millisecond
    simp only [hnot, if_false, hdv, hs, hmul, hw1, hp, hz, decide_False]

/-- C28: for `0 < sleep < 2^62` ns, jitter in 0..=100 and every outcome of the
random draws, the duration `wait` programs into the ticker is `sleep + d ms`
for a whole `d` with `|d| ms < sleep` (so it is positive and below
`2 * sleep`), `d = 0` when jitter is 0 or `sleep ≤ 1 ms`; `Int63n` only gets
a positive argument, and neither the `w < 0` nor the `w == 0` branch is
taken. -/
theorem wait_duration_bounds (s : Session) (dr : Draws) (h0 : 0 < s.sleep)
    (h2 : s.sleep < 4611686018427387904) (hj : s.jitter ≤ 100) :
    ∃ (r : WaitCalc) (d : Int), s.waitDuration dr = some r ∧
      r.w = s.sleep + d * Millisecond ∧
      -s.sleep < d * Millisecond ∧ d * Millisecond < s.sleep ∧
      0 < r.w ∧ r.w < 2 * s.sleep ∧
      (s.jitter = 0 ∨ s.sleep ≤ Millisecond → d = 0) ∧
      (∀ n, r.arg = some n → 0 < n) ∧ r.absTaken = false ∧ r.zeroTaken = false := by
  have hplain : ∃ (r : WaitCalc) (d : Int), some ({ w := s.sleep } : WaitCalc) = some r ∧
      r.w = s.sleep + d * Millisecond ∧
      -s.sleep < d * Millisecond ∧ d * Millisecond < s.sleep ∧
      0 < r.w ∧ r.w < 2 * s.sleep ∧
      (s.jitter = 0 ∨ s.sleep ≤ Millisecond → d = 0) ∧
      (∀ n, r.arg = some n → 0 < n) ∧ r.absTaken = false ∧ r.zeroTaken = false := by
    refine ⟨{ w := s.sleep }, 0, rfl, by simp, by omega, by omega, h0,
      (by show s.sleep < 2 * s.sleep; omega),
      fun _ => rfl, fun n hn => by simp at hn, rfl, rfl⟩
  unfold Session.waitDuration
  by_cases hc1 : s.jitter > 0 ∧ s.jitter < 101
  · by_cases hc2 : (s.jitter = 100 ∨ dr.chance % 256 < s.jitter) ∧ s.sleep > Millisecond
    · rw [if_pos hc1, if_pos hc2]
      obtain ⟨d, hd1, hd2, hn, heq⟩ := jitterDuration_eq s.sleep dr hc2.2 h2
      refine ⟨_, d, heq, rfl, hd1, hd2, ?_, ?_, ?_, ?_, rfl, rfl⟩
      · show 0 < s.sleep + d * Millisecond
        omega
      · show s.sleep + d * Millisecond < 2 * s.sleep
        omega
      · intro h
        rcases h with h | h
        · omega
        · have := hc2.2
          omega
      · intro n hn2
        simp only [Option.some.injEq] at hn2
        omega
    · rw [if_pos hc1, if_neg hc2]
      exact hplain
  · rw [if_neg hc1]
    exact hplain

/-- Witness for C28: sleep 10 ms with jitter 100. -/
theorem wait_duration_bounds_witness :
    ∃ (r : WaitCalc) (d : Int),
      Session.waitDuration { sleep := 10000000, jitter := 100 } { raw := 7, sign := 1 } =
        some r ∧
      r.w = (10000000 : Int) + d * Millisecond ∧
      -(10000000 : Int) < d * Millisecond ∧ d * Millisecond < (10000000 : Int) ∧
      0 < r.w ∧ r.w < 2 * (10000000 : Int) ∧
      ((100 : Nat) = 0 ∨ (10000000 : Int) ≤ Millisecond → d = 0) ∧
      (∀ n, r.arg = some n → 0 < n) ∧ r.absTaken = false ∧ r.zeroTaken = false :=
  wait_duration_bounds { sleep := 10000000, jitter := 100 } { raw := 7, sign := 1 }
    (by decide) (by decide) (by decide)

/-! ## Spawn and Migrate -/

theorem be64_eq (v : Nat) :
    be64 v = [v / 256 ^ 7 % 256, v / 256 ^ 6 % 256, v / 256 ^ 5 % 256, v / 256 ^ 4 % 256,
      v / 256 ^ 3 % 256, v / 256 ^ 2 % 256, v / 256 ^ 1 % 256, v / 256 ^ 0 % 256] := rfl

theorem be64_length (v : Nat) : (be64 v).length = 8 := by
  rw [be64_eq]; rfl

theorem beValue_be64 (v : Nat) (h : v < 2 ^ 64) : beValue (be64 v) = v := by
  rw [be64_eq]
  simp only [beValue, List.foldl]
  norm_num at h ⊢
  omega

theorem pipeWrites_none (cs : List (List Nat)) :
    ∀ i, pipeWrites none i cs = (cs.flatten, true) := by
  induction cs with
  | nil => intro i; rfl
  | cons c cs ih =>
    intro i
    simp only [pipeWrites, ih (i + 1), List.flatten,
      if_neg (Option.noConfusion : ¬ (none : Option Nat) = some i)]

theorem migratePipe_sent (s : Session) (io : PipeIO) (job : Nat) (b k : List Nat)
    (hs : io.startOk = true) (hconn : io.connOk = true) (hw : io.writeFail = none) :
    (s.migratePipe io job b k).sent = (s.migrateFrame job b k).flatten := by
  unfold Session.migratePipe
  rw [hs, hconn, hw, pipeWrites_none]
  simp only [Bool.not_true, Bool.false_eq_true, if_false]
  cases io.reply with
  | none => rfl
  | some o =>
    show (if o.1 ≠ 79 ∧ o.2 ≠ 75 then _ else _ : PipeResult).sent = _
    split <;> rfl

theorem migratePipe_error (s : Session) (io : PipeIO) (job : Nat) (b k : List Nat)
    (he : (s.migratePipe io job b k).err ≠ none) :
    (s.migratePipe io job b k).s = s.unsetMoving ∧ (s.migratePipe io job b k).pid = 0 ∧
      (s.migratePipe io job b k).trailer = [] := by
  cases h1 : io.startOk <;> cases h2 : io.connOk <;>
    cases h3 : (pipeWrites io.writeFail 0 (s.migrateFrame job b k)).2 <;>
    cases h4 : io.reply <;>
    simp only [Session.migratePipe, h1, h2, h3, h4, Bool.not_true, Bool.not_false,
      Bool.false_eq_true, if_true, if_false, and_self] at he ⊢
  rename_i o
  by_cases h5 : o.1 ≠ 79 ∧ o.2 ≠ 75
  · rw [if_pos h5]; exact ⟨rfl, rfl, rfl⟩
  · rw [if_neg h5] at he; exact absurd rfl he

/-- C22: a migration in which the runnable starts, the pipe connects and every
write succeeds hands to the writer, before the acknowledgement is read, the
bytes `[job>>8, job&0xFF, 0x0D]`, the eight big-endian bytes of `len(b)`, `b`,
the device id, the eight big-endian bytes of `len(k)` and `k` (empty without a
proxy); a spawn hands over `[0, 0, 0x0F]`, the eight bytes of `len(b)` and `b`;
each length field decodes big-endian to the length it precedes. -/
theorem migrate_frame_bytes (s : Session) (io : PipeIO) (job : Nat) (b k : List Nat)
    (hjob : job < 65536) (hb : b.length < 2 ^ 64) (hk : k.length < 2 ^ 64)
    (hc : s.parent = none) (hm : s.state.moving = false) (hn : io.name.length ≠ 0)
    (hpb : io.profile = some b) (hpk : s.proxyBytes io = some k)
    (hs : io.startOk = true) (hconn : io.connOk = true) (hw : io.writeFail = none) :
    (s.MigrateProfile io job).sent =
        [job / 256, job % 256, 13] ++ be64 b.length ++ b ++ s.ID ++ be64 k.length ++ k ∧
      (s.SpawnProfile io).sent = [0, 0, 15] ++ be64 b.length ++ b ∧
      (be64 b.length).length = 8 ∧ beValue (be64 b.length) = b.length ∧
      (be64 k.length).length = 8 ∧ beValue (be64 k.length) = k.length ∧
      (s.proxy = none → k = []) := by
  have hmv : s.isMoving = false := by simp [Session.isMoving, hm]
  refine ⟨?_, ?_, be64_length _, beValue_be64 _ hb, be64_length _, beValue_be64 _ hk, ?_⟩
  · unfold Session.MigrateProfile
    rw [hc, hmv, hpb, hpk]
    simp only [Option.isSome_none, Bool.false_eq_true, if_false, if_neg hn]
    rw [migratePipe_sent _ _ _ _ _ hs hconn hw]
    have hj : job / 256 % 256 = job / 256 := by omega
    simp only [Session.migrateFrame, Session.migrateBegin, Nat.mod_eq_of_lt hb,
      Nat.mod_eq_of_lt hk, hj]
    by_cases hk0 : k.length > 0
    · rw [if_pos hk0]; simp
    · have hnil : k = [] := List.length_eq_zero.mp (by omega)
      rw [if_neg hk0, hnil]; simp
  · have hf : spawnFrame b = [[0, 0, 15], be64 b.length, b] := by
      simp only [spawnFrame, Nat.mod_eq_of_lt hb]
    unfold Session.SpawnProfile
    simp only [hc, hmv, hpb, hs, hconn, hw, pipeWrites_none, Option.isSome_none,
      Bool.false_eq_true, if_false, if_neg hn, Bool.not_true]
    cases io.reply with
    | none => simp [hf]
    | some o =>
      show (if o.1 ≠ 79 ∧ o.2 ≠ 75 then _ else _ : PipeResult).sent = _
      split <;> simp [hf]
  · intro hp
    unfold Session.proxyBytes at hpk
    rw [hp] at hpk
    exact (Option.some.inj hpk).symm

theorem migrate_frame_bytes_witness :
    (clientSession.MigrateProfile exPipe 7).sent =
        [7 / 256, 7 % 256, 13] ++ be64 3 ++ [1, 2, 3] ++ clientSession.ID ++ be64 0 ++ [] ∧
      (clientSession.SpawnProfile exPipe).sent = [0, 0, 15] ++ be64 3 ++ [1, 2, 3] ∧
      (be64 3).length = 8 ∧ beValue (be64 3) = 3 ∧
      (be64 0).length = 8 ∧ beValue (be64 0) = 0 ∧
      (clientSession.proxy = none → ([] : List Nat) = []) :=
  migrate_frame_bytes clientSession exPipe 7 [1, 2, 3] [] (by decide) (by decide)
    (by decide) rfl rfl (by decide) rfl rfl rfl rfl rfl

/-- C23 (code at the failing inputs): a spawn whose child answers `O X` and a
migration whose child answers `X K` are both accepted: no error, the pid is
returned, and the migration sets Closing and writes its `OK`. -/
theorem ack_accepts_half_match :
    (clientSession.SpawnProfile spawnOX).err = none ∧
      (clientSession.SpawnProfile spawnOX).pid = 42 ∧
      (clientSession.MigrateProfile migrateXK 7).err
        = none ∧
      (clientSession.MigrateProfile migrateXK 7).pid
        = 42 ∧
      (clientSession.MigrateProfile migrateXK
        7).s.state.closing = true ∧
      (clientSession.MigrateProfile migrateXK
        7).trailer = [79, 75] := by
  decide

/-- C24: for a client session that is not Moving, a `MigrateProfile` that
returns an error leaves the Moving bit clear and the Closing bit as it was,
returns pid 0 and writes nothing after the acknowledgement; a runnable that
does not start, and a pipe that does not connect (`ErrNoConn`), are such
errors once the arguments are accepted. -/
theorem migrate_error_clears_moving (s : Session) (io : PipeIO) (job : Nat)
    (hc : s.parent = none) (hm : s.state.moving = false)
    (he : (s.MigrateProfile io job).err ≠ none) :
    (s.MigrateProfile io job).s.state.moving = false ∧
      (s.MigrateProfile io job).s.state.closing = s.state.closing ∧
      (s.MigrateProfile io job).pid = 0 ∧ (s.MigrateProfile io job).trailer = [] ∧
      (∀ b k, io.name.length ≠ 0 → io.profile = some b → s.proxyBytes io = some k →
        (io.startOk = false → (s.MigrateProfile io job).err = some PipeErr.start) ∧
        (io.startOk = true → io.connOk = false →
          (s.MigrateProfile io job).err = some PipeErr.ErrNoConn)) := by
  have hmv : s.isMoving = false := by simp [Session.isMoving, hm]
  have hpipe : ∀ b k, (s.migrateBegin.migratePipe io job b k).err ≠ none →
      (s.migrateBegin.migratePipe io job b k).s.state.moving = false ∧
      (s.migrateBegin.migratePipe io job b k).s.state.closing = s.state.closing ∧
      (s.migrateBegin.migratePipe io job b k).pid = 0 ∧
      (s.migrateBegin.migratePipe io job b k).trailer = [] := by
    intro b k h
    obtain ⟨h1, h2, h3⟩ := migratePipe_error s.migrateBegin io job b k h
    rw [h1]
    exact ⟨rfl, rfl, h2, h3⟩
  have hrun : ∀ b k, io.name.length ≠ 0 → io.profile = some b → s.proxyBytes io = some k →
      s.MigrateProfile io job = s.migrateBegin.migratePipe io job b k := by
    intro b k hn hpb hpk
    unfold Session.MigrateProfile
    simp only [hc, hmv, hpb, hpk, Option.isSome_none, Bool.false_eq_true, if_false, if_neg hn]
  have hmain : (s.MigrateProfile io job).s.state.moving = false ∧
      (s.MigrateProfile io job).s.state.closing = s.state.closing ∧
      (s.MigrateProfile io job).pid = 0 ∧ (s.MigrateProfile io job).trailer = [] := by
    by_cases hn : io.name.length = 0
    · have hr : s.MigrateProfile io job = { s := s, err := some PipeErr.invalidName } := by
        unfold Session.MigrateProfile
        simp only [hc, hmv, Option.isSome_none, Bool.false_eq_true, if_false, if_pos hn]
      rw [hr]; exact ⟨hm, rfl, rfl, rfl⟩
    · cases hpb : io.profile with
      | none =>
        have hr : s.MigrateProfile io job = { s := s, err := some PipeErr.cannotMarshal } := by
          unfold Session.MigrateProfile
          simp only [hc, hmv, hpb, Option.isSome_none, Bool.false_eq_true, if_false, if_neg hn]
        rw [hr]; exact ⟨hm, rfl, rfl, rfl⟩
      | some b =>
        cases hpk : s.proxyBytes io with
        | none =>
          have hr : s.MigrateProfile io job =
              { s := s, err := some PipeErr.cannotMarshalProxy } := by
            unfold Session.MigrateProfile
            simp only [hc, hmv, hpb, hpk, Option.isSome_none, Bool.false_eq_true, if_false,
              if_neg hn]
          rw [hr]; exact ⟨hm, rfl, rfl, rfl⟩
        | some k =>
          rw [hrun b k hn hpb hpk] at he ⊢
          exact hpipe b k he
  refine ⟨hmain.1, hmain.2.1, hmain.2.2.1, hmain.2.2.2, ?_⟩
  intro b k hn hpb hpk
  rw [hrun b k hn hpb hpk]
  constructor
  · intro h1
    simp only [Session.migratePipe, h1, Bool.not_false, if_true]
  · intro h1 h2
    simp only [Session.migratePipe, h1, h2, Bool.not_true, Bool.not_false, Bool.false_eq_true,
      if_true, if_false]

theorem migrate_error_clears_moving_witness :
    (clientSession.MigrateProfile noConnPipe 7).s.state.moving = false ∧
      (clientSession.MigrateProfile noConnPipe 7).s.state.closing =
        clientSession.state.closing ∧
      (clientSession.MigrateProfile noConnPipe 7).pid = 0 ∧
      (clientSession.MigrateProfile noConnPipe 7).trailer = [] ∧
      (∀ b k, noConnPipe.name.length ≠ 0 →
        noConnPipe.profile = some b →
        clientSession.proxyBytes noConnPipe = some k →
        (noConnPipe.startOk = false →
          (clientSession.MigrateProfile noConnPipe 7).err
            = some PipeErr.start) ∧
        (noConnPipe.startOk = true →
          noConnPipe.connOk = false →
          (clientSession.MigrateProfile noConnPipe 7).err
            = some PipeErr.ErrNoConn)) :=
  migrate_error_clears_moving clientSession noConnPipe 7 rfl rfl
    (by decide)

/-! ## The exchange -/

theorem latchChannel_channel (s : Session) (n : Packet) :
    (s.latchChannel n).state.channel = (s.state.channel || n.Flags.channel) := by
  unfold Session.latchChannel
  cases h1 : n.Flags.channel <;> cases h2 : s.state.channel <;>
    simp [Session.setChannel, h2]

theorem sessionEnd_facts (x : Exchange) (s : Session) (n r : Packet) :
    (s.sessionEnd x n r).out = some n ∧
      (s.sessionEnd x n r).atReceive = some s.state.channel := by
  unfold Session.sessionEnd
  split
  · exact ⟨rfl, rfl⟩
  · split <;> exact ⟨rfl, rfl⟩

theorem sessionRead_facts (x : Exchange) (s : Session) (n : Packet) :
    (s.sessionRead x n).out = some n ∧
      (x.writeOk = true → ∀ p, x.reply = some p →
        (s.sessionRead x n).atReceive =
          some (s.state.channel || n.Flags.channel || p.Flags.channel)) := by
  unfold Session.sessionRead
  cases hw : x.writeOk
  · exact ⟨rfl, fun h => absurd h (by decide)⟩
  · cases hr : x.reply with
    | none => exact ⟨rfl, fun _ p hp => absurd hp (by simp)⟩
    | some r =>
      simp only [Bool.not_true, Bool.false_eq_true, if_false]
      refine ⟨(sessionEnd_facts x _ n r).1, fun _ p hp => ?_⟩
      rw [← Option.some.inj hp, (sessionEnd_facts x _ n r).2, latchChannel_channel,
        latchChannel_channel]

/-- C21 (counterexample): with `ChannelCanStart` false throughout, a queued
packet that carries `FlagChannel` puts the session into Channel mode, and so
does a reply that carries it: the bit is set when the reply is handed to
`receive` and the Channel-mode phase runs. -/
theorem session_channel_from_flag :
    noStart.canStart (flagSession.setChannel false).state = false ∧
      (flagSession.session exEnv noStart).map (fun r => (r.ok, r.atReceive, r.ran)) =
        some (true, some true, true) ∧
      peerFlag.canStart (idleSession.setChannel false).state = false ∧
      (idleSession.session exEnv peerFlag).map (fun r => (r.ok, r.atReceive, r.ran)) =
        some (true, some true, true) := by
  decide

/-- C21 (amended): when `next` yields the packet `n`, the exchange hands to
`writePacket` the packet `n` with its Channel flag raised if `ChannelCanStart`
holds after the bit was cleared; once the write succeeded and a reply `p` was
read, the Channel bit is set when `p` is handed to `receive` exactly if
`ChannelCanStart` held, or `n` carried `FlagChannel`, or `p` carries it. -/
theorem session_channel_bit (env : Env) (x : Exchange) (s s1 : Session) (n : Packet)
    (h : s.next env false = some (s1, some n)) :
    ∃ r, s.session env x = some r ∧
      r.out = some { n with Flags := { n.Flags with
        channel := x.canStart (s1.setChannel false).state || n.Flags.channel } } ∧
      (x.writeOk = true → ∀ p, x.reply = some p →
        r.atReceive = some (x.canStart (s1.setChannel false).state || n.Flags.channel ||
          p.Flags.channel)) := by
  unfold Session.session Session.sessionPick
  rw [h]
  simp only
  cases hc : x.canStart (s1.setChannel false).state
  · cases hn : n.Flags.channel
    · simp only [Bool.false_eq_true, if_false, Option.map_some', Bool.or_false]
      refine ⟨_, rfl, ?_, ?_⟩
      · rw [(sessionRead_facts x _ n).1]
        simp only [← hn]
      · intro hw p hp
        rw [(sessionRead_facts x _ n).2 hw p hp]
        simp [Session.setChannel, hn]
    · simp only [Bool.false_eq_true, if_false, if_true, Option.map_some', Bool.false_or]
      refine ⟨_, rfl, ?_, ?_⟩
      · rw [(sessionRead_facts x _ n).1]
        simp only [← hn]
      · intro hw p hp
        rw [(sessionRead_facts x _ n).2 hw p hp]
        simp [Session.setChannel, hn]
  · simp only [if_true, Option.map_some', Bool.true_or]
    refine ⟨_, rfl, ?_, ?_⟩
    · rw [(sessionRead_facts x _ _).1]
    · intro hw p hp
      rw [(sessionRead_facts x _ _).2 hw p hp]
      simp [Session.setChannel]

theorem session_channel_bit_witness :
    ∃ r, flagSession.session exEnv noStart = some r ∧
      r.out = some { flagPacket with Flags := { flagPacket.Flags with
        channel := noStart.canStart
          (({ flagSession with send := { flagSession.send with buf := [] } } : Session).setChannel
            false).state || flagPacket.Flags.channel } } ∧
      (noStart.writeOk = true → ∀ p, noStart.reply = some p →
        r.atReceive = some (noStart.canStart
          (({ flagSession with send := { flagSession.send with buf := [] } } : Session).setChannel
            false).state || flagPacket.Flags.channel || p.Flags.channel)) :=
  session_channel_bit exEnv noStart flagSession _ flagPacket (by decide)

/-! ## The line parser of `release` -/

theorem indexByteFrom_spec (c : Nat) : ∀ (v : List Nat) (i : Nat),
    (indexByteFrom c v i = -1 ∧ ∀ y ∈ v, y ≠ c) ∨
    (∃ k : Nat, indexByteFrom c v i = ((i + k : Nat) : Int) ∧ k < v.length ∧ v[k]? = some c ∧
      ∀ j, j < k → v[j]? ≠ some c) := by
  intro v
  induction v with
  | nil => intro i; left; exact ⟨rfl, fun y hy => absurd hy (List.not_mem_nil y)⟩
  | cons b bs ih =>
    intro i
    by_cases hb : b = c
    · right
      refine ⟨0, ?_, by simp, by simp [hb], fun j hj => absurd hj (Nat.not_lt_zero j)⟩
      simp [indexByteFrom, hb]
    · rcases ih (i + 1) with ⟨h1, h2⟩ | ⟨k, h1, h2, h3, h4⟩
      · left
        refine ⟨by simp only [indexByteFrom, if_neg hb, h1], ?_⟩
        intro y hy
        rcases List.mem_cons.mp hy with h | h
        · rw [h]; exact hb
        · exact h2 y h
      · right
        refine ⟨k + 1, ?_, by simp; omega, by simpa using h3, ?_⟩
        · simp only [indexByteFrom, if_neg hb, h1]
          congr 1; omega
        · intro j hj
          cases j with
          | zero => simp; exact hb
          | succ j => simpa using h4 j (by omega)

theorem scanBack_spec (v : List Nat) (x : Nat) : ∀ c, c < v.length →
    ∃ c2, scanBack v x c = some c2 ∧ c2 ≤ c ∧ (x ≤ c → x ≤ c2) ∧
      (∀ i, c2 < i → i ≤ c → v[i]? = some 34) ∧
      (x < c2 → ∃ b, v[c2]? = some b ∧ b ≠ 34) := by
  intro c
  induction c with
  | zero =>
    intro _
    exact ⟨0, rfl, le_refl _, fun h => h, fun i h1 h2 => absurd h1 (by omega),
      fun h => absurd h (by omega)⟩
  | succ c ih =>
    intro hc
    by_cases hx : c + 1 > x
    · have hget : v[c + 1]? = some (v[c + 1]) := List.getElem?_eq_getElem hc
      by_cases hq : v[c + 1] = 34
      · obtain ⟨c2, h1, h2, h3, h4, h5⟩ := ih (by omega)
        refine ⟨c2, ?_, by omega, fun _ => h3 (by omega), ?_, h5⟩
        · simp only [scanBack, if_pos hx, hget, if_pos hq, h1]
        · intro i hi1 hi2
          by_cases hi : i = c + 1
          · rw [hi, hget, hq]
          · exact h4 i hi1 (by omega)
      · refine ⟨c + 1, ?_, le_refl _, fun h => h, fun i h1 h2 => absurd h1 (by omega),
          fun _ => ⟨_, hget, hq⟩⟩
        simp only [scanBack, if_pos hx, hget, if_neg hq]
    · refine ⟨c + 1, ?_, le_refl _, fun h => h, fun i h1 h2 => absurd h1 (by omega),
        fun h => absurd h (by omega)⟩
      simp only [scanBack, if_neg hx]

theorem scanFwd_spec (v : List Nat) (c : Nat) (hc : c < v.length) : ∀ fuel s,
    c + 1 ≤ s + fuel → 0 < fuel →
    ∃ s2, scanFwd v c fuel s = some s2 ∧ s ≤ s2 ∧ (s ≤ c → s2 ≤ c) ∧ (c ≤ s → s2 = s) ∧
      (∀ i, s ≤ i → i < s2 → v[i]? = some 34) ∧
      (s2 < c → ∃ b, v[s2]? = some b ∧ b ≠ 34) := by
  intro fuel
  induction fuel with
  | zero => intro s _ h; exact absurd h (by omega)
  | succ fuel ih =>
    intro s hf _
    by_cases hs : s < c
    · have hget : v[s]? = some (v[s]) := List.getElem?_eq_getElem (by omega)
      by_cases hq : v[s] = 34
      · obtain ⟨s2, h1, h2, h3, _, h4, h5⟩ := ih (s + 1) (by omega) (by omega)
        refine ⟨s2, ?_, by omega, fun _ => h3 (by omega), fun h => absurd h (by omega), ?_, h5⟩
        · simp only [scanFwd, if_pos hs, hget, if_pos hq, h1]
        · intro i hi1 hi2
          by_cases hi : i = s
          · rw [hi, hget, hq]
          · exact h4 i (by omega) hi2
      · refine ⟨s, ?_, le_refl _, fun h => h, fun _ => rfl,
          fun i h1 h2 => absurd h1 (by omega), fun _ => ⟨_, hget, hq⟩⟩
        simp only [scanFwd, if_pos hs, hget, if_neg hq]
    · refine ⟨s, ?_, le_refl _, fun h => h, fun _ => rfl,
        fun i h1 h2 => absurd h1 (by omega), fun h => absurd h hs⟩
      simp only [scanFwd, if_neg hs]

theorem dropWhile_append_all (p : Nat → Bool) (a r : List Nat) (ha : ∀ y ∈ a, p y = true) :
    (a ++ r).dropWhile p = r.dropWhile p := by
  induction a with
  | nil => rfl
  | cons y ys ih =>
    rw [List.cons_append, List.dropWhile_cons_of_pos (ha y (List.mem_cons_self y ys))]
    exact ih fun z hz => ha z (List.mem_cons_of_mem y hz)

theorem rdropWhile_append_all (p : Nat → Bool) (l b : List Nat) (hb : ∀ y ∈ b, p y = true) :
    (l ++ b).rdropWhile p = l.rdropWhile p := by
  unfold List.rdropWhile
  rw [List.reverse_append, dropWhile_append_all p _ _ fun y hy => hb y (List.mem_reverse.mp hy)]

theorem trim_of_split (a val b : List Nat) (ha : ∀ y ∈ a, y = 34) (hb : ∀ y ∈ b, y = 34)
    (hh : val.head? ≠ some 34) (hl : val.getLast? ≠ some 34) :
    ((a ++ val ++ b).dropWhile (fun y => y == 34)).rdropWhile (fun y => y == 34) = val := by
  have ha2 : ∀ y ∈ a, (fun y : Nat => y == 34) y = true := fun y hy => by
    simp [ha y hy]
  have hb2 : ∀ y ∈ b, (fun y : Nat => y == 34) y = true := fun y hy => by
    simp [hb y hy]
  rw [List.append_assoc, dropWhile_append_all _ a _ ha2]
  cases val with
  | nil =>
    rw [List.nil_append]
    have h0 : b.dropWhile (fun y => y == 34) = [] := by
      have := dropWhile_append_all _ b [] hb2
      rw [List.append_nil] at this
      rw [this]; rfl
    rw [h0]; rfl
  | cons h t =>
    have hne : ¬ (h == 34) = true := by
      intro hq
      exact hh (by simp [beq_iff_eq.mp hq])
    have hd : List.dropWhile (fun y : Nat => y == 34) (h :: (t ++ b)) = h :: (t ++ b) :=
      @List.dropWhile_cons_of_neg Nat (fun y => y == 34) h (t ++ b) hne
    rw [List.cons_append, hd, ← List.cons_append, rdropWhile_append_all _ _ b hb2]
    apply List.rdropWhile_eq_self_iff.mpr
    intro hnil hq
    apply hl
    rw [List.getLast?_eq_getLast _ hnil, beq_iff_eq.mp hq]

theorem releaseLine_value (ToUpper : List Nat → List Nat) (v : List Nat) (k : Nat)
    (hk1 : 1 ≤ k) (hk2 : k + 2 ≤ v.length) (hidx : IndexByte v 61 = (k : Int)) :
    ∃ (val a b : List Nat), releaseLine ToUpper v = some (some (ToUpper (v.take k), val)) ∧
      v.drop (k + 1) = a ++ val ++ b ∧ (∀ y ∈ a, y = 34) ∧ (∀ y ∈ b, y = 34) ∧
      val.head? ≠ some 34 ∧ val.getLast? ≠ some 34 := by
  obtain ⟨c, hc1, hc2, hc3, hc4, hc5⟩ := scanBack_spec v k (v.length - 1) (by omega)
  have hck : k ≤ c := hc3 (by omega)
  have hclt : c < v.length := by omega
  obtain ⟨s, hs1, hs2, hs3, hs4, hs5, hs6⟩ :=
    scanFwd_spec v c hclt (v.length + 1) (k + 1) (by omega) (by omega)
  have hsc : s ≤ c + 1 := by
    by_cases h : k + 1 ≤ c
    · have := hs3 h; omega
    · have := hs4 (by omega); omega
  have hrun : releaseLine ToUpper v =
      some (some (ToUpper (v.take k), (v.drop s).take (c + 1 - s))) := by
    have hg : ¬ ((k : Int) < 1 ∨ (v.length : Int) - (k : Int) < 2) := by omega
    simp only [releaseLine, hidx, if_neg hg, Int.toNat_ofNat, hc1, hs1]
    rw [if_pos ⟨hsc, by omega⟩]
  clear hidx
  refine ⟨(v.drop s).take (c + 1 - s), (v.drop (k + 1)).take (s - (k + 1)), v.drop (c + 1),
    hrun, ?_, ?_, ?_, ?_, ?_⟩
  · have h1 : v.drop (k + 1) =
        (v.drop (k + 1)).take (s - (k + 1)) ++ (v.drop (k + 1)).drop (s - (k + 1)) :=
      (List.take_append_drop _ _).symm
    have h2 : (v.drop (k + 1)).drop (s - (k + 1)) = v.drop s := by
      rw [List.drop_drop]; congr 1; omega
    have h3 : v.drop s = (v.drop s).take (c + 1 - s) ++ (v.drop s).drop (c + 1 - s) :=
      (List.take_append_drop _ _).symm
    have h4 : (v.drop s).drop (c + 1 - s) = v.drop (c + 1) := by
      rw [List.drop_drop]; congr 1; omega
    rw [h4] at h3
    rw [h2] at h1
    rw [List.append_assoc, ← h3]
    exact h1
  · intro y hy
    obtain ⟨i, hi⟩ := List.mem_iff_getElem?.mp hy
    rw [List.getElem?_take] at hi
    by_cases hlt : i < s - (k + 1)
    · rw [if_pos hlt, List.getElem?_drop] at hi
      have := hs5 (k + 1 + i) (by omega) (by omega)
      rw [this] at hi
      exact (Option.some.inj hi).symm
    · rw [if_neg hlt] at hi
      exact absurd hi (by simp)
  · intro y hy
    obtain ⟨i, hi⟩ := List.mem_iff_getElem?.mp hy
    rw [List.getElem?_drop] at hi
    by_cases hlt : c + 1 + i < v.length
    · have hle : c + 1 + i ≤ v.length - 1 := Nat.le_sub_one_of_lt hlt
      have := hc4 (c + 1 + i) (Nat.lt_of_lt_of_le (Nat.lt_succ_self c) (Nat.le_add_right _ i)) hle
      rw [this] at hi
      exact (Option.some.inj hi).symm
    · rw [List.getElem?_eq_none (by omega)] at hi
      exact absurd hi (by simp)
  · by_cases h0 : c + 1 - s = 0
    · rw [h0]; simp
    · rw [List.head?_take, if_neg h0, List.head?_drop]
      by_cases hlt : s < c
      · obtain ⟨b, hb1, hb2⟩ := hs6 hlt
        rw [hb1]
        intro h
        exact hb2 (Option.some.inj h)
      · have hsceq : s = c := by omega
        obtain ⟨b, hb1, hb2⟩ := hc5 (by omega)
        rw [hsceq, hb1]
        intro h
        exact hb2 (Option.some.inj h)
  · by_cases h0 : c + 1 - s = 0
    · rw [h0]; simp
    · have hlen : ((v.drop s).take (c + 1 - s)).length = c + 1 - s := by
        rw [List.length_take, List.length_drop]; omega
      rw [List.getLast?_eq_getElem?, hlen, List.getElem?_take, if_pos (by omega),
        List.getElem?_drop]
      have he : s + (c + 1 - s - 1) = c := by omega
      rw [he]
      obtain ⟨b, hb1, hb2⟩ := hc5 (by omega)
      rw [hb1]
      intro h
      exact hb2 (Option.some.inj h)

/-- C30: the line parser of `release` never indexes or slices out of range: it
returns for every line `v`.  A line is recorded exactly when its first `=` is
at an index `x` of at least 1 with at least one byte after it; the key is
`ToUpper` of the text before that `=`, and the value is the text after it
without its leading and trailing `"` bytes: the text is `a ++ val ++ b` with
`a` and `b` made of quotes only, `val` neither starts nor ends with a quote,
and `val` is empty when the text is made of quotes only. -/
theorem releaseLine_total (ToUpper : List Nat → List Nat) (v : List Nat) :
    ∃ r, releaseLine ToUpper v = some r ∧
      (∀ key val, r = some (key, val) →
        ∃ (x : Nat) (a b : List Nat), 1 ≤ x ∧ x + 2 ≤ v.length ∧ v[x]? = some 61 ∧
          (∀ j, j < x → v[j]? ≠ some 61) ∧ key = ToUpper (v.take x) ∧
          v.drop (x + 1) = a ++ val ++ b ∧ (∀ y ∈ a, y = 34) ∧ (∀ y ∈ b, y = 34) ∧
          val.head? ≠ some 34 ∧ val.getLast? ≠ some 34 ∧
          val = ((v.drop (x + 1)).dropWhile fun y => y == 34).rdropWhile (fun y => y == 34) ∧
          ((∀ y ∈ v.drop (x + 1), y = 34) → val = [])) ∧
      (r = none → ¬ ∃ x : Nat, 1 ≤ x ∧ x + 2 ≤ v.length ∧ v[x]? = some 61 ∧
        ∀ j, j < x → v[j]? ≠ some 61) := by
  rcases indexByteFrom_spec 61 v 0 with ⟨h1, h2⟩ | ⟨k, h1, h2, h3, h4⟩
  · have hrun : releaseLine ToUpper v = some none := by
      have hg : (-1 : Int) < 1 ∨ (v.length : Int) - (-1 : Int) < 2 := Or.inl (by decide)
      simp only [releaseLine, IndexByte, h1, if_pos hg]
    refine ⟨none, hrun, fun key val h => absurd h (by simp), fun _ => ?_⟩
    rintro ⟨x, _, _, hx, _⟩
    exact h2 61 (List.mem_iff_getElem?.mpr ⟨x, hx⟩) rfl
  · have hidx : IndexByte v 61 = (k : Int) := by
      unfold IndexByte; rw [h1]; congr 1; omega
    by_cases hg : (k : Int) < 1 ∨ (v.length : Int) - (k : Int) < 2
    · have hrun : releaseLine ToUpper v = some none := by
        simp only [releaseLine, hidx, if_pos hg]
      refine ⟨none, hrun, fun key val h => absurd h (by simp), fun _ => ?_⟩
      rintro ⟨x, hx1, hx2, hx3, hx4⟩
      have hxk : x = k := by
        rcases Nat.lt_trichotomy x k with h | h | h
        · exact absurd hx3 (h4 x h)
        · exact h
        · exact absurd h3 (hx4 k h)
      omega
    · have hk1 : 1 ≤ k := by omega
      have hk2 : k + 2 ≤ v.length := by omega
      obtain ⟨val, a, b, hrun, hsplit, ha, hb, hh, hl⟩ :=
        releaseLine_value ToUpper v k hk1 hk2 hidx
      refine ⟨_, hrun, ?_, fun h => absurd h (by simp)⟩
      intro key val2 hkv
      have hkey : ToUpper (v.take k) = key :=
        congrArg Prod.fst (Option.some.inj hkv)
      have hval : val = val2 := congrArg Prod.snd (Option.some.inj hkv)
      rw [← hval]
      refine ⟨k, a, b, hk1, hk2, h3, h4, hkey.symm, hsplit, ha, hb, hh, hl, ?_, ?_⟩
      · rw [hsplit]; exact (trim_of_split a val b ha hb hh hl).symm
      · intro hall
        cases hv : val with
        | nil => rfl
        | cons y ys =>
          rw [hv] at hh hsplit
          have hy : y ∈ v.drop (k + 1) := by rw [hsplit]; simp
          exact absurd (by simp [hall y hy]) hh

end XMT
